import Mathlib

/-!
Scan orchestrator and result renderers: a shallow embedding.

Source files embedded here (all under `src/scanner/static/scanner/`):

* `scanner.js` - the scan-form submit handler (`runNextAction` and its two
  ajax callbacks), `handleScanResult`, the progress panel helpers;
* `securityHeadersHandler.js`, `emailSecurityHandlers.js`,
  `frontendLibrariesHandler.js`, `sslHandler.js` - the renderers.

Conventions of the embedding.

* A JSON response is a `JsVal`.  A number is a `JsNum`: the code tests payload
  numbers for truthiness, compares them with an integer literal and prints
  them, and never computes with them, so a finite number is kept by the
  decimal that `String(x)` prints for it.  An object is the list of
  its own properties; the first binding of a key is the one in effect.  Payload
  objects are taken not to carry own keys that shadow `Object.prototype`
  methods (`toString`, `valueOf`), so string conversion of a value is total.
* The arithmetic the code does itself, `Math.round((completed / total) * 100)`
  in `updateOverallProgress` and `Math.round((passed / checks.length) * 100)`
  in `calculateSSLScore`, is done in IEEE 754 binary64 with rounding to
  nearest, ties to even (`toBinary64`).
* A JavaScript exception is an `Except.error`: reading a property of
  `null`/`undefined`, calling a method the receiver does not have, or calling
  an identifier that is not declared.
* The page is a record of what the code writes into `#result-container`: the
  progress panel (written by `.html(...)`) and the list of blocks appended
  after it.  A block keeps the values interpolated into its template; the
  fixed markup around them is not repeated.  Interpolated payload text is
  treated as text (it is taken not to contain markup carrying the ids that
  the code selects).
* `toLowerCase`/`toUpperCase` map the ASCII letters; `toLowerCase` also maps
  the Kelvin sign to `k`, which is the only other character whose lower case
  is an ASCII letter, so comparisons of a lowered string with an ASCII
  literal are exact.  A string is its list of characters; `length` and
  `slice` count UTF-16 code units (`utf16`), two for a character outside the
  Basic Multilingual Plane, and the text left by a `slice` is kept as code
  units, because a cut between the two halves of a pair leaves a lone
  surrogate.
-/

namespace Scanner

/-! ## JavaScript values -/

/-- A JavaScript number, as far as the embedded code observes one.  A finite
number is given by a decimal, `digits * 10 ^ exp`, negated when `neg` is set
(`neg` with `digits = 0` is `-0`): the shortest decimal that reads back as the
double, which is the one `String(x)` prints and, for a JSON literal of at most
15 significant digits, the literal itself.  Comparing such a decimal with an
integer literal gives what comparing the double gives. -/
inductive JsNum where
  | finite (neg : Bool) (digits : Nat) (exp : Int)
  /-- `Infinity`, or `-Infinity` when `neg` is set. -/
  | infinite (neg : Bool)
  | nan
  deriving DecidableEq, Inhabited

namespace JsNum

/-- The number of a natural-number literal or of a `length`. -/
def ofNat (n : Nat) : JsNum := finite false n 0

/-- The number of an integer. -/
def ofInt (i : Int) : JsNum := finite (decide (i < 0)) i.natAbs 0

instance (n : Nat) : OfNat JsNum n := ⟨ofNat n⟩

/-- Truthiness of a number: `0`, `-0` and `NaN` are falsy. -/
def truthy : JsNum → Bool
  | finite _ d _ => d != 0
  | infinite _ => true
  | nan => false

/-- Whether `b < d * 10 ^ e`. -/
def scaledGt (d : Nat) (e : Int) (b : Nat) : Bool :=
  match e with
  | .ofNat k => decide (b < d * 10 ^ k)
  | .negSucc k => decide (b * 10 ^ (k + 1) < d)

/-- Whether `d * 10 ^ e < b`. -/
def scaledLt (d : Nat) (e : Int) (b : Nat) : Bool :=
  match e with
  | .ofNat k => decide (d * 10 ^ k < b)
  | .negSucc k => decide (d < b * 10 ^ (k + 1))

/-- The comparison `x > b` for a natural-number literal `b`. -/
def gtNat : JsNum → Nat → Bool
  | finite neg d e, b => !neg && scaledGt d e b
  | infinite neg, _ => !neg
  | nan, _ => false

/-- The comparison `x < b` for a natural-number literal `b`. -/
def ltNat : JsNum → Nat → Bool
  | finite neg d e, b => (neg && d != 0) || scaledLt d e b
  | infinite neg, _ => neg
  | nan, _ => false

/-- The comparison `x >= b` for a natural-number literal `b`. -/
def geNat : JsNum → Nat → Bool
  | nan, _ => false
  | x, b => !x.ltNat b

/-- A run of `m` zeros. -/
def zeros (m : Nat) : String := String.mk (List.replicate m (Char.ofNat 48))

/-- The decimal digits of `d` without its trailing zeros. -/
def significant (d : Nat) : List Char :=
  ((Nat.toDigits 10 d).reverse.dropWhile (fun c => c == Char.ofNat 48)).reverse

/-- The exponent part of the scientific form: the sign and magnitude of
`n - 1`. -/
def exponentText (n : Int) : String :=
  (if n - 1 < 0 then "-" else "+") ++ toString (n - 1).natAbs

/-- `String(x)` for a number (ECMAScript `Number::toString`, radix 10).  With
`k` significant digits and the decimal point after the `n`-th of them: plain
digits padded with zeros when `k ≤ n ≤ 21`, a decimal point inside the digits
when `0 < n ≤ 21`, `0.` and `-n` zeros in front when `-6 < n ≤ 0`, and the
scientific form otherwise. -/
def toStr : JsNum → String
  | nan => "NaN"
  | infinite neg => if neg then "-Infinity" else "Infinity"
  | finite neg d e =>
    if d = 0 then "0"
    else
      let ds := significant d
      let k := ds.length
      let n : Int := e + ((Nat.toDigits 10 d).length : Int)
      let body :=
        if (k : Int) ≤ n ∧ n ≤ 21 then String.mk ds ++ zeros (n - k).toNat
        else if 0 < n ∧ n ≤ 21 then
          String.mk (ds.take n.toNat) ++ "." ++ String.mk (ds.drop n.toNat)
        else if -6 < n ∧ n ≤ 0 then "0." ++ zeros (-n).toNat ++ String.mk ds
        else if k = 1 then String.mk ds ++ "e" ++ exponentText n
        else String.mk (ds.take 1) ++ "." ++ String.mk (ds.drop 1) ++ "e" ++ exponentText n
      if neg then "-" ++ body else body

end JsNum

/-- The UTF-16 code units of a character: one for a character of the Basic
Multilingual Plane, a surrogate pair for any other. -/
def utf16Char (c : Char) : List Nat :=
  if c.toNat < 0x10000 then [c.toNat]
  else [0xD800 + (c.toNat - 0x10000) / 0x400, 0xDC00 + (c.toNat - 0x10000) % 0x400]

/-- The UTF-16 code units of a list of characters. -/
def utf16Chars : List Char → List Nat
  | [] => []
  | c :: rest => utf16Char c ++ utf16Chars rest

/-- A string as JavaScript holds it: its UTF-16 code units. -/
def utf16 (s : String) : List Nat := utf16Chars s.data

/-- A parsed JSON value, plus `undefined` for a missing property. -/
inductive JsVal where
  | undefined
  | null
  | bool (b : Bool)
  | num (n : JsNum)
  | str (s : String)
  | arr (xs : List JsVal)
  | obj (fields : List (String × JsVal))
  deriving Inhabited

/-- The exceptions the embedded code can raise. -/
inductive JsError where
  /-- `TypeError`: property read on `null`/`undefined`, or a call of something
  that is not a function; the string names the offending expression. -/
  | typeError (what : String)
  /-- `ReferenceError`: an identifier that is declared nowhere. -/
  | referenceError (ident : String)
  deriving DecidableEq, Repr

deriving instance DecidableEq for Except

namespace JsVal

/-- JavaScript truthiness (`!!v`). -/
def truthy : JsVal → Bool
  | undefined => false
  | null => false
  | bool b => b
  | num n => n.truthy
  | str s => s != ""
  | arr _ => true
  | obj _ => true

/-- `v === undefined || v === null`. -/
def nullish : JsVal → Bool
  | undefined => true
  | null => true
  | _ => false

/-- `typeof v === "object"` (true of `null`, arrays and objects). -/
def typeofObject : JsVal → Bool
  | null => true
  | arr _ => true
  | obj _ => true
  | _ => false

/-- `Array.isArray(v)`. -/
def isArray : JsVal → Bool
  | arr _ => true
  | _ => false

/-- `v === "lit"` for a string literal. -/
def strictEqStr : JsVal → String → Bool
  | str s, lit => s == lit
  | _, _ => false

/-- `a || b`. -/
def or (a b : JsVal) : JsVal := if a.truthy then a else b

/-- `a && b`. -/
def and (a b : JsVal) : JsVal := if a.truthy then b else a

/-- `a ?? b`. -/
def coalesce (a b : JsVal) : JsVal := if a.nullish then b else a

/-- Own-property lookup in a field list. -/
def lookupField (k : String) : List (String × JsVal) → JsVal
  | [] => undefined
  | (k', v) :: rest => if k' == k then v else lookupField k rest

/-- The value of `v.k` when `v` is neither `null` nor `undefined`: an own
property of an object, `length` of a string (its number of UTF-16 code units)
or array, `undefined` otherwise. -/
def prop (v : JsVal) (k : String) : JsVal :=
  match v with
  | obj fields => lookupField k fields
  | str s => if k == "length" then num (.ofNat (utf16 s).length) else undefined
  | arr xs => if k == "length" then num (.ofNat xs.length) else undefined
  | _ => undefined

/-- The expression `v.k`: throws on `null` and `undefined`. -/
def get (v : JsVal) (k : String) : Except JsError JsVal :=
  if v.nullish then .error (.typeError k) else .ok (v.prop k)

/-- The expression `v?.k`. -/
def getOpt (v : JsVal) (k : String) : JsVal :=
  if v.nullish then undefined else v.prop k

/-- The expression `xs[i]` on an array value. -/
def index (xs : List JsVal) (i : Nat) : JsVal := xs.getD i undefined

mutual
/-- `String(v)`, the conversion applied by template literals and `join`. -/
def toStr : JsVal → String
  | undefined => "undefined"
  | null => "null"
  | bool b => if b then "true" else "false"
  | num n => n.toStr
  | str s => s
  | arr xs => joinHead "," xs
  | obj _ => "[object Object]"
termination_by structural v => v
/-- `xs.join(sep)`: `null` and `undefined` elements print as nothing. -/
def joinHead (sep : String) : List JsVal → String
  | [] => ""
  | x :: rest =>
    (match x with
      | undefined => ""
      | null => ""
      | bool b => toStr (bool b)
      | num n => toStr (num n)
      | str s => toStr (str s)
      | arr ys => toStr (arr ys)
      | obj fs => toStr (obj fs)) ++ joinTail sep rest
termination_by structural xs => xs
/-- The part of a `join` after the first element. -/
def joinTail (sep : String) : List JsVal → String
  | [] => ""
  | x :: rest =>
    sep ++ (match x with
      | undefined => ""
      | null => ""
      | bool b => toStr (bool b)
      | num n => toStr (num n)
      | str s => toStr (str s)
      | arr ys => toStr (arr ys)
      | obj fs => toStr (obj fs)) ++ joinTail sep rest
termination_by structural xs => xs
end

end JsVal

/-- Lower case of one character, as far as ASCII results are concerned. -/
def lowerChar (c : Char) : Char :=
  if c.toNat = 0x212A then (Char.ofNat 107) else c.toLower

/-- `s.toLowerCase()` on a string. -/
def strLower (s : String) : String := String.mk (s.data.map lowerChar)

/-- `s.toUpperCase()` on a string. -/
def strUpper (s : String) : String := String.mk (s.data.map Char.toUpper)

namespace JsVal

/-- The call `v.toLowerCase()`: only strings have the method. -/
def toLowerCase : JsVal → Except JsError String
  | str s => .ok (strLower s)
  | _ => .error (.typeError "toLowerCase")

/-- The call `v.toUpperCase()`: only strings have the method. -/
def toUpperCase : JsVal → Except JsError String
  | str s => .ok (strUpper s)
  | _ => .error (.typeError "toUpperCase")

/-- The call `v.toString()`: every value but `null`/`undefined` has it. -/
def toStringCall (v : JsVal) : Except JsError String :=
  if v.nullish then .error (.typeError "toString") else .ok v.toStr

/-- The call `v.join(sep)`: only arrays have the method. -/
def join (v : JsVal) (sep : String) : Except JsError String :=
  match v with
  | arr xs => .ok (joinHead sep xs)
  | _ => if v.nullish then .error (.typeError "join") else .error (.typeError "join is not a function")

end JsVal


/-- `Number(s)` for a string of an optional `-` and decimal digits; `none` is
`NaN`.  Surrounding blanks are ignored and the empty string is `0`. -/
def parseDec (s : String) : Option Int :=
  let cs := (s.data.dropWhile Char.isWhitespace).reverse.dropWhile Char.isWhitespace |>.reverse
  let digits (ds : List Char) : Option Nat :=
    if ds.all Char.isDigit then some (ds.foldl (fun acc c => 10 * acc + (c.toNat - 48)) 0) else none
  match cs with
  | [] => some 0
  | c :: rest =>
    if c = (Char.ofNat 45) then
      (if rest.isEmpty then none else (digits rest).map (fun n => - (n : Int)))
    else (digits cs).map (fun n => (n : Int))

namespace JsVal

/-- `Number(v)`.  Strings are read as decimal integers.  The code only compares
the result with a literal. -/
def toNumber : JsVal → JsNum
  | undefined => .nan
  | null => 0
  | bool b => if b then 1 else 0
  | num n => n
  | str s => ((parseDec s).map JsNum.ofInt).getD .nan
  | arr xs => ((parseDec (arr xs).toStr).map JsNum.ofInt).getD .nan
  | obj _ => .nan

/-- The comparison `v > bound` against a natural-number literal. -/
def gtNum (v : JsVal) (bound : Nat) : Bool := v.toNumber.gtNat bound

end JsVal

/-- `timeTaken || "N/A"` as interpolated by the renderers. -/
def timeOrNA (timeTaken : String) : String :=
  if timeTaken = "" then "N/A" else timeTaken

/-! ## The page -/

/-- The state shown by the badge of a status card. -/
inductive CardStatus where
  | pending
  | running
  | completed
  | failed
  deriving DecidableEq, Repr

/-- One status card of the progress panel (`createStatusCard`). -/
structure StatusCard where
  id : String
  name : String
  icon : String
  /-- The border class set by `updateScanProgress`, if any. -/
  border : Option String := none
  /-- The colour class of the icon. -/
  iconClass : String := "text-muted"
  badge : CardStatus := .pending
  /-- The text of `.time-value`. -/
  timeValue : String := "0s"
  /-- Whether the time line has been shown. -/
  timeShown : Bool := false
  deriving DecidableEq, Repr

/-- The progress panel written by `initializeProgressInterface`. -/
structure Panel where
  /-- The header has been switched to the completed look by `completeScan`. -/
  headerCompleted : Bool := false
  /-- The text of `#progress-text`. -/
  progressText : String
  /-- The width of `#overall-progress`. -/
  barWidth : String := "0%"
  cards : List StatusCard
  deriving DecidableEq, Repr

/-- One row of the results table of the security-headers and email-security
sections. -/
structure ResultRow where
  check : String
  statusClass : String
  statusText : String
  details : String
  recommendation : String
  deriving DecidableEq, Repr

/-- The values interpolated into the section template shared by
`renderSecurityHeaders` and `renderEmailSecurity`. -/
structure SummarySection where
  title : String
  strokeDash : String
  /-- The text of the score circle, `progress` followed by a percent sign. -/
  scoreText : String
  passedText : String
  totalText : String
  badgeClass : String
  /-- The text of the risk badge. -/
  riskText : String
  recommendation : String
  scanTime : String
  /-- The table rows; `none` is the single "No results available" row. -/
  rows : Option (List ResultRow)
  deriving DecidableEq, Repr

/-- The values interpolated by `renderDMARC`, `renderSPF` and `renderDKIM`. -/
structure RecordSection where
  /-- One of `DMARC`, `SPF`, `DKIM`. -/
  kind : String
  time : String
  statusClass : String
  statusIcon : String
  statusText : String
  details : String
  recommendation : String
  /-- The raw record paragraph (DMARC, SPF). -/
  rawRecord : Option String := none
  /-- The selector list (DKIM): selector and record of each entry. -/
  selectors : Option (List (String × String)) := none
  deriving DecidableEq, Repr

/-- One source URL as shown: the `title` attribute and the visible text, the
latter in UTF-16 code units. -/
structure SourceLink where
  title : String
  text : List Nat
  deriving DecidableEq, Repr

/-- The `sourcesHtml` of one library: the first URL, and the URLs folded under
"+ k more" (`more` is `none` when there is no `details` element). -/
structure SourcesView where
  first : SourceLink
  more : Option (Nat × List SourceLink)
  deriving DecidableEq, Repr

/-- The values interpolated into the mobile card of one library. -/
structure LibCard where
  borderClass : String
  name : String
  riskBadge : String
  statusBadgeClass : String
  status : String
  detected : String
  latest : String
  recommendation : String
  /-- The "Sources" part, present when the entry has source URLs. -/
  sources : Option SourcesView
  deriving DecidableEq, Repr

/-- The values interpolated into the table row of one library; `sources` is
`none` for the text `-`. -/
structure LibRow where
  name : String
  canonical : String
  detected : String
  latest : String
  statusClass : String
  status : String
  riskBadge : String
  recommendation : String
  sources : Option SourcesView
  deriving DecidableEq, Repr

/-- An item inside the card container or the table body of the frontend
libraries section. -/
inductive LibItem where
  /-- The "No libraries detected in this scan." notice. -/
  | noLibraries
  | card (c : LibCard)
  | row (r : LibRow)
  deriving DecidableEq, Repr

/-- The frontend libraries section. -/
structure FrontendSection where
  time : String
  totalScripts : String
  uniqueLibraries : String
  withDetected : String
  withoutDetected : String
  upToDate : String
  outdated : String
  score : String
  riskBadge : String
  generalRecommendation : String
  /-- Children of `#mobile-cards-container`. -/
  cards : List LibItem := []
  /-- Children of `#table-body`. -/
  rows : List LibItem := []
  deriving DecidableEq, Repr

/-- One rendered SSL subcheck (a mobile card and a table row show the same
values). -/
structure SslCheckView where
  overview : String
  statusBadge : String
  borderClass : String
  details : String
  recommendation : String
  /-- The protocol badges, when `supported_protocols` is given. -/
  protocols : Option (List String)
  deriving DecidableEq, Repr

/-- An item inside the card container or the table body of the SSL section. -/
inductive SslItem where
  /-- The "No SSL checks completed." notice. -/
  | noChecks
  /-- One `scan-wrapper` holding the subchecks of one call. -/
  | wrapper (checks : List SslCheckView)
  deriving DecidableEq, Repr

/-- The SSL/TLS section. -/
structure SslSection where
  time : String
  score : Int
  passed : Nat
  failed : Nat
  riskLevel : String
  riskBadgeClass : String
  cardBorder : String
  recommendation : String
  cards : List SslItem := []
  rows : List SslItem := []
  deriving DecidableEq, Repr

/-- One unit of content appended to `#result-container`. -/
inductive Block where
  /-- The inline error of the ajax `error` callback: check name and
  `xhr.responseText`. -/
  | errorAlert (name responseText : String)
  /-- The generic block of the dispatcher: `Result for <action>:` followed by
  `JSON.stringify` of the response. -/
  | rawResult (action : String) (payload : JsVal)
  /-- The wrapper of the report download link; `none` once the link itself
  (class `download-report-btn`) has been removed. -/
  | downloadButton (scanUrl : Option String)
  /-- The "Scan Complete!" alert. -/
  | completionBanner
  /-- A notice `<div class=cssClass>text</div>`, followed by `<hr>` when
  `rule` is set. -/
  | notice (cssClass text : String) (rule : Bool)
  /-- A lone `<hr>`. -/
  | rule
  | record (r : RecordSection)
  | summary (s : SummarySection)
  | frontend (f : FrontendSection)
  | ssl (s : SslSection)

/-- What the code has written into `#result-container`. -/
structure Page where
  /-- The progress panel, once `initializeProgressInterface` has run. -/
  panel : Option Panel := none
  /-- The blocks appended after it, oldest first. -/
  blocks : List Block := []

/-- `$('#result-container').append(b)`. -/
def Page.append (p : Page) (b : Block) : Page := { p with blocks := p.blocks ++ [b] }

/-- The effect of running a piece of code: the writes it makes to the page
(those made before the exception, if it throws) and the exception it
propagates.  None of the embedded code reads the page back, so the exception
does not depend on the page. -/
structure Act where
  run : Page → Page
  thrown : Option JsError := none

/-- Code that writes nothing and returns. -/
def Act.skip : Act := { run := fun p => p }

/-- Code that throws at once. -/
def Act.throw (e : JsError) : Act := { run := fun p => p, thrown := some e }

/-- Code that appends one block and returns. -/
def Act.append (b : Block) : Act := { run := fun p => p.append b }

/-- Sequential composition `a; b`: `b` runs only when `a` returns. -/
def Act.andThen (a b : Act) : Act :=
  match a.thrown with
  | some e => { run := a.run, thrown := some e }
  | none => { run := fun p => b.run (a.run p), thrown := b.thrown }

/-- Run code that first builds a block (and may throw while doing so) and then
appends it with a single `append`. -/
def Act.appendBuilt (built : Except JsError Block) : Act :=
  match built with
  | .ok b => Act.append b
  | .error e => Act.throw e

/-! ## `securityHeadersHandler.js` and `emailSecurityHandlers.js` -/

/-- The object literal used when the summary is missing. -/
def defaultSummary : JsVal :=
  .obj [("score", .num 0), ("passed", .num 0), ("failed", .num 0),
        ("total_checks", .num 0), ("risk_level", .str "Unknown")]

/-- The `riskBadgeClass` chain of `renderSecurityHeaders` and
`renderEmailSecurity`. -/
def riskBadgeClass (riskLevel : JsVal) : String :=
  if riskLevel.strictEqStr "Low" then "bg-success"
  else if riskLevel.strictEqStr "Medium" then "bg-warning text-dark"
  else if riskLevel.strictEqStr "High" then "bg-danger"
  else "bg-secondary"

/-- The body of the `results.forEach` callback of both renderers. -/
def resultRow (r : JsVal) : Except JsError ResultRow := do
  let status ← r.get "status"
  let statusClass :=
    if status.strictEqStr "pass" then "text-success fw-semibold" else "text-danger fw-semibold"
  let check ← r.get "check"
  let statusText ← (status.or (.str "unknown")).toUpperCase
  let details ← r.get "details"
  let recommendation ← r.get "recommendation"
  return { check := (check.or (.str "-")).toStr
           statusClass := statusClass
           statusText := statusText
           details := (details.or (.str "No details available.")).toStr
           recommendation := (recommendation.or (.str "-")).toStr }

/-- The rows of the results table: `forEach` over the array, stopping at the
first exception. -/
def resultRows : List JsVal → Except JsError (List ResultRow)
  | [] => .ok []
  | r :: rest => do
    let row ← resultRow r
    let rows ← resultRows rest
    return row :: rows

/-- The part common to `renderSecurityHeaders` (lines 10-128, on `response`)
and `renderEmailSecurity` (lines 106-225, on `response.result`): `payload` is
an object that is not `null`. -/
def summarySection (title : String) (payload : JsVal) (timeTaken : String) :
    Except JsError SummarySection := do
  let summary := (payload.prop "summary").or defaultSummary
  let riskLevel := summary.prop "risk_level"
  let progress := (summary.prop "score").or (.num 0)
  let results := payload.prop "results"
  let rows ← (match results with
    | .arr (r :: rest) => (resultRows (r :: rest)).map some
    | _ => .ok none)
  return { title := title
           strokeDash := progress.toStr ++ ", 100"
           scoreText := progress.toStr ++ "%"
           passedText := (summary.prop "passed").toStr
           totalText := (summary.prop "total_checks").toStr
           badgeClass := riskBadgeClass riskLevel
           riskText := "Risk: " ++ riskLevel.toStr
           recommendation :=
             ((payload.prop "general_recommendation").or (.str "No recommendation available.")).toStr
           scanTime := timeOrNA timeTaken
           rows := rows }

/-- `renderSecurityHeaders(response, timeTaken)`. -/
def renderSecurityHeaders (response : JsVal) (timeTaken : String) : Act :=
  if !response.truthy || !response.typeofObject then
    Act.append (.notice "alert alert-danger mt-3"
      "⚠️ No response received for Security Headers scan." false)
  else
    Act.appendBuilt ((summarySection "Security Headers" response timeTaken).map Block.summary)

/-- `renderEmailSecurity(response, timeTaken)`. -/
def renderEmailSecurity (response : JsVal) (timeTaken : String) : Act :=
  if !response.truthy || !(response.prop "result").truthy then
    Act.append (.notice "alert alert-danger mt-3"
      "⚠️ No response received for Email Security scan." false)
  else
    Act.appendBuilt
      ((summarySection "Email Security" (response.prop "result") timeTaken).map Block.summary)

/-- The part common to `renderDMARC`, `renderSPF` and `renderDKIM` up to the
template: `result` is truthy. -/
def recordBase (kind : String) (result : JsVal) (timeTaken : String) :
    Except JsError RecordSection := do
  let status := result.prop "status"
  let isPass := status.strictEqStr "pass"
  let statusText ← status.toUpperCase
  return { kind := kind
           time := timeOrNA timeTaken
           statusClass := if isPass then "text-green-600" else "text-red-600"
           statusIcon := if isPass then "✅" else "❌"
           statusText := statusText
           details := ((result.prop "details").or (.str "No details available.")).toStr
           recommendation :=
             ((result.prop "recommendation").or (.str "No recommendation available.")).toStr }

/-- The optional raw record paragraph of `renderDMARC` and `renderSPF`. -/
def withRawRecord (result : JsVal) (r : RecordSection) : RecordSection :=
  let raw := result.prop "raw_record"
  if raw.truthy then { r with rawRecord := some raw.toStr } else r

/-- `renderDMARC(response, timeTaken)`. -/
def renderDMARC (response : JsVal) (timeTaken : String) : Act :=
  if !response.truthy || !(response.prop "result").truthy then
    Act.append (.notice "text-red-600" "⚠️ No response received for DMARC scan." true)
  else
    let result := response.prop "result"
    Act.appendBuilt
      ((recordBase "DMARC" result timeTaken).map (fun r => Block.record (withRawRecord result r)))

/-- `renderSPF(response, timeTaken)`. -/
def renderSPF (response : JsVal) (timeTaken : String) : Act :=
  if !response.truthy || !(response.prop "result").truthy then
    Act.append (.notice "text-red-600" "⚠️ No response received for SPF scan." true)
  else
    let result := response.prop "result"
    Act.appendBuilt
      ((recordBase "SPF" result timeTaken).map (fun r => Block.record (withRawRecord result r)))

/-- The callback of `result.selectors.forEach` in `renderDKIM`. -/
def selectorItem (selector : JsVal) : Except JsError (String × String) := do
  let name ← selector.get "selector"
  let record ← selector.get "record"
  return (name.toStr, record.toStr)

/-- The `forEach` over the selectors, stopping at the first exception. -/
def selectorItems : List JsVal → Except JsError (List (String × String))
  | [] => .ok []
  | x :: rest => do
    let item ← selectorItem x
    let items ← selectorItems rest
    return item :: items

/-- The selector list of `renderDKIM`: present when `result.selectors` is
truthy and its `length` exceeds 0; only an array has `forEach`. -/
def selectorList (result : JsVal) : Except JsError (Option (List (String × String))) :=
  let selectors := result.prop "selectors"
  if selectors.truthy && (selectors.prop "length").gtNum 0 then
    match selectors with
    | .arr xs => (selectorItems xs).map some
    | _ => .error (.typeError "forEach")
  else .ok none

/-- `renderDKIM(response, timeTaken)`. -/
def renderDKIM (response : JsVal) (timeTaken : String) : Act :=
  if !response.truthy || !(response.prop "result").truthy then
    Act.append (.notice "text-red-600" "⚠️ No response received for DKIM scan." true)
  else
    let result := response.prop "result"
    Act.appendBuilt (do
      let r ← recordBase "DKIM" result timeTaken
      let sel ← selectorList result
      return Block.record { r with selectors := sel })

/-! ## `frontendLibrariesHandler.js` -/

/-- The class chosen by `getRiskBadge(risk)`. -/
def riskBadgeClassOf (risk : JsVal) : String :=
  if risk.strictEqStr "Low" then "badge bg-success"
  else if risk.strictEqStr "Medium" then "badge bg-warning text-dark"
  else if risk.strictEqStr "High" then "badge bg-danger"
  else "badge bg-secondary"

/-- `getRiskBadge(risk)`: the badge markup. -/
def getRiskBadge (risk : JsVal) : String :=
  "<span class=\"" ++ riskBadgeClassOf risk ++ "\">" ++ risk.toStr ++ "</span>"

/-- The object returned by `normalizeLibEntry`. -/
structure LibEntry where
  name : JsVal
  canonical : JsVal
  detected_version : JsVal
  latest_version : JsVal
  status : String
  risk : JsVal
  overview : JsVal
  recommendation : JsVal
  src_urls : List JsVal

/-- The `overview` expression of `normalizeLibEntry`, for an entry that is
neither `null` nor `undefined`. -/
def normOverview (r : JsVal) : Except JsError JsVal := do
  let a := r.prop "overview"
  if a.truthy then return a
  let notes := r.prop "notes"
  let b ← (match notes with
    | .arr xs => JsVal.join (.arr xs) ", "
    | _ => .ok "")
  if b ≠ "" then return .str b
  let methods := r.prop "detection_methods"
  let c ← (if methods.truthy then methods.join ", " else .ok "")
  if c ≠ "" then return .str c
  return .str "-"

/-- `normalizeLibEntry(r)`. -/
def normalizeLibEntry (r : JsVal) : Except JsError LibEntry := do
  let name ← r.get "name"
  let srcUrls := r.prop "src_urls"
  let firstUrl : JsVal := match srcUrls with
    | .arr xs => JsVal.index xs 0
    | _ => .bool false
  let status ← ((r.prop "status").or (.str "")).toStringCall
  let overview ← normOverview r
  return { name := ((name.or (r.prop "library")).or (r.prop "detected_name")).or firstUrl |>.or (.str "-")
           canonical := ((r.prop "canonical").or (r.prop "canonical_name")).or .null
           detected_version :=
             (((r.prop "detected_version").or (r.prop "version_detected")).or (r.prop "version")).or .null
           latest_version :=
             (((r.prop "latest_version").or (r.prop "stable_version")).or (r.prop "latest")).or .null
           status := status
           risk := (r.prop "risk").or (.str "Unknown")
           overview := overview
           recommendation := (r.prop "recommendation").or (.str "-")
           src_urls := match srcUrls with
             | .arr xs => xs
             | _ => if (r.prop "src").truthy then [r.prop "src"] else [] }

/-- The `statusClass` chain of `populateLibrariesData`, on the lowered
status. -/
def libStatusClass (statusLower : String) : String :=
  if statusLower = "up-to-date" || statusLower = "up_to_date" || statusLower = "up_to-date"
      || statusLower = "up_to_date" || statusLower = "up-to-date" || statusLower = "up_to_date" then
    "text-success fw-semibold"
  else if statusLower = "outdated" then "text-danger fw-semibold"
  else if statusLower = "no-version" then "text-warning text-dark fw-semibold"
  else if statusLower = "unknown" then "text-secondary"
  else "text-muted"

/-- Whether `part` occurs in `cs` as a contiguous run. -/
def hasInfix (part : List Char) : List Char → Bool
  | [] => part.isEmpty
  | c :: rest => part.isPrefixOf (c :: rest) || hasInfix part rest

/-- The status class of an entry whose normalized status is `status`:
`statusLower = (r.status || "").toLowerCase()` fed to the chain. -/
def statusClassOf (status : String) : String := libStatusClass (strLower status)

/-- `s.includes(part)` on strings. -/
def strIncludes (s part : String) : Bool := hasInfix part.data s.data

/-- The badge class of the mobile card, derived from `statusClass`. -/
def libStatusBadge (statusClass : String) : String :=
  if strIncludes statusClass "success" then "bg-success"
  else if strIncludes statusClass "danger" then "bg-danger"
  else if strIncludes statusClass "warning" then "bg-warning text-dark"
  else "bg-secondary"

/-- The border class of the mobile card. -/
def libBorderClass (statusLower : String) : String :=
  if statusLower = "up-to-date" || statusLower = "up_to_date" then "border-success"
  else if statusLower = "outdated" then "border-danger"
  else "border-warning"

/-- The text shown for a source URL `u`:
`u.length > limit ? u.slice(0, limit - 3) + "..." : u`. -/
def sourceText (u : JsVal) (limit : Nat) : Except JsError (List Nat) := do
  let len ← u.get "length"
  if len.gtNum limit then
    match u with
    | .str s => return (utf16 s).take (limit - 3) ++ utf16 "..."
    | .arr xs => return utf16 ((JsVal.arr (xs.take (limit - 3))).toStr ++ "...")
    | _ => .error (.typeError "slice")
  else return utf16 u.toStr

/-- One source URL with its `title`. -/
def sourceLink (u : JsVal) (limit : Nat) : Except JsError SourceLink := do
  let text ← sourceText u limit
  return { title := u.toStr, text := text }

/-- The `rest.forEach` of the sources block. -/
def sourceLinks : List JsVal → Except JsError (List SourceLink)
  | [] => .ok []
  | u :: rest => do
    let l ← sourceLink u 100
    let ls ← sourceLinks rest
    return l :: ls

/-- The "Build sources HTML" block: `none` is the text `-`. -/
def sourcesView (srcUrls : List JsVal) : Except JsError (Option SourcesView) :=
  match srcUrls with
  | [] => .ok none
  | first :: rest => do
    let f ← sourceLink first 60
    match rest with
    | [] => return some { first := f, more := none }
    | _ :: _ =>
      let ls ← sourceLinks rest
      return some { first := f, more := some (rest.length, ls) }

/-- The text shown as detected version: `r.detected_version || "-"`. -/
def displayDetected (r : LibEntry) : String := (r.detected_version.or (.str "-")).toStr

/-- The body of the `entries.forEach` callback up to the two `append` calls:
the mobile card and the table row of one raw entry. -/
def libViews (raw : JsVal) : Except JsError (LibCard × LibRow) := do
  let r ← normalizeLibEntry raw
  let statusLower := strLower r.status
  let statusClass := statusClassOf r.status
  let displayName := (r.name.or (.str "-")).toStr
  let displayCanonical := (r.canonical.or (.str "-")).toStr
  let detected := displayDetected r
  let latest := (r.latest_version.or (.str "-")).toStr
  let riskTag := getRiskBadge (r.risk.or (.str "Unknown"))
  let status := strUpper (if r.status = "" then "unknown" else r.status)
  let recommendation := (r.recommendation.or (.str "-")).toStr
  let sources ← sourcesView r.src_urls
  return ({ borderClass := libBorderClass statusLower
            name := displayName
            riskBadge := riskTag
            statusBadgeClass := libStatusBadge statusClass
            status := status
            detected := detected
            latest := latest
            recommendation := recommendation
            sources := sources },
          { name := displayName
            canonical := displayCanonical
            detected := detected
            latest := latest
            statusClass := statusClass
            status := status
            riskBadge := riskTag
            recommendation := recommendation
            sources := sources })

/-- Apply `f` to the first frontend libraries section of the page: the
element that `$('#mobile-cards-container')` and `$('#table-body')` select. -/
def mapFirstFrontend (f : FrontendSection → FrontendSection) : List Block → List Block
  | [] => []
  | .frontend s :: rest => .frontend (f s) :: rest
  | b :: rest => b :: mapFirstFrontend f rest

/-- A write to the two containers selected by id. -/
def onLibContainers (f : FrontendSection → FrontendSection) : Act :=
  { run := fun p => { p with blocks := mapFirstFrontend f p.blocks } }

/-- The `entries.forEach` of `populateLibrariesData`. -/
def populateEach : List JsVal → Act
  | [] => Act.skip
  | raw :: rest =>
    match libViews raw with
    | .error e => Act.throw e
    | .ok (card, row) =>
      (onLibContainers (fun s =>
        { s with cards := s.cards ++ [.card card], rows := s.rows ++ [.row row] })).andThen
        (populateEach rest)

/-- `populateLibrariesData(entries)`. -/
def populateLibrariesData (entries : List JsVal) : Act :=
  match entries with
  | [] => onLibContainers (fun s => { s with cards := [.noLibraries], rows := [.noLibraries] })
  | _ :: _ =>
    (onLibContainers (fun s => { s with cards := [], rows := [] })).andThen (populateEach entries)

/-- `a ?? b ?? c ...` over a list of candidates, ending in a default. -/
def coalesceAll (candidates : List JsVal) (dflt : JsVal) : JsVal :=
  candidates.foldr JsVal.coalesce dflt

/-- The summary block of `renderFrontendLibraries` for an object payload. -/
def frontendSection (payload : JsVal) (timeTaken : String) : FrontendSection :=
  let summary := (payload.prop "summary").or (.obj [])
  let results := payload.prop "results"
  let resultCount : JsVal := match results with
    | .arr xs => .num (.ofNat xs.length)
    | _ => .num 0
  { time := timeOrNA timeTaken
    totalScripts :=
      (coalesceAll [summary.prop "total_scripts", summary.prop "totalScripts"] (.num 0)).toStr
    uniqueLibraries :=
      (coalesceAll [summary.prop "unique_libraries", summary.prop "uniqueLibraries",
        summary.prop "total_libraries"] resultCount).toStr
    withDetected :=
      (coalesceAll [summary.prop "with_detected_version", summary.prop "withDetectedVersion",
        summary.prop "with_detected_version"] (.num 0)).toStr
    withoutDetected :=
      (coalesceAll [summary.prop "without_detected_version",
        summary.prop "withoutDetectedVersion"] (.num 0)).toStr
    upToDate :=
      ((coalesceAll [summary.prop "up_to_date", summary.prop "upToDate",
        summary.prop "up_to_date_count"] (summary.prop "upToDateCount")).or (.num 0)).toStr
    outdated := (coalesceAll [summary.prop "outdated"] (.num 0)).toStr
    score := (coalesceAll [summary.prop "score"] (.num 0)).toStr
    riskBadge :=
      getRiskBadge (coalesceAll [summary.prop "risk_level", summary.prop "riskLevel"]
        (.str "Unknown"))
    generalRecommendation := ((payload.prop "general_recommendation").or (.str "-")).toStr }

/-- The payload of `renderFrontendLibraries`:
`(response && response.result) ? response.result : response`. -/
def frontendPayload (response : JsVal) : JsVal :=
  if response.truthy && (response.prop "result").truthy then response.prop "result" else response

/-- `renderFrontendLibraries(response, timeTaken)`.  `setupColumnToggles` only
registers change handlers and writes nothing. -/
def renderFrontendLibraries (response : JsVal) (timeTaken : String) : Act :=
  let payload := frontendPayload response
  if !payload.truthy || !payload.typeofObject then
    Act.append (.notice "text-danger" "No response received for Frontend Libraries scan." true)
  else
    let entries : List JsVal := match payload.prop "results" with
      | .arr xs => xs
      | _ => []
    ((Act.append (.frontend (frontendSection payload timeTaken))).andThen
      (populateLibrariesData entries)).andThen (Act.append .rule)

/-! ## Arithmetic in doubles -/

/-- `a / b` rounded to the nearest integer, a tie going to the even one
(`0 < b`). -/
def roundHalfEven (a b : Nat) : Nat :=
  let q := a / b
  let r := a % b
  if 2 * r < b then q
  else if b < 2 * r then q + 1
  else if q % 2 = 0 then q else q + 1

/-- The number of binary digits of `n`; `fuel` bounds the recursion, and `n`
itself is enough of it. -/
def bitLength : Nat → Nat → Nat
  | 0, _ => 0
  | fuel + 1, n => if n = 0 then 0 else bitLength fuel (n / 2) + 1

/-- A positive finite double, `mant * 2 ^ exp` with a significand of 53
bits. -/
structure Binary64 where
  mant : Nat
  exp : Int
  deriving DecidableEq, Repr

/-- The fraction `a / (b * 2 ^ e)` as numerator and denominator. -/
def scaleBy (a b : Nat) (e : Int) : Nat × Nat :=
  match e with
  | .ofNat k => (a, b * 2 ^ k)
  | .negSucc k => (a * 2 ^ (k + 1), b)

/-- The double nearest to `a / b`, ties to even, for `0 < a` and `0 < b` with
a quotient in the range of the normal doubles: the exponent `e` is the one
that puts `a / (b * 2 ^ e)` between `2 ^ 52` and `2 ^ 53`, and the significand
is that quotient rounded. -/
def toBinary64 (a b : Nat) : Binary64 :=
  let e0 : Int := (bitLength a a : Int) - (bitLength b b : Int) - 52
  let e := if (scaleBy a b e0).1 < 2 ^ 52 * (scaleBy a b e0).2 then e0 - 1 else e0
  let m := roundHalfEven (scaleBy a b e).1 (scaleBy a b e).2
  if m = 2 ^ 53 then { mant := 2 ^ 52, exp := e + 1 } else { mant := m, exp := e }

/-- The exact value of a double, as numerator and denominator. -/
def Binary64.toFraction (x : Binary64) : Nat × Nat :=
  match x.exp with
  | .ofNat k => (x.mant * 2 ^ k, 1)
  | .negSucc k => (x.mant, 2 ^ (k + 1))

/-- The product `x * c` of a double and a natural number held exactly by a
double: the exact product, rounded. -/
def Binary64.mulNat (x : Binary64) (c : Nat) : Binary64 :=
  toBinary64 (c * x.toFraction.1) x.toFraction.2

/-- `Math.round(x)` of a positive double: the integer nearest to its exact
value `n / d`, a half going up, which is the integer part of
`(2 * n + d) / (2 * d)`. -/
def Binary64.round (x : Binary64) : Nat :=
  (2 * x.toFraction.1 + x.toFraction.2) / (2 * x.toFraction.2)

/-- `Math.round((completed / total) * 100)` for `0 < total`, both arguments
below `2 ^ 53`: the division and the multiplication each round to a double.
This is the expression of `updateOverallProgress` in `scanner.js` and of
`calculateSSLScore` in `sslHandler.js`. -/
def percentage (completed total : Nat) : Nat :=
  if completed = 0 then 0 else ((toBinary64 completed total).mulNat 100).round

/-! ## `sslHandler.js` -/

/-- The rounding of an exact value to the nearest integer, halves going up:
`round` as the specification writes it. -/
def jsRound (x : ℚ) : ℤ := ⌊x + 1 / 2⌋

/-- `getStatusBadge(status)`. -/
def getStatusBadge (status : JsVal) : Except JsError String :=
  if !status.truthy then .ok "<span class=\"badge bg-secondary\">Unknown</span>"
  else do
    let statusLower ← status.toLowerCase
    if statusLower = "pass" || statusLower = "success" then
      return "<span class=\"badge bg-success\">Pass</span>"
    if statusLower = "fail" || statusLower = "failure" then
      return "<span class=\"badge bg-danger\">Fail</span>"
    if statusLower = "warning" then
      return "<span class=\"badge bg-warning text-dark\">Warning</span>"
    return "<span class=\"badge bg-secondary\">Unknown</span>"

/-- The filter callback of `calculateSSLScore` and of `passedChecks`:
`(c.status || "").toLowerCase()` is `pass` or `success`. -/
def sslPassed (c : JsVal) : Except JsError Bool := do
  let raw ← c.get "status"
  let status ← (raw.or (.str "")).toLowerCase
  return (status = "pass" || status = "success")

/-- The length of `checks.filter(passed)`; the filter stops at the first
exception. -/
def countPassed : List JsVal → Except JsError Nat
  | [] => .ok 0
  | c :: rest => do
    let p ← sslPassed c
    let n ← countPassed rest
    return (if p then n + 1 else n)

/-- `calculateSSLScore(checks)`. -/
def calculateSSLScore (checks : List JsVal) : Except JsError Int :=
  match checks with
  | [] => .ok 0
  | _ :: _ => do
    let passed ← countPassed checks
    return (percentage passed checks.length : Nat)

/-- The `sslInfo` chosen at the head of `renderSSLResults`. -/
def resolveSslInfo (response : JsVal) : JsVal :=
  if (response.getOpt "ssl_info").truthy then response.getOpt "ssl_info"
  else if ((response.getOpt "result").getOpt "result").truthy then
    (response.getOpt "result").getOpt "result"
  else if (response.getOpt "result").truthy then response.getOpt "result"
  else response

/-- The `checks` array of `renderSSLResults`: the truthy ones among
`validity`, `protocols`, `hsts`, in that order. -/
def sslChecks (sslInfo : JsVal) : List JsVal :=
  [ (sslInfo.prop "validity").or .null,
    (sslInfo.prop "protocols").or .null,
    (sslInfo.prop "hsts").or .null ].filter JsVal.truthy

/-- The risk level and badge class chosen from the score. -/
def sslRisk (overallScore : Int) : String × String :=
  if overallScore ≥ 80 then ("Low", "bg-success")
  else if overallScore ≥ 50 then ("Medium", "bg-warning text-dark")
  else ("High", "bg-danger")

/-- The general recommendation chosen from the score. -/
def sslRecommendation (overallScore : Int) : String :=
  if overallScore ≥ 80 then
    "Your SSL/TLS configuration is strong. Continue monitoring for updates and vulnerabilities."
  else if overallScore ≥ 50 then
    "Your SSL/TLS configuration needs improvement. Address the failed checks to enhance security."
  else
    "Your SSL/TLS configuration has critical issues. Immediate action required to secure your site."

/-- The summary cards of `renderSSLResults` for an `sslInfo` object: score,
passed and failed counts, risk. -/
def sslSection (sslInfo : JsVal) (timeTaken : String) : Except JsError SslSection := do
  let checks := sslChecks sslInfo
  let overallScore ← calculateSSLScore checks
  let passedChecks ← countPassed checks
  let failedChecks := checks.length - passedChecks
  let risk := sslRisk overallScore
  return { time := timeOrNA timeTaken
           score := overallScore
           passed := passedChecks
           failed := failedChecks
           riskLevel := risk.1
           riskBadgeClass := risk.2
           cardBorder :=
             if risk.2 = "bg-success" then "success"
             else if risk.2 = "bg-danger" then "danger" else "warning"
           recommendation := sslRecommendation overallScore }

/-- The protocol badges of one subcheck: only an array has `map`. -/
def protocolBadges (check : JsVal) : Except JsError (Option (List String)) :=
  let protocols := check.prop "supported_protocols"
  if protocols.truthy then
    match protocols with
    | .arr ps => .ok (some (ps.map JsVal.toStr))
    | _ => .error (.typeError "map")
  else .ok none

/-- The body of the `checks.forEach` callback of `populateSSLData`. -/
def sslCheckView (check : JsVal) : Except JsError SslCheckView := do
  let status ← check.get "status"
  let statusBadge ← getStatusBadge status
  let statusLower ← (status.or (.str "")).toLowerCase
  let borderClass :=
    if statusLower = "pass" || statusLower = "success" then "border-success"
    else if statusLower = "fail" || statusLower = "failure" then "border-danger"
    else if statusLower = "warning" then "border-warning"
    else "border-secondary"
  let protocols ← protocolBadges check
  return { overview := ((check.prop "overview").or (.str "-")).toStr
           statusBadge := statusBadge
           borderClass := borderClass
           details := ((check.prop "details").or (.str "-")).toStr
           recommendation := ((check.prop "recommendation").or (.str "-")).toStr
           protocols := protocols }

/-- The `checks.forEach` of `populateSSLData`, stopping at the first
exception. -/
def sslCheckViews : List JsVal → Except JsError (List SslCheckView)
  | [] => .ok []
  | c :: rest => do
    let v ← sslCheckView c
    let vs ← sslCheckViews rest
    return v :: vs

/-- Append an item to the card container and the table body of every SSL
section under the root: `$root.find(...)` returns all matches. -/
def appendSslItem (item : SslItem) : Act :=
  { run := fun p => { p with blocks := p.blocks.map (fun b =>
      match b with
      | .ssl s => .ssl { s with cards := s.cards ++ [item], rows := s.rows ++ [item] }
      | other => other) } }

/-- `populateSSLData(checks, $root)`; the wrappers are appended after the
loop. -/
def populateSSLData (checks : List JsVal) : Act :=
  match checks with
  | [] => appendSslItem .noChecks
  | _ :: _ =>
    match sslCheckViews checks with
    | .error e => Act.throw e
    | .ok views => appendSslItem (.wrapper views)

/-- `renderSSLResults(response, timeTaken)` with the default root, the result
container.  `setupSSLColumnToggles` only registers change handlers. -/
def renderSSLResults (response : JsVal) (timeTaken : String) : Act :=
  let sslInfo := resolveSslInfo response
  if !sslInfo.truthy || !sslInfo.typeofObject then
    Act.append (.notice "alert alert-danger" "No SSL information received." true)
  else
    match sslSection sslInfo timeTaken with
    | .error e => Act.throw e
    | .ok sec =>
      ((Act.append (.ssl sec)).andThen (populateSSLData (sslChecks sslInfo))).andThen
        (Act.append .rule)

/-! ## `scanner.js` -/

/-- One entry of the `actions` list. -/
structure Action where
  id : String
  name : String
  icon : String
  deriving DecidableEq, Repr

/-- The `actions` list of the submit handler (the `open_ports` entry is
commented out in the source). -/
def scanActions : List Action :=
  [ { id := "security_headers", name := "Security Headers", icon := "shield-check" },
    { id := "email_security", name := "Email Security", icon := "envelope-check" },
    { id := "frontend_libraries", name := "Frontend Libraries", icon := "code-square" } ]

/-- `createStatusCard(action)`. -/
def createStatusCard (action : Action) : StatusCard :=
  { id := action.id, name := action.name, icon := action.icon }

/-- `initializeProgressInterface(actions)`: `.html(...)` replaces the whole
content of the result container by the fresh panel. -/
def initializeProgressInterface (actions : List Action) (_p : Page) : Page :=
  { panel := some { progressText := "0 of " ++ toString actions.length ++ " completed"
                    cards := actions.map createStatusCard }
    blocks := [] }

/-- Apply `f` to the first card whose id is `actionId`: the element that an id
selector returns. -/
def updateFirstCard (actionId : String) (f : StatusCard → StatusCard) :
    List StatusCard → List StatusCard
  | [] => []
  | c :: rest => if c.id = actionId then f c :: rest else c :: updateFirstCard actionId f rest

/-- The `switch` of `updateScanProgress` on one card, after the border classes
have been removed.  `status` is the state named by the string argument; no
case matches a state other than running, completed, failed. -/
def applyStatus (status : CardStatus) (timeTaken : Option String) (c : StatusCard) :
    StatusCard :=
  match status with
  | .running =>
    { c with border := some "border-warning", iconClass := "text-warning", badge := .running }
  | .completed =>
    let c' := { c with border := some "border-success", iconClass := "text-success",
                       badge := .completed }
    match timeTaken with
    | some t => if t = "" then c' else { c' with timeValue := t ++ "s", timeShown := true }
    | none => c'
  | .failed =>
    { c with border := some "border-danger", iconClass := "text-danger", badge := .failed }
  | .pending => { c with border := none }

/-- `updateScanProgress(actionId, status, timeTaken)`. -/
def updateScanProgress (actionId : String) (status : CardStatus) (timeTaken : Option String)
    (p : Page) : Page :=
  { p with panel := p.panel.map (fun panel =>
      { panel with cards := updateFirstCard actionId (applyStatus status timeTaken) panel.cards }) }

/-- The text of `Math.round((completed / total) * 100)`; with `total = 0` the
quotient is `NaN` or `Infinity`.  A result below `2 ^ 53` prints as its
decimal digits. -/
def percentageText (completed total : Nat) : String :=
  if total = 0 then (if completed = 0 then "NaN" else "Infinity")
  else toString (percentage completed total)

/-- `updateOverallProgress(completed, total)`. -/
def updateOverallProgress (completed total : Nat) (p : Page) : Page :=
  { p with panel := p.panel.map (fun panel =>
      { panel with barWidth := percentageText completed total ++ "%"
                   progressText := toString completed ++ " of " ++ toString total
                     ++ " completed" }) }

/-- `completeScan()`. -/
def completeScan (p : Page) : Page :=
  { p with panel := p.panel.map (fun panel => { panel with headerCompleted := true })
           blocks := p.blocks ++ [.completionBanner] }

/-- `addDownloadReportButton()`: existing links are removed (their wrappers
stay), then a wrapper with a link for `currentScanUrl` is appended. -/
def addDownloadReportButton (currentScanUrl : String) (p : Page) : Page :=
  { p with blocks := p.blocks.map (fun b =>
      match b with
      | .downloadButton _ => .downloadButton none
      | other => other) ++ [.downloadButton (some currentScanUrl)] }

/-- `handleScanResult(action, response, timeTaken)`.  `renderOpenPorts` is
neither imported nor declared anywhere in the repository, so evaluating the
call in the `open_ports` case raises a `ReferenceError`. -/
def handleScanResult (action : String) (response : JsVal) (timeTaken : String) : Act :=
  if action = "security_headers" then
    match response.get "result" with
    | .error e => Act.throw e
    | .ok result => renderSecurityHeaders result timeTaken
  else if action = "email_security" then renderEmailSecurity response timeTaken
  else if action = "frontend_libraries" then renderFrontendLibraries response timeTaken
  else if action = "dmarc" then renderDMARC response timeTaken
  else if action = "spf" then renderSPF response timeTaken
  else if action = "dkim" then renderDKIM response timeTaken
  else if action = "open_ports" then Act.throw (.referenceError "renderOpenPorts")
  else Act.append (.rawResult action response)

/-- The data of one `$.ajax` request to `/run-scan/`. -/
structure Request where
  url : String
  action : String
  lastAction : Bool
  deriving DecidableEq, Repr

/-- What happens during a run, in order (a record kept beside the code). -/
inductive Event where
  /-- `$.ajax` was called for the check at `index`. -/
  | issued (index : Nat) (req : Request)
  /-- The `success` callback of the request for `index` fired. -/
  | succeeded (index : Nat)
  /-- The `error` callback of the request for `index` fired. -/
  | failed (index : Nat)
  /-- An exception left the `success` callback of the request for `index`. -/
  | threw (index : Nat) (e : JsError)
  /-- `completeScan()` was called. -/
  | completeScan
  deriving DecidableEq, Repr

/-- A request in flight, with what its callbacks close over. -/
structure Pending where
  url : String
  actions : List Action
  index : Nat
  action : Action

/-- The browser state the handler works on. -/
structure World where
  page : Page := {}
  /-- The global `currentScanUrl`. -/
  currentScanUrl : String := ""
  /-- The requests awaiting settlement, oldest first. -/
  inflight : List Pending := []
  trace : List Event := []

/-- How a request settles: the `success` callback with the parsed response and
the elapsed time already formatted by `toFixed(2)`, or the `error` callback
with `xhr.responseText`. -/
inductive Settlement where
  | success (response : JsVal) (timeTaken : String)
  | error (responseText : String)

/-- `runNextAction(index)` up to the point where `$.ajax` returns, for the
`url` and `actions` of the enclosing submit handler. -/
def runNextAction (url : String) (actions : List Action) (index : Nat) (w : World) : World :=
  if h : index < actions.length then
    let action := actions[index]
    let isLastAction := decide ((index : Int) = (actions.length : Int) - 1)
    { w with page := updateScanProgress action.id .running none w.page
             inflight := w.inflight ++
               [{ url := url, actions := actions, index := index, action := action }]
             trace := w.trace ++
               [.issued index { url := url, action := action.id, lastAction := isLastAction }] }
  else
    { w with page := completeScan w.page, trace := w.trace ++ [.completeScan] }

/-- The `success` callback of a request. -/
def onSuccess (p : Pending) (response : JsVal) (timeTaken : String) (w : World) : World :=
  let page1 := updateScanProgress p.action.id .completed (some timeTaken) w.page
  let handled := handleScanResult p.action.id response timeTaken
  let page2 := handled.run page1
  match handled.thrown with
  | some e =>
    { w with page := page2, trace := w.trace ++ [.succeeded p.index, .threw p.index e] }
  | none =>
    let page3 := updateOverallProgress (p.index + 1) p.actions.length page2
    let isLastAction := decide ((p.index : Int) = (p.actions.length : Int) - 1)
    let page4 := if isLastAction then addDownloadReportButton w.currentScanUrl page3 else page3
    runNextAction p.url p.actions (p.index + 1)
      { w with page := page4, trace := w.trace ++ [.succeeded p.index] }

/-- The `error` callback of a request. -/
def onError (p : Pending) (responseText : String) (w : World) : World :=
  let page1 := updateScanProgress p.action.id .failed none w.page
  let page2 := page1.append (.errorAlert p.action.name responseText)
  runNextAction p.url p.actions (p.index + 1)
    { w with page := page2, trace := w.trace ++ [.failed p.index] }

/-- The request at position `k` of the in-flight list settles. -/
def settle (k : Nat) (s : Settlement) (w : World) : World :=
  match w.inflight[k]? with
  | none => w
  | some p =>
    let w' := { w with inflight := w.inflight.eraseIdx k }
    match s with
    | .success response timeTaken => onSuccess p response timeTaken w'
    | .error responseText => onError p responseText w'

/-- The submit handler for a given `actions` list: record the URL, write the
panel, start with `runNextAction(0)`. -/
def startScan (url : String) (actions : List Action) (w : World) : World :=
  runNextAction url actions 0
    { w with currentScanUrl := url, page := initializeProgressInterface actions w.page }

/-- The submit handler of the source, with its own `actions` list. -/
def submitScan (url : String) (w : World) : World := startScan url scanActions w

/-- Let the oldest request in flight settle as `outcome` says for its index,
again and again, at most `fuel` times. -/
def drive (outcome : Nat → Settlement) : Nat → World → World
  | 0, w => w
  | fuel + 1, w =>
    match w.inflight with
    | [] => w
    | p :: _ => drive outcome fuel (settle 0 (outcome p.index) w)

/-- One session from a page with nothing in flight: the scan is started and
each request settles as `outcome` says.  A list of `n` checks needs at most
`n` settlements. -/
def runSession (url : String) (actions : List Action) (outcome : Nat → Settlement)
    (page : Page) : World :=
  drive outcome actions.length (startScan url actions { page := page })

/-! ## Reading a trace -/

/-- The indices of the requests issued, in order of issue. -/
def issuedIndices (trace : List Event) : List Nat :=
  trace.filterMap (fun e => match e with
    | .issued i _ => some i
    | _ => none)

/-- The action ids of the requests issued, in order of issue. -/
def issuedActions (trace : List Event) : List String :=
  trace.filterMap (fun e => match e with
    | .issued _ req => some req.action
    | _ => none)

/-- Whether the event records that the request for `index` has settled. -/
def Event.settles (index : Nat) : Event → Bool
  | .succeeded i => i = index
  | .failed i => i = index
  | _ => false

/-- The first frontend libraries section of the page, the one whose
containers the id selectors return. -/
def firstFrontend : List Block → Option FrontendSection
  | [] => none
  | .frontend s :: _ => some s
  | _ :: rest => firstFrontend rest

/-- Whether a block is a frontend libraries section. -/
def Block.isFrontend : Block → Bool
  | .frontend _ => true
  | _ => false

/-- The first truthy value of a list of candidates. -/
def firstTruthy : List JsVal → Option JsVal
  | [] => none
  | v :: rest => if v.truthy then some v else firstTruthy rest

/-- The explicit loop that the callback chain of `runNextAction` amounts to:
the checks still to run are `rest`, the first of them has index `index`. -/
def loopFrom (url : String) (actions : List Action) (outcome : Nat → Settlement) :
    List Action → Nat → World → World
  | [], _, w => { w with page := completeScan w.page, trace := w.trace ++ [.completeScan] }
  | action :: rest, index, w =>
    let isLastAction := decide ((index : Int) = (actions.length : Int) - 1)
    let page0 := updateScanProgress action.id .running none w.page
    let trace0 := w.trace ++
      [.issued index { url := url, action := action.id, lastAction := isLastAction }]
    match outcome index with
    | .success response timeTaken =>
      let page1 := updateScanProgress action.id .completed (some timeTaken) page0
      let handled := handleScanResult action.id response timeTaken
      let page2 := handled.run page1
      match handled.thrown with
      | some e =>
        { w with page := page2, trace := trace0 ++ [.succeeded index, .threw index e] }
      | none =>
        let page3 := updateOverallProgress (index + 1) actions.length page2
        let page4 :=
          if isLastAction then addDownloadReportButton w.currentScanUrl page3 else page3
        loopFrom url actions outcome rest (index + 1)
          { w with page := page4, trace := trace0 ++ [.succeeded index] }
    | .error responseText =>
      let page1 := updateScanProgress action.id .failed none page0
      let page2 := page1.append (.errorAlert action.name responseText)
      loopFrom url actions outcome rest (index + 1)
        { w with page := page2, trace := trace0 ++ [.failed index] }

/-- Whether no `success` callback of the run throws: every response that
arrives is one its renderer handles. -/
def HandlersReturn (actions : List Action) (outcome : Nat → Settlement) : Prop :=
  ∀ (i : Nat) (h : i < actions.length) (response : JsVal) (timeTaken : String),
    outcome i = .success response timeTaken →
      (handleScanResult actions[i].id response timeTaken).thrown = none

/-! ## Definitions used in the statements -/

/-- The event recording how the request for `index` settles. -/
def settledEvent (outcome : Nat → Settlement) (index : Nat) : Event :=
  match outcome index with
  | .success _ _ => .succeeded index
  | .error _ => .failed index

/-- The data of the request for `action` at `index` in a list of `total`
checks. -/
def requestFor (url : String) (total : Nat) (action : Action) (index : Nat) : Request :=
  { url := url, action := action.id, lastAction := decide ((index : Int) = (total : Int) - 1) }

/-- The trace of a run in which every callback returns: request, settlement,
request, settlement, ..., completion. -/
def expectedTrace (url : String) (total : Nat) (outcome : Nat → Settlement) :
    List Action → Nat → List Event
  | [], _ => [.completeScan]
  | action :: rest, index =>
    .issued index { url := url, action := action.id,
                    lastAction := decide ((index : Int) = (total : Int) - 1) }
      :: settledEvent outcome index :: expectedTrace url total outcome rest (index + 1)

/-- No `success` callback throws for the checks `rest`, numbered from
`index`. -/
def ReturnFrom (outcome : Nat → Settlement) (rest : List Action) (index : Nat) : Prop :=
  ∀ (j : Nat) (h : j < rest.length) (response : JsVal) (timeTaken : String),
    outcome (index + j) = .success response timeTaken →
      (handleScanResult rest[j].id response timeTaken).thrown = none

/-- A run of the three checks of the source in which the second request fails
and the two others answer an empty object. -/
def sampleOutcome (index : Nat) : Settlement :=
  if index = 1 then .error "Bad Gateway" else .success (.obj []) "0.10"

/-- The status cards of the page, when the panel is there. -/
def Page.cards (p : Page) : Option (List StatusCard) := p.panel.map (fun panel => panel.cards)

/-- The code writes into the blocks only and leaves the panel as it is. -/
def Act.KeepsPanel (a : Act) : Prop := ∀ p : Page, (a.run p).panel = p.panel

/-- The card of a check once its request has settled. -/
def settledCard (o : Settlement) (action : Action) : StatusCard :=
  match o with
  | .success _ timeTaken =>
    applyStatus .completed (some timeTaken) (applyStatus .running none (createStatusCard action))
  | .error _ => applyStatus .failed none (applyStatus .running none (createStatusCard action))

/-- The cards of the checks `rest`, numbered from `index`, once all have
settled. -/
def finalCards (outcome : Nat → Settlement) : List Action → Nat → List StatusCard
  | [], _ => []
  | action :: rest, index => settledCard (outcome index) action :: finalCards outcome rest (index + 1)

/-- A run of the three checks of the source: the first request fails, the
second answers a results array holding `null`. -/
def brokenOutcome (index : Nat) : Settlement :=
  if index = 0 then .error "Bad Gateway"
  else .success (.obj [("result", .obj [("results", .arr [.null])])]) "0.10"

/-- The subchecks present in an SSL info object: the truthy values among its
`validity`, `protocols` and `hsts` properties. -/
def presentSubchecks (sslInfo : JsVal) : List JsVal :=
  (["validity", "protocols", "hsts"].map sslInfo.prop).filter JsVal.truthy

/-- Whether the status of a subcheck is a pass: the string `pass` or
`success`, in any letter case. -/
def statusIsPass (c : JsVal) : Bool :=
  match c.prop "status" with
  | .str s => strLower s = "pass" || strLower s = "success"
  | _ => false

/-- Whether the status of a subcheck can be lowered: it is a string, or
falsy (and then replaced by the empty string). -/
def statusLowers (c : JsVal) : Bool :=
  match c.prop "status" with
  | .str _ => true
  | v => !v.truthy

/-- The SSL info of the worked example: validity passes, hsts fails,
protocols is absent. -/
def sslExample : JsVal :=
  .obj [("validity", .obj [("status", .str "pass")]), ("hsts", .obj [("status", .str "fail")])]

/-- The score of an SSL info object by the formula of the specification:
`round(100 * passed / total)` over the subchecks that are present. -/
def specSslScore (sslInfo : JsVal) : ℤ :=
  jsRound (100 * (((presentSubchecks sslInfo).filter statusIsPass).length : ℚ)
    / ((presentSubchecks sslInfo).length : ℚ))

/-- The section built from a score and the two counts. -/
def sslSectionOf (timeTaken : String) (score : ℤ) (passed total : Nat) : SslSection :=
  { time := timeOrNA timeTaken
    score := score
    passed := passed
    failed := total - passed
    riskLevel := (sslRisk score).1
    riskBadgeClass := (sslRisk score).2
    cardBorder :=
      if (sslRisk score).2 = "bg-success" then "success"
      else if (sslRisk score).2 = "bg-danger" then "danger" else "warning"
    recommendation := sslRecommendation score }

/-- The scores and risk levels of the SSL sections on a page, oldest first. -/
def sslScores (blocks : List Block) : List (ℤ × String) :=
  blocks.filterMap (fun b => match b with
    | .ssl s => some (s.score, s.riskLevel)
    | _ => none)

/-- Whether a value is defined (`v !== undefined`). -/
def JsVal.isDefined : JsVal → Bool
  | .undefined => false
  | _ => true

/-- The resolution as C7 words it: the first of the three locations that is
defined, whatever its value. -/
def firstDefinedSslInfo (response : JsVal) : JsVal :=
  if (response.getOpt "ssl_info").isDefined then response.getOpt "ssl_info"
  else if ((response.getOpt "result").getOpt "result").isDefined then
    (response.getOpt "result").getOpt "result"
  else response.getOpt "result"

/-- A response whose `ssl_info` is defined but falsy, with the SSL info under
`result`. -/
def falsySslInfoResponse : JsVal :=
  .obj [("ssl_info", .bool false),
        ("result", .obj [("validity", .obj [("status", .str "pass")])])]

/-- The version properties of a raw entry, in the priority order of
`normalizeLibEntry`. -/
def versionCandidates (raw : JsVal) : List JsVal :=
  [raw.prop "detected_version", raw.prop "version_detected", raw.prop "version"]

/-- The entry of the worked example: only `version_detected` is given. -/
def libExample : JsVal := .obj [("version_detected", .str "2.1.0")]

/-- What `normalizeLibEntry` returns for the worked example. -/
def libExampleEntry : LibEntry :=
  { name := .str "-"
    canonical := .null
    detected_version := .str "2.1.0"
    latest_version := .null
    status := ""
    risk := .str "Unknown"
    overview := .str "-"
    recommendation := .str "-"
    src_urls := [] }

/-- The entries handed to `populateLibrariesData`. -/
def frontendEntries (payload : JsVal) : List JsVal :=
  match payload.prop "results" with
  | .arr xs => xs
  | _ => []

/-- The notice written into both containers. -/
def withNoLibraries (s : FrontendSection) : FrontendSection :=
  { s with cards := [.noLibraries], rows := [.noLibraries] }

/-- A response of the frontend libraries check with an empty `results`
array. -/
def emptyLibrariesResponse : JsVal :=
  .obj [("result", .obj [("summary", .obj [("total_scripts", .num 4)]), ("results", .arr [])])]

/-- The `summary` object the security-headers and email-security renderers
work with: `payload.summary || { score: 0, ... }`. -/
def summaryOf (payload : JsVal) : JsVal := (payload.prop "summary").or defaultSummary

/-- The rows of the results table for a payload: `none` (the "No results
available" row) unless `results` is a non-empty array. -/
def summaryRows (payload : JsVal) : Except JsError (Option (List ResultRow)) :=
  match payload.prop "results" with
  | .arr (r :: rest) => (resultRows (r :: rest)).map some
  | _ => .ok none

/-- The summary sections on a page, oldest first. -/
def summaryViews (blocks : List Block) : List SummarySection :=
  blocks.filterMap (fun b => match b with
    | .summary s => some s
    | _ => none)

/-- A payload whose summary gives a score and nothing else. -/
def scoreOnlyPayload : JsVal := .obj [("summary", .obj [("score", .num 73)])]

/-- A payload whose summary gives a score and the risk level "Medium". -/
def mediumPayload : JsVal :=
  .obj [("summary", .obj [("score", .num 73), ("risk_level", .str "Medium")])]

/-- The section rendered for a payload with no summary and no results. -/
def defaultSection (title timeTaken : String) : SummarySection :=
  { title := title
    strokeDash := "0, 100"
    scoreText := "0%"
    passedText := "0"
    totalText := "0"
    badgeClass := "bg-secondary"
    riskText := "Risk: Unknown"
    recommendation := "No recommendation available."
    scanTime := timeTaken
    rows := none }

/-- The page right after the submit handler has run on the three checks of the
source: the fresh panel with the first card Running, and nothing appended. -/
def freshScanPage : Page :=
  { panel := some
      { progressText := "0 of 3 completed"
        cards :=
          [ { id := "security_headers", name := "Security Headers", icon := "shield-check",
              border := some "border-warning", iconClass := "text-warning", badge := .running },
            { id := "email_security", name := "Email Security", icon := "envelope-check" },
            { id := "frontend_libraries", name := "Frontend Libraries", icon := "code-square" } ] }
    blocks := [] }

/-- The badges of the status cards of a page, in card order. -/
def Page.badges (p : Page) : List CardStatus :=
  match p.panel with
  | some panel => panel.cards.map (fun c => c.badge)
  | none => []

/-- The text of `#progress-text` and the width of `#overall-progress`. -/
def Page.progress (p : Page) : Option (String × String) :=
  p.panel.map (fun panel => (panel.progressText, panel.barWidth))

/-- Whether a block is the inline error of a failed request. -/
def Block.isErrorAlert : Block → Bool
  | .errorAlert _ _ => true
  | _ => false

/-- Whether a block offers the report download (its link is there). -/
def Block.isDownloadLink : Block → Bool
  | .downloadButton (some _) => true
  | _ => false

/-- Whether a block is the "Scan Complete!" alert. -/
def Block.isCompletionBanner : Block → Bool
  | .completionBanner => true
  | _ => false

/-- The frontend libraries sections on a page, oldest first. -/
def frontendViews (blocks : List Block) : List FrontendSection :=
  blocks.filterMap (fun b => match b with
    | .frontend s => some s
    | _ => none)

/-- A run of the three checks of the source in which only the last request
fails. -/
def lastFailsOutcome (index : Nat) : Settlement :=
  if index = 2 then .error "Gateway Timeout" else .success (.obj []) "0.10"

/-- A run of the three checks of the source in which every request fails. -/
def allFailOutcome (_index : Nat) : Settlement := .error "Service Unavailable"

/-- A run of the three checks of the source in which every request answers an
empty object. -/
def allSucceedOutcome (_index : Nat) : Settlement := .success (.obj []) "0.10"

/-- A run in which the first request answers a result whose `results` array
holds `null`. -/
def nullRowOutcome (_index : Nat) : Settlement :=
  .success (.obj [("result", .obj [("results", .arr [.null])])]) "0.10"

/-- A frontend-libraries response with one library. -/
def oneLibraryResponse : JsVal :=
  .obj [("results", .arr [.obj [("name", .str "jquery"), ("detected_version", .str "3.6.0"),
    ("status", .str "up-to-date")]])]

/-- Two submits in a row, then the request of the first session fails. -/
def overlappingSessions : World :=
  settle 0 (.error "Bad Gateway")
    (submitScan "https://second.example" (submitScan "https://first.example" {}))

/-- Whether a block is an SSL/TLS section. -/
def Block.isSsl : Block → Bool
  | .ssl _ => true
  | _ => false

/-- The code adds no SSL/TLS section to the page. -/
def Act.AddsNoSsl (a : Act) : Prop :=
  ∀ p : Page, sslScores (a.run p).blocks = sslScores p.blocks

/-- The check ids that have a case of their own in `handleScanResult`. -/
def dispatchedIds : List String :=
  ["security_headers", "email_security", "frontend_libraries", "dmarc", "spf", "dkim",
   "open_ports"]

/-- Whether the displayed outcome `a` of a check may be followed by `b`: it
stays, or goes from Pending to Running, or from Running to Completed or
Failed. -/
def CardStatus.mayBecome (a b : CardStatus) : Bool :=
  a == b || (a == .pending && b == .running)
    || (a == .running && (b == .completed || b == .failed))

/-- One list of badges follows another: same checks, each badge moving as
`mayBecome` allows. -/
def BadgesStep (B C : List CardStatus) : Prop :=
  B.length = C.length
    ∧ ∀ (k : Nat) (a b : CardStatus), B[k]? = some a → C[k]? = some b → a.mayBecome b = true

/-- The worlds of a run at the points where no callback is running: the one
given, then the one after each settlement, as `drive` goes through them. -/
def driveTrail (outcome : Nat → Settlement) : Nat → World → List World
  | 0, w => [w]
  | fuel + 1, w =>
    match w.inflight with
    | [] => [w]
    | p :: _ => w :: driveTrail outcome fuel (settle 0 (outcome p.index) w)

/-- The pages shown during one session: the panel as initialised, then the
page after the submit handler and after each settlement. -/
def sessionPages (url : String) (actions : List Action) (outcome : Nat → Settlement)
    (page : Page) : List Page :=
  initializeProgressInterface actions page
    :: (driveTrail outcome actions.length (startScan url actions { page := page })).map
        (fun w => w.page)

/-- The cards of the page carry the ids `ids` and show the badges `B`. -/
def CardsOk (ids : List String) (p : Page) (B : List CardStatus) : Prop :=
  ∃ cards, p.cards = some cards
    ∧ cards.map (fun c => c.id) = ids ∧ cards.map (fun c => c.badge) = B

/-- The request for check `index` is the one in flight, its card shows
Running, the cards after it show Pending, and the cards carry the ids of the
checks. -/
def InFlightAt (url : String) (actions : List Action) (index : Nat) (w : World) : Prop :=
  ∃ h : index < actions.length,
    w.inflight = [{ url := url, actions := actions, index := index, action := actions[index] }]
    ∧ ∃ B, CardsOk (actions.map (fun a => a.id)) w.page B
      ∧ B[index]? = some .running
      ∧ ∀ j, index < j → j < actions.length → B[j]? = some .pending

/-- A badge that shows Completed or Failed on the first page shows the same on
the second. -/
def KeepsSettled (P Q : Page) : Prop :=
  ∀ (k : Nat) (st : CardStatus), st = .completed ∨ st = .failed →
    P.badges[k]? = some st → Q.badges[k]? = some st

/-- An SSL info object whose three subchecks are present: validity with a
warning, protocols with no status, hsts passing. -/
def mixedSslInfo : JsVal :=
  .obj [("validity", .obj [("status", .str "warning")]),
        ("protocols", .obj [("overview", .str "TLS versions")]),
        ("hsts", .obj [("status", .str "PASS")])]

/-- Whether a request settles by its `success` callback. -/
def Settlement.isSuccess : Settlement → Bool
  | .success _ _ => true
  | .error _ => false

/-- One more than the index of the last check that succeeds among the checks
of index below `count`; 0 when none succeeds. -/
def lastSuccess (outcome : Nat → Settlement) : Nat → Nat
  | 0 => 0
  | n + 1 => if (outcome n).isSuccess then n + 1 else lastSuccess outcome n

/-- The text of `#progress-text`. -/
def Page.progressText (p : Page) : Option String := p.panel.map (fun panel => panel.progressText)

/-- The text shown for a URL under a limit, in the words of C23: the URL
itself when its length is at most `limit`, and otherwise its first
`limit - 3` characters followed by three dots; length and characters counted
in UTF-16 code units. -/
def truncated (limit : Nat) (u : String) : List Nat :=
  if (utf16 u).length ≤ limit then utf16 u else (utf16 u).take (limit - 3) ++ utf16 "..."

/-- Whether every character of the string lies in the Basic Multilingual
Plane, so that its code units are its characters. -/
def isBmp (s : String) : Bool := s.data.all (fun c => decide (c.toNat < 0x10000))

/-- A URL as shown under a limit: the full URL as title, the truncated text. -/
def shownLink (limit : Nat) (u : String) : SourceLink :=
  { title := u, text := truncated limit u }

/-- The sources of an entry whose URLs are `u` and then `rest`: the first URL
under the limit 60, the others under the limit 100 and counted by "+ k
more". -/
def shownSources (u : String) (rest : List String) : SourcesView :=
  { first := shownLink 60 u
    more := match rest with
      | [] => none
      | _ :: _ => some (rest.length, rest.map (shownLink 100)) }

/-- An entry with a long first URL and one further URL. -/
def twoSourcesEntry : JsVal :=
  .obj [("name", .str "jquery"),
        ("src_urls", .arr
          [.str "https://cdn.example.org/libraries/jquery/3.6.0/dist/jquery.min.js?v=20240101",
           .str "https://example.org/static/jquery.js"])]

/-- The code loses no block of the page. -/
def Act.NoLoss (a : Act) : Prop := ∀ p : Page, p.blocks.length ≤ (a.run p).blocks.length

/-- The code, when it returns, leaves at least one block more on the page
than it found: it has produced visible output. -/
def Act.ShowsOutput (a : Act) : Prop :=
  a.thrown = none → ∀ p : Page, p.blocks.length < (a.run p).blocks.length

/-- A response to a check that the dispatcher has no case for. -/
def whoisResponse : JsVal := .obj [("registrar", .str "Example Registrar")]

/-- A summary with the score 72.5 and the risk level "Medium". -/
def fractionalScorePayload : JsVal :=
  .obj [("summary", .obj [("score", .num (.finite false 725 (-1))),
                          ("risk_level", .str "Medium")])]

/-- A URL of 60 characters, one of them outside the Basic Multilingual Plane:
61 code units. -/
def astralUrl : String :=
  "https://cdn.example.org/static/vendor/emoji/dist/sprite-"
    ++ String.singleton (Char.ofNat 0x1F600) ++ ".js"

/-- An entry whose only source is that URL. -/
def astralSourceEntry : JsVal :=
  .obj [("name", .str "sprite"), ("src_urls", .arr [.str astralUrl])]

/-! ## Lemmas on the callback chain -/

theorem drive_of_not_inflight (outcome : Nat → Settlement) (fuel : Nat) (w : World)
    (h : w.inflight = []) : drive outcome fuel w = w := by
  cases fuel with
  | zero => rfl
  | succ n => simp [drive, h]

/-- The callback chain from `runNextAction(index)` is the explicit loop over
the checks from `index` on. -/
theorem drive_runNextAction (url : String) (actions : List Action)
    (outcome : Nat → Settlement) :
    ∀ (k index fuel : Nat) (w : World), w.inflight = [] →
      actions.length - index ≤ k → k ≤ fuel →
      drive outcome fuel (runNextAction url actions index w)
        = loopFrom url actions outcome (actions.drop index) index w := by
  intro k
  induction k with
  | zero =>
    intro index fuel w hw hk _
    have hge : ¬ index < actions.length := by omega
    have hdrop : actions.drop index = [] := List.drop_eq_nil_of_le (by omega)
    rw [hdrop]
    simp only [runNextAction, dif_neg hge, loopFrom]
    exact drive_of_not_inflight _ _ _ hw
  | succ k ih =>
    intro index fuel w hw hk hfuel
    by_cases hlt : index < actions.length
    · have hdrop : actions.drop index = actions[index] :: actions.drop (index + 1) :=
        (List.drop_eq_getElem_cons hlt)
      rw [hdrop]
      obtain ⟨f, rfl⟩ : ∃ f, fuel = f + 1 := ⟨fuel - 1, by omega⟩
      simp only [runNextAction, dif_pos hlt, drive, hw, List.nil_append, settle,
        List.getElem?_cons_zero, List.eraseIdx_cons_zero, loopFrom]
      cases ho : outcome index with
      | success response timeTaken =>
        simp only [onSuccess]
        cases ht : (handleScanResult actions[index].id response timeTaken).thrown with
        | some e =>
          simp only [List.append_assoc, List.singleton_append]
          exact drive_of_not_inflight _ _ _ rfl
        | none =>
          simp only []
          rw [ih (index + 1) f _ rfl (by omega) (by omega)]
      | error responseText =>
        simp only [onError]
        rw [ih (index + 1) f _ rfl (by omega) (by omega)]
    · have hdrop : actions.drop index = [] := List.drop_eq_nil_of_le (by omega)
      rw [hdrop]
      simp only [runNextAction, dif_neg hlt, loopFrom]
      exact drive_of_not_inflight _ _ _ hw

/-- One session is the explicit loop over the whole list. -/
theorem runSession_eq_loop (url : String) (actions : List Action)
    (outcome : Nat → Settlement) (page : Page) :
    runSession url actions outcome page
      = loopFrom url actions outcome actions 0
          { page := initializeProgressInterface actions page, currentScanUrl := url } := by
  unfold runSession startScan
  rw [drive_runNextAction url actions outcome actions.length 0 actions.length _ rfl
    (by omega) (le_refl _)]
  simp

theorem ReturnFrom.tail {outcome : Nat → Settlement} {action : Action} {rest : List Action}
    {index : Nat} (h : ReturnFrom outcome (action :: rest) index) :
    ReturnFrom outcome rest (index + 1) := by
  intro j hj response timeTaken ho
  have := h (j + 1) (by simp; omega) response timeTaken (by rw [← ho]; congr 1; omega)
  simpa using this

theorem ReturnFrom.head {outcome : Nat → Settlement} {action : Action} {rest : List Action}
    {index : Nat} (h : ReturnFrom outcome (action :: rest) index) (response : JsVal)
    (timeTaken : String) (ho : outcome index = .success response timeTaken) :
    (handleScanResult action.id response timeTaken).thrown = none := by
  have := h 0 (by simp) response timeTaken (by simpa using ho)
  simpa using this

theorem HandlersReturn.returnFrom {actions : List Action} {outcome : Nat → Settlement}
    (h : HandlersReturn actions outcome) : ReturnFrom outcome actions 0 := by
  intro j hj response timeTaken ho
  exact h j hj response timeTaken (by simpa using ho)

theorem loopFrom_trace (url : String) (actions : List Action) (outcome : Nat → Settlement) :
    ∀ (rest : List Action) (index : Nat) (w : World), ReturnFrom outcome rest index →
      (loopFrom url actions outcome rest index w).trace
        = w.trace ++ expectedTrace url actions.length outcome rest index := by
  intro rest
  induction rest with
  | nil => intro index w _; simp [loopFrom, expectedTrace]
  | cons action rest ih =>
    intro index w h
    simp only [loopFrom, expectedTrace, settledEvent]
    cases ho : outcome index with
    | success response timeTaken =>
      simp only [h.head response timeTaken ho]
      rw [ih _ _ h.tail]
      simp
    | error responseText =>
      simp only []
      rw [ih _ _ h.tail]
      simp

theorem loopFrom_inflight (url : String) (actions : List Action) (outcome : Nat → Settlement) :
    ∀ (rest : List Action) (index : Nat) (w : World),
      (loopFrom url actions outcome rest index w).inflight = w.inflight := by
  intro rest
  induction rest with
  | nil => intro index w; simp [loopFrom]
  | cons action rest ih =>
    intro index w
    simp only [loopFrom]
    cases outcome index with
    | success response timeTaken =>
      simp only []
      cases (handleScanResult action.id response timeTaken).thrown with
      | some e => rfl
      | none => simp only []; rw [ih]
    | error responseText => simp only []; rw [ih]

theorem settledEvent_settles (outcome : Nat → Settlement) (index : Nat) :
    (settledEvent outcome index).settles index = true := by
  unfold settledEvent
  cases outcome index <;> simp [Event.settles]

theorem settledEvent_ne_issued (outcome : Nat → Settlement) (index j : Nat) (req : Request) :
    settledEvent outcome index ≠ .issued j req := by
  unfold settledEvent
  cases outcome index <;> simp

theorem issuedIndices_expectedTrace (url : String) (total : Nat) (outcome : Nat → Settlement) :
    ∀ (rest : List Action) (index : Nat),
      issuedIndices (expectedTrace url total outcome rest index)
        = List.range' index rest.length := by
  intro rest
  induction rest with
  | nil => intro index; simp [expectedTrace, issuedIndices]
  | cons action rest ih =>
    intro index
    have h := ih (index + 1)
    simp only [issuedIndices] at h ⊢
    simp only [expectedTrace, List.filterMap_cons, List.length_cons, List.range'_succ, h]
    unfold settledEvent
    cases outcome index <;> simp [h]

theorem issuedActions_expectedTrace (url : String) (total : Nat) (outcome : Nat → Settlement) :
    ∀ (rest : List Action) (index : Nat),
      issuedActions (expectedTrace url total outcome rest index) = rest.map (fun a => a.id) := by
  intro rest
  induction rest with
  | nil => intro index; simp [expectedTrace, issuedActions]
  | cons action rest ih =>
    intro index
    have h := ih (index + 1)
    simp only [issuedActions] at h ⊢
    simp only [expectedTrace, List.filterMap_cons, List.map_cons]
    unfold settledEvent
    cases outcome index <;> simp [h]

/-- In the trace of a run whose callbacks return, a request other than the
first of the stretch is preceded by the settlement of the request before it. -/
theorem expectedTrace_sequential (url : String) (total : Nat) (outcome : Nat → Settlement) :
    ∀ (rest : List Action) (index : Nat) (before after : List Event) (j : Nat) (req : Request),
      expectedTrace url total outcome rest index = before ++ .issued (j + 1) req :: after →
        (j + 1 = index ∧ before = []) ∨ ∃ e ∈ before, e.settles j = true := by
  intro rest
  induction rest with
  | nil =>
    intro index before after j req h
    simp only [expectedTrace] at h
    cases before with
    | nil => simp at h
    | cons b bs =>
      simp only [List.cons_append, List.cons.injEq] at h
      have := h.2
      cases bs <;> simp at this
  | cons action rest ih =>
    intro index before after j req h
    simp only [expectedTrace] at h
    cases before with
    | nil =>
      simp only [List.nil_append, List.cons.injEq, Event.issued.injEq] at h
      exact Or.inl ⟨h.1.1.symm, rfl⟩
    | cons b bs =>
      simp only [List.cons_append, List.cons.injEq] at h
      obtain ⟨_, h2⟩ := h
      cases bs with
      | nil =>
        simp only [List.nil_append, List.cons.injEq] at h2
        exact absurd h2.1 (settledEvent_ne_issued _ _ _ _)
      | cons c cs =>
        simp only [List.cons_append, List.cons.injEq] at h2
        obtain ⟨hc, h3⟩ := h2
        right
        rcases ih (index + 1) cs after j req h3 with ⟨hj, _⟩ | ⟨e, he, hs⟩
        · have hji : j = index := by omega
          exact ⟨c, by simp, by rw [← hc, hji]; exact settledEvent_settles _ _⟩
        · exact ⟨e, by simp [he], hs⟩

theorem sampleOutcome_handlersReturn : HandlersReturn scanActions sampleOutcome := by
  intro i h response timeTaken ho
  have h3 : i < 3 := h
  interval_cases i
  · simp only [sampleOutcome] at ho
    simp only [show ¬ (0 = 1) by decide, if_false, Settlement.success.injEq] at ho
    obtain ⟨rfl, rfl⟩ := ho
    rfl
  · simp [sampleOutcome] at ho
  · simp only [sampleOutcome] at ho
    simp only [show ¬ (2 = 1) by decide, if_false, Settlement.success.injEq] at ho
    obtain ⟨rfl, rfl⟩ := ho
    rfl

/-! ## C1 -/

/-- C1, as stated, fails: with the three checks of the source, when the first
request answers a result whose `results` array holds `null`, the `success`
callback throws inside `handleScanResult` (in `renderSecurityHeaders`) before
it reaches `runNextAction(index + 1)`, so one request is issued for a list of
three checks. -/
theorem c1_one_request_for_three_checks :
    issuedIndices
        (runSession "https://example.org" scanActions
          (fun _ => .success (.obj [("result", .obj [("results", .arr [.null])])]) "0.01")
          {}).trace
      = [0]
    ∧ scanActions.length = 3 := by
  decide

/-- C1 (amended): for every check list of length N, every page and every run
in which each request settles and each `success` callback returns (no renderer
throws), exactly N requests are issued, one per check and in list order, each
check once; the request for check j+1 comes after an event that settles the
request for check j; and nothing is left in flight. -/
theorem c1_requests_in_order_once (url : String) (actions : List Action)
    (outcome : Nat → Settlement) (page : Page) (h : HandlersReturn actions outcome) :
    issuedIndices (runSession url actions outcome page).trace = List.range actions.length
    ∧ issuedActions (runSession url actions outcome page).trace = actions.map (fun a => a.id)
    ∧ (issuedIndices (runSession url actions outcome page).trace).length = actions.length
    ∧ (∀ (before after : List Event) (j : Nat) (req : Request),
        (runSession url actions outcome page).trace = before ++ .issued (j + 1) req :: after →
          ∃ e ∈ before, e.settles j = true)
    ∧ (runSession url actions outcome page).inflight = [] := by
  have ht : (runSession url actions outcome page).trace
      = expectedTrace url actions.length outcome actions 0 := by
    rw [runSession_eq_loop, loopFrom_trace _ _ _ _ _ _ h.returnFrom]
    simp
  have hi : issuedIndices (runSession url actions outcome page).trace
      = List.range actions.length := by
    rw [ht, issuedIndices_expectedTrace, List.range_eq_range']
  refine ⟨hi, ?_, ?_, ?_, ?_⟩
  · rw [ht, issuedActions_expectedTrace]
  · rw [hi, List.length_range]
  · intro before after j req hsplit
    rw [ht] at hsplit
    rcases expectedTrace_sequential _ _ _ _ _ _ _ _ _ hsplit with ⟨hj, _⟩ | hex
    · omega
    · exact hex
  · rw [runSession_eq_loop, loopFrom_inflight]

/-- C1 (amended), at the three checks of the source with the second request
failing. -/
theorem c1_requests_in_order_once_witness :
    HandlersReturn scanActions sampleOutcome
    ∧ issuedActions (runSession "https://example.org" scanActions sampleOutcome {}).trace
        = ["security_headers", "email_security", "frontend_libraries"] :=
  ⟨sampleOutcome_handlersReturn,
    (c1_requests_in_order_once "https://example.org" scanActions sampleOutcome {}
      sampleOutcome_handlersReturn).2.1⟩

/-! ## The progress panel during a run -/

theorem Act.keepsPanel_skip : Act.skip.KeepsPanel := fun _ => rfl

theorem Act.keepsPanel_throw (e : JsError) : (Act.throw e).KeepsPanel := fun _ => rfl

theorem Act.keepsPanel_append (b : Block) : (Act.append b).KeepsPanel := fun _ => rfl

theorem Act.keepsPanel_appendBuilt (built : Except JsError Block) :
    (Act.appendBuilt built).KeepsPanel := by
  cases built with
  | error e => exact Act.keepsPanel_throw e
  | ok b => exact Act.keepsPanel_append b

theorem Act.keepsPanel_andThen {a b : Act} (ha : a.KeepsPanel) (hb : b.KeepsPanel) :
    (a.andThen b).KeepsPanel := by
  intro p
  unfold Act.andThen
  cases a.thrown with
  | some e => exact ha p
  | none => simp only []; rw [hb, ha]

theorem keepsPanel_onLibContainers (f : FrontendSection → FrontendSection) :
    (onLibContainers f).KeepsPanel := fun _ => rfl

theorem keepsPanel_appendSslItem (item : SslItem) : (appendSslItem item).KeepsPanel :=
  fun _ => rfl

theorem keepsPanel_populateEach : ∀ entries : List JsVal, (populateEach entries).KeepsPanel := by
  intro entries
  induction entries with
  | nil => exact Act.keepsPanel_skip
  | cons raw rest ih =>
    unfold populateEach
    cases libViews raw with
    | error e => exact Act.keepsPanel_throw e
    | ok v =>
      obtain ⟨card, row⟩ := v
      exact Act.keepsPanel_andThen (keepsPanel_onLibContainers _) ih

theorem keepsPanel_populateLibrariesData (entries : List JsVal) :
    (populateLibrariesData entries).KeepsPanel := by
  cases entries with
  | nil => exact keepsPanel_onLibContainers _
  | cons raw rest =>
    exact Act.keepsPanel_andThen (keepsPanel_onLibContainers _) (keepsPanel_populateEach _)

theorem keepsPanel_renderSecurityHeaders (response : JsVal) (timeTaken : String) :
    (renderSecurityHeaders response timeTaken).KeepsPanel := by
  unfold renderSecurityHeaders
  split
  · exact Act.keepsPanel_append _
  · exact Act.keepsPanel_appendBuilt _

theorem keepsPanel_renderEmailSecurity (response : JsVal) (timeTaken : String) :
    (renderEmailSecurity response timeTaken).KeepsPanel := by
  unfold renderEmailSecurity
  split
  · exact Act.keepsPanel_append _
  · exact Act.keepsPanel_appendBuilt _

theorem keepsPanel_renderDMARC (response : JsVal) (timeTaken : String) :
    (renderDMARC response timeTaken).KeepsPanel := by
  unfold renderDMARC
  split
  · exact Act.keepsPanel_append _
  · exact Act.keepsPanel_appendBuilt _

theorem keepsPanel_renderSPF (response : JsVal) (timeTaken : String) :
    (renderSPF response timeTaken).KeepsPanel := by
  unfold renderSPF
  split
  · exact Act.keepsPanel_append _
  · exact Act.keepsPanel_appendBuilt _

theorem keepsPanel_renderDKIM (response : JsVal) (timeTaken : String) :
    (renderDKIM response timeTaken).KeepsPanel := by
  unfold renderDKIM
  split
  · exact Act.keepsPanel_append _
  · exact Act.keepsPanel_appendBuilt _

theorem keepsPanel_renderFrontendLibraries (response : JsVal) (timeTaken : String) :
    (renderFrontendLibraries response timeTaken).KeepsPanel := by
  unfold renderFrontendLibraries
  simp only []
  split
  · exact Act.keepsPanel_append _
  · exact Act.keepsPanel_andThen
      (Act.keepsPanel_andThen (Act.keepsPanel_append _) (keepsPanel_populateLibrariesData _))
      (Act.keepsPanel_append _)

theorem keepsPanel_handleScanResult (action : String) (response : JsVal) (timeTaken : String) :
    (handleScanResult action response timeTaken).KeepsPanel := by
  unfold handleScanResult
  split
  · cases response.get "result" with
    | error e => exact Act.keepsPanel_throw e
    | ok result => exact keepsPanel_renderSecurityHeaders _ _
  · split
    · exact keepsPanel_renderEmailSecurity _ _
    · split
      · exact keepsPanel_renderFrontendLibraries _ _
      · split
        · exact keepsPanel_renderDMARC _ _
        · split
          · exact keepsPanel_renderSPF _ _
          · split
            · exact keepsPanel_renderDKIM _ _
            · split
              · exact Act.keepsPanel_throw _
              · exact Act.keepsPanel_append _

theorem cards_updateScanProgress (actionId : String) (status : CardStatus)
    (timeTaken : Option String) (p : Page) :
    (updateScanProgress actionId status timeTaken p).cards
      = p.cards.map (updateFirstCard actionId (applyStatus status timeTaken)) := by
  unfold updateScanProgress Page.cards
  cases p.panel <;> rfl

theorem cards_updateOverallProgress (completed total : Nat) (p : Page) :
    (updateOverallProgress completed total p).cards = p.cards := by
  unfold updateOverallProgress Page.cards
  cases p.panel <;> rfl

theorem cards_addDownloadReportButton (url : String) (p : Page) :
    (addDownloadReportButton url p).cards = p.cards := rfl

theorem cards_append (p : Page) (b : Block) : (p.append b).cards = p.cards := rfl

theorem cards_completeScan (p : Page) : (completeScan p).cards = p.cards := by
  unfold completeScan Page.cards
  cases p.panel <;> rfl

theorem cards_run_of_keepsPanel {a : Act} (h : a.KeepsPanel) (p : Page) :
    (a.run p).cards = p.cards := by
  unfold Page.cards
  rw [h p]

theorem applyStatus_id (status : CardStatus) (timeTaken : Option String) (c : StatusCard) :
    (applyStatus status timeTaken c).id = c.id := by
  unfold applyStatus
  cases status with
  | pending => rfl
  | running => rfl
  | failed => rfl
  | completed =>
    cases timeTaken with
    | none => rfl
    | some t =>
      simp only []
      split <;> rfl

/-- An id selector skips the cards with other ids. -/
theorem updateFirstCard_skip (actionId : String) (f : StatusCard → StatusCard) :
    ∀ (done : List StatusCard) (c : StatusCard) (rest : List StatusCard),
      (∀ d ∈ done, d.id ≠ actionId) → c.id = actionId →
      updateFirstCard actionId f (done ++ c :: rest) = done ++ f c :: rest := by
  intro done
  induction done with
  | nil => intro c rest _ hc; simp [updateFirstCard, hc]
  | cons d ds ih =>
    intro c rest hd hc
    have hne : d.id ≠ actionId := hd d (by simp)
    have ih' := ih c rest (fun x hx => hd x (by simp [hx])) hc
    simp only [List.cons_append, updateFirstCard, hne, if_false]
    exact congrArg (d :: ·) ih'

theorem settledCard_id (o : Settlement) (action : Action) :
    (settledCard o action).id = action.id := by
  cases o <;> simp [settledCard, applyStatus_id, createStatusCard]

/-- The cards at the end of the loop: the checks already done keep their
cards, every check of `rest` ends on its settled card.  The ids are distinct,
as the data model of a check list has it. -/
theorem loopFrom_cards (url : String) (actions : List Action) (outcome : Nat → Settlement) :
    ∀ (rest : List Action) (index : Nat) (w : World) (done : List StatusCard),
      ReturnFrom outcome rest index →
      w.page.cards = some (done ++ rest.map createStatusCard) →
      (∀ d ∈ done, ∀ a ∈ rest, d.id ≠ a.id) →
      (rest.map (fun a => a.id)).Nodup →
      (loopFrom url actions outcome rest index w).page.cards
        = some (done ++ finalCards outcome rest index) := by
  intro rest
  induction rest with
  | nil =>
    intro index w done _ hc _ _
    simp only [loopFrom, finalCards, cards_completeScan]
    simpa using hc
  | cons action rest ih =>
    intro index w done hret hc hdone hnd
    have hskip : ∀ d ∈ done, d.id ≠ action.id := fun d hd => hdone d hd action (by simp)
    simp only [List.map_cons, List.nodup_cons, List.mem_map, not_exists, not_and] at hnd
    obtain ⟨hfresh, hnd'⟩ := hnd
    have hdone' : ∀ (c : StatusCard), c.id = action.id →
        ∀ d ∈ done ++ [c], ∀ a ∈ rest, d.id ≠ a.id := by
      intro c hcid d hd a ha
      rcases List.mem_append.mp hd with hd | hd
      · exact hdone d hd a (by simp [ha])
      · simp only [List.mem_singleton] at hd
        rw [hd, hcid]
        exact fun h => hfresh a ha h.symm
    have hrun : (updateScanProgress action.id .running none w.page).cards
        = some (done ++ applyStatus .running none (createStatusCard action)
            :: rest.map createStatusCard) := by
      rw [cards_updateScanProgress, hc]
      simp only [List.map_cons, Option.map_some']
      rw [updateFirstCard_skip _ _ _ _ _ hskip rfl]
    simp only [loopFrom, finalCards]
    cases ho : outcome index with
    | success response timeTaken =>
      simp only [hret.head response timeTaken ho]
      have := ih (index + 1)
        { w with
          page :=
            if decide ((index : Int) = (actions.length : Int) - 1) then
              addDownloadReportButton w.currentScanUrl
                (updateOverallProgress (index + 1) actions.length
                  ((handleScanResult action.id response timeTaken).run
                    (updateScanProgress action.id .completed (some timeTaken)
                      (updateScanProgress action.id .running none w.page))))
            else
              updateOverallProgress (index + 1) actions.length
                ((handleScanResult action.id response timeTaken).run
                  (updateScanProgress action.id .completed (some timeTaken)
                    (updateScanProgress action.id .running none w.page)))
          trace := (w.trace ++
            [.issued index { url := url, action := action.id,
                             lastAction := decide ((index : Int) = (actions.length : Int) - 1) }])
              ++ [.succeeded index] }
        (done ++ [settledCard (.success response timeTaken) action])
        hret.tail
        (by
          have hcards : (updateOverallProgress (index + 1) actions.length
              ((handleScanResult action.id response timeTaken).run
                (updateScanProgress action.id .completed (some timeTaken)
                  (updateScanProgress action.id .running none w.page)))).cards
              = some (done ++ [settledCard (.success response timeTaken) action]
                  ++ rest.map createStatusCard) := by
            rw [cards_updateOverallProgress,
              cards_run_of_keepsPanel (keepsPanel_handleScanResult _ _ _),
              cards_updateScanProgress, hrun]
            simp only [Option.map_some']
            rw [updateFirstCard_skip _ _ _ _ _ hskip (by simp [applyStatus_id, createStatusCard])]
            simp [settledCard]
          split
          · rw [cards_addDownloadReportButton]; exact hcards
          · exact hcards)
        (hdone' _ (settledCard_id _ _))
        hnd'
      simpa using this
    | error responseText =>
      simp only []
      have := ih (index + 1)
        { w with
          page := (updateScanProgress action.id .failed none
            (updateScanProgress action.id .running none w.page)).append
              (.errorAlert action.name responseText)
          trace := (w.trace ++
            [.issued index { url := url, action := action.id,
                             lastAction := decide ((index : Int) = (actions.length : Int) - 1) }])
              ++ [.failed index] }
        (done ++ [settledCard (.error responseText) action])
        hret.tail
        (by
          rw [cards_append, cards_updateScanProgress, hrun]
          simp only [Option.map_some']
          rw [updateFirstCard_skip _ _ _ _ _ hskip (by simp [applyStatus_id, createStatusCard])]
          simp [settledCard])
        (hdone' _ (settledCard_id _ _))
        hnd'
      simpa using this

/-- The cards at the end of one session. -/
theorem runSession_cards (url : String) (actions : List Action) (outcome : Nat → Settlement)
    (page : Page) (h : HandlersReturn actions outcome)
    (hids : (actions.map (fun a => a.id)).Nodup) :
    (runSession url actions outcome page).page.cards = some (finalCards outcome actions 0) := by
  rw [runSession_eq_loop]
  have := loopFrom_cards url actions outcome actions 0
    { page := initializeProgressInterface actions page, currentScanUrl := url } []
    h.returnFrom (by simp [initializeProgressInterface, Page.cards]) (by simp) hids
  simpa using this

theorem finalCards_getElem? (outcome : Nat → Settlement) :
    ∀ (rest : List Action) (index j : Nat) (h : j < rest.length),
      (finalCards outcome rest index)[j]? = some (settledCard (outcome (index + j)) rest[j]) := by
  intro rest
  induction rest with
  | nil => intro index j h; simp at h
  | cons action rest ih =>
    intro index j h
    cases j with
    | zero => simp [finalCards]
    | succ j =>
      simp only [finalCards, List.getElem?_cons_succ, List.getElem_cons_succ]
      rw [ih (index + 1) j (by simpa using h)]
      have hidx : index + 1 + j = index + (j + 1) := by omega
      rw [hidx]

theorem settledEvent_ne_completeScan (outcome : Nat → Settlement) (index : Nat) :
    settledEvent outcome index ≠ .completeScan := by
  unfold settledEvent
  cases outcome index <;> simp

/-- After the settlement of any check of the stretch, the trace goes on as
the trace of a run over the checks that remain. -/
theorem expectedTrace_split (url : String) (total : Nat) (outcome : Nat → Settlement) :
    ∀ (rest : List Action) (index j : Nat), j < rest.length →
      ∃ before, expectedTrace url total outcome rest index
        = before ++ settledEvent outcome (index + j)
            :: expectedTrace url total outcome (rest.drop (j + 1)) (index + j + 1) := by
  intro rest
  induction rest with
  | nil => intro index j h; simp at h
  | cons action rest ih =>
    intro index j h
    cases j with
    | zero =>
      exact ⟨[.issued index (requestFor url total action index)],
        by simp [expectedTrace, requestFor]⟩
    | succ j =>
      obtain ⟨before, hb⟩ := ih (index + 1) j (by simpa using h)
      refine ⟨.issued index (requestFor url total action index)
        :: settledEvent outcome index :: before, ?_⟩
      simp only [expectedTrace, List.cons_append, List.drop_succ_cons, requestFor]
      rw [hb]
      have h1 : index + 1 + j = index + (j + 1) := by omega
      rw [h1]

/-- The trace of a run whose callbacks return ends with the one call of
`completeScan`. -/
theorem expectedTrace_ends (url : String) (total : Nat) (outcome : Nat → Settlement) :
    ∀ (rest : List Action) (index : Nat),
      ∃ body, expectedTrace url total outcome rest index = body ++ [.completeScan]
        ∧ Event.completeScan ∉ body := by
  intro rest
  induction rest with
  | nil => intro index; exact ⟨[], by simp [expectedTrace]⟩
  | cons action rest ih =>
    intro index
    obtain ⟨body, hb, hn⟩ := ih (index + 1)
    refine ⟨.issued index (requestFor url total action index)
      :: settledEvent outcome index :: body, ?_, ?_⟩
    · simp only [expectedTrace, List.cons_append, hb, requestFor]
    · simp only [List.mem_cons, not_or]
      exact ⟨by simp, (settledEvent_ne_completeScan _ _).symm, hn⟩

theorem runSession_trace (url : String) (actions : List Action) (outcome : Nat → Settlement)
    (page : Page) (h : HandlersReturn actions outcome) :
    (runSession url actions outcome page).trace
      = expectedTrace url actions.length outcome actions 0 := by
  rw [runSession_eq_loop, loopFrom_trace _ _ _ _ _ _ h.returnFrom]
  simp

/-! ## C2 -/

/-- C2, as stated, fails: with the three checks of the source, the first
request failing and the second answering a results array that holds `null`,
the `success` callback of the second check throws in `renderEmailSecurity`;
the third check is never requested and `completeScan` is never reached. -/
theorem c2_later_check_not_requested :
    issuedIndices (runSession "https://example.org" scanActions brokenOutcome {}).trace = [0, 1]
    ∧ Event.completeScan ∉ (runSession "https://example.org" scanActions brokenOutcome {}).trace
    ∧ scanActions.length = 3 := by
  decide

/-- C2 (amended): for every check list with distinct ids and every assignment
of success/failure to its checks under which each `success` callback returns
(no renderer throws): a transport failure on check i leaves the card of that
check marked Failed, and the run goes on from the failure exactly as a run
over the checks after i (next request, or completion when i is the last);
every check is requested; the trace ends with the one call of `completeScan`;
and `runNextAction(index)` calls `completeScan` exactly when `index` has
reached the list length. -/
theorem c2_failure_does_not_stop_the_run (url : String) (actions : List Action)
    (outcome : Nat → Settlement) (page : Page) (h : HandlersReturn actions outcome)
    (hids : (actions.map (fun a => a.id)).Nodup) :
    (∀ (i : Nat) (hi : i < actions.length) (responseText : String),
        outcome i = .error responseText →
          (∃ c, (runSession url actions outcome page).page.cards.bind (fun cs => cs[i]?) = some c
            ∧ c.id = actions[i].id ∧ c.badge = .failed)
          ∧ ∃ before, (runSession url actions outcome page).trace
              = before ++ .failed i
                  :: expectedTrace url actions.length outcome (actions.drop (i + 1)) (i + 1))
    ∧ issuedIndices (runSession url actions outcome page).trace = List.range actions.length
    ∧ (∃ body, (runSession url actions outcome page).trace = body ++ [.completeScan]
        ∧ Event.completeScan ∉ body)
    ∧ (∀ (index : Nat) (w : World),
        Event.completeScan ∈ (runNextAction url actions index { w with trace := [] }).trace
          ↔ actions.length ≤ index) := by
  have ht := runSession_trace url actions outcome page h
  refine ⟨?_, ?_, ?_, ?_⟩
  · intro i hi responseText ho
    constructor
    · refine ⟨settledCard (outcome i) actions[i], ?_, settledCard_id _ _, ?_⟩
      · rw [runSession_cards url actions outcome page h hids]
        simp only [Option.some_bind]
        rw [finalCards_getElem? outcome actions 0 i hi]
        simp
      · rw [ho]; rfl
    · obtain ⟨before, hb⟩ := expectedTrace_split url actions.length outcome actions 0 i hi
      refine ⟨before, ?_⟩
      rw [ht, hb]
      simp only [settledEvent, Nat.zero_add, ho]
  · rw [ht, issuedIndices_expectedTrace, List.range_eq_range']
  · rw [ht]
    exact expectedTrace_ends _ _ _ _ _
  · intro index w
    unfold runNextAction
    by_cases hlt : index < actions.length
    · simp only [dif_pos hlt, List.nil_append, List.mem_singleton]
      constructor
      · intro hmem; cases hmem
      · intro hle; omega
    · simp only [dif_neg hlt, List.nil_append, List.mem_singleton, true_iff]
      omega

/-- C2 (amended), at the three checks of the source with the second request
failing: the second card ends Failed and the third check is still requested. -/
theorem c2_failure_does_not_stop_the_run_witness :
    HandlersReturn scanActions sampleOutcome
    ∧ (scanActions.map (fun a => a.id)).Nodup
    ∧ issuedIndices (runSession "https://example.org" scanActions sampleOutcome {}).trace
        = List.range scanActions.length :=
  ⟨sampleOutcome_handlersReturn, by decide,
    (c2_failure_does_not_stop_the_run "https://example.org" scanActions sampleOutcome {}
      sampleOutcome_handlersReturn (by decide)).2.1⟩

/-! ## C3: what the dispatcher shows -/

theorem Act.noLoss_skip : Act.skip.NoLoss := fun _ => Nat.le_refl _

theorem Act.noLoss_throw (e : JsError) : (Act.throw e).NoLoss := fun _ => Nat.le_refl _

theorem Act.noLoss_append (b : Block) : (Act.append b).NoLoss := by
  intro p
  show p.blocks.length ≤ (p.blocks ++ [b]).length
  simp

theorem Act.noLoss_andThen {a b : Act} (ha : a.NoLoss) (hb : b.NoLoss) :
    (a.andThen b).NoLoss := by
  intro p
  unfold Act.andThen
  cases a.thrown with
  | some e => exact ha p
  | none => exact Nat.le_trans (ha p) (hb (a.run p))

theorem length_mapFirstFrontend (f : FrontendSection → FrontendSection) :
    ∀ bs : List Block, (mapFirstFrontend f bs).length = bs.length := by
  intro bs
  induction bs with
  | nil => rfl
  | cons b rest ih => cases b <;> simp [mapFirstFrontend, ih]

theorem noLoss_onLibContainers (f : FrontendSection → FrontendSection) :
    (onLibContainers f).NoLoss := by
  intro p
  show p.blocks.length ≤ (mapFirstFrontend f p.blocks).length
  rw [length_mapFirstFrontend]

theorem noLoss_populateEach : ∀ entries : List JsVal, (populateEach entries).NoLoss := by
  intro entries
  induction entries with
  | nil => exact Act.noLoss_skip
  | cons raw rest ih =>
    unfold populateEach
    cases libViews raw with
    | error e => exact Act.noLoss_throw e
    | ok v =>
      obtain ⟨card, row⟩ := v
      exact Act.noLoss_andThen (noLoss_onLibContainers _) ih

theorem noLoss_populateLibrariesData (entries : List JsVal) :
    (populateLibrariesData entries).NoLoss := by
  cases entries with
  | nil => exact noLoss_onLibContainers _
  | cons raw rest =>
    exact Act.noLoss_andThen (noLoss_onLibContainers _) (noLoss_populateEach _)

theorem Act.showsOutput_throw (e : JsError) : (Act.throw e).ShowsOutput := by
  intro h
  cases h

theorem Act.showsOutput_append (b : Block) : (Act.append b).ShowsOutput := by
  intro _ p
  show p.blocks.length < (p.blocks ++ [b]).length
  simp

theorem Act.showsOutput_appendBuilt (built : Except JsError Block) :
    (Act.appendBuilt built).ShowsOutput := by
  cases built with
  | error e => exact Act.showsOutput_throw e
  | ok b => exact Act.showsOutput_append b

/-- Code that has shown output still shows it after code that loses no
block. -/
theorem Act.showsOutput_andThen {a b : Act} (ha : a.ShowsOutput) (hb : b.NoLoss) :
    (a.andThen b).ShowsOutput := by
  intro hret p
  unfold Act.andThen at hret ⊢
  cases hthrown : a.thrown with
  | some e => rw [hthrown] at hret; cases hret
  | none => exact Nat.lt_of_lt_of_le (ha hthrown p) (hb (a.run p))

theorem showsOutput_renderSecurityHeaders (response : JsVal) (timeTaken : String) :
    (renderSecurityHeaders response timeTaken).ShowsOutput := by
  unfold renderSecurityHeaders
  split
  · exact Act.showsOutput_append _
  · exact Act.showsOutput_appendBuilt _

theorem showsOutput_renderEmailSecurity (response : JsVal) (timeTaken : String) :
    (renderEmailSecurity response timeTaken).ShowsOutput := by
  unfold renderEmailSecurity
  split
  · exact Act.showsOutput_append _
  · exact Act.showsOutput_appendBuilt _

theorem showsOutput_renderDMARC (response : JsVal) (timeTaken : String) :
    (renderDMARC response timeTaken).ShowsOutput := by
  unfold renderDMARC
  split
  · exact Act.showsOutput_append _
  · exact Act.showsOutput_appendBuilt _

theorem showsOutput_renderSPF (response : JsVal) (timeTaken : String) :
    (renderSPF response timeTaken).ShowsOutput := by
  unfold renderSPF
  split
  · exact Act.showsOutput_append _
  · exact Act.showsOutput_appendBuilt _

theorem showsOutput_renderDKIM (response : JsVal) (timeTaken : String) :
    (renderDKIM response timeTaken).ShowsOutput := by
  unfold renderDKIM
  split
  · exact Act.showsOutput_append _
  · exact Act.showsOutput_appendBuilt _

theorem showsOutput_renderFrontendLibraries (response : JsVal) (timeTaken : String) :
    (renderFrontendLibraries response timeTaken).ShowsOutput := by
  unfold renderFrontendLibraries
  simp only []
  split
  · exact Act.showsOutput_append _
  · exact Act.showsOutput_andThen
      (Act.showsOutput_andThen (Act.showsOutput_append _) (noLoss_populateLibrariesData _))
      (Act.noLoss_append _)

theorem showsOutput_handleScanResult (action : String) (response : JsVal) (timeTaken : String) :
    (handleScanResult action response timeTaken).ShowsOutput := by
  unfold handleScanResult
  split
  · cases response.get "result" with
    | error e => exact Act.showsOutput_throw e
    | ok result => exact showsOutput_renderSecurityHeaders _ _
  · split
    · exact showsOutput_renderEmailSecurity _ _
    · split
      · exact showsOutput_renderFrontendLibraries _ _
      · split
        · exact showsOutput_renderDMARC _ _
        · split
          · exact showsOutput_renderSPF _ _
          · split
            · exact showsOutput_renderDKIM _ _
            · split
              · exact Act.showsOutput_throw _
              · exact Act.showsOutput_append _

/-- C3, as stated, fails: a dispatch can fail and show nothing.  For the
first check of the list, `security_headers`, a response whose `results` array
holds `null` makes the renderer throw a `TypeError`: the exception leaves the
`success` callback and no block is added to the page.  The id `open_ports` is
not among the ids that fall back to the raw payload either: it has a case of
its own, which throws for every response. -/
theorem c3_no_output_when_dispatch_throws :
    (handleScanResult "security_headers"
        (.obj [("result", .obj [("results", .arr [.null])])]) "0.10").thrown
      = some (.typeError "status")
    ∧ ((handleScanResult "security_headers"
        (.obj [("result", .obj [("results", .arr [.null])])]) "0.10").run {}).blocks.length = 0
    ∧ (scanActions.map (fun a => a.id)).head? = some "security_headers"
    ∧ Event.threw 0 (.typeError "status")
        ∈ (runSession "https://example.org" scanActions nullRowOutcome {}).trace
    ∧ (runSession "https://example.org" scanActions nullRowOutcome {}).page.blocks.length = 0
    ∧ (∀ (response : JsVal) (timeTaken : String) (p : Page),
        (handleScanResult "open_ports" response timeTaken).thrown
            = some (.referenceError "renderOpenPorts")
          ∧ ((handleScanResult "open_ports" response timeTaken).run p).blocks = p.blocks) := by
  refine ⟨by decide, by decide, by decide, by decide, by decide, ?_⟩
  intro response timeTaken p
  exact ⟨rfl, rfl⟩

/-- C3 (amended): for every check id string, every payload and every page,
a dispatch that returns (nothing throws on the way) has produced visible
output: the page holds at least one block more.  An id with an imported
renderer is handed to that renderer, `security_headers` with the `result` of
the response, the others with the response itself; an id without a case of
its own (any unknown id) falls back to appending the raw payload as a generic
block, without failing. -/
theorem c3_dispatch_shows_output (action : String) (response : JsVal) (timeTaken : String)
    (p : Page) :
    ((handleScanResult action response timeTaken).thrown = none →
        p.blocks.length < ((handleScanResult action response timeTaken).run p).blocks.length)
    ∧ (action ∉ dispatchedIds →
        (handleScanResult action response timeTaken).thrown = none
        ∧ ((handleScanResult action response timeTaken).run p).blocks
            = p.blocks ++ [.rawResult action response])
    ∧ (response.nullish = false →
        handleScanResult "security_headers" response timeTaken
          = renderSecurityHeaders (response.prop "result") timeTaken)
    ∧ handleScanResult "email_security" response timeTaken
        = renderEmailSecurity response timeTaken
    ∧ handleScanResult "frontend_libraries" response timeTaken
        = renderFrontendLibraries response timeTaken
    ∧ handleScanResult "dmarc" response timeTaken = renderDMARC response timeTaken
    ∧ handleScanResult "spf" response timeTaken = renderSPF response timeTaken
    ∧ handleScanResult "dkim" response timeTaken = renderDKIM response timeTaken := by
  refine ⟨fun hret => showsOutput_handleScanResult action response timeTaken hret p, ?_, ?_,
    rfl, rfl, rfl, rfl, rfl⟩
  · intro hnot
    simp only [dispatchedIds, List.mem_cons, List.mem_singleton, List.not_mem_nil, or_false,
      not_or] at hnot
    obtain ⟨h1, h2, h3, h4, h5, h6, h7⟩ := hnot
    unfold handleScanResult
    simp only [h1, h2, h3, h4, h5, h6, h7, if_false]
    exact ⟨rfl, rfl⟩
  · intro hn
    unfold handleScanResult JsVal.get
    simp only [hn, if_true, Bool.false_eq_true, if_false]

/-- C3 (amended) at the unknown id `whois`, and at a security-headers
response with no results: the raw payload as a block, and one block more. -/
theorem c3_dispatch_shows_output_witness :
    "whois" ∉ dispatchedIds
    ∧ ((handleScanResult "whois" whoisResponse "0.10").run {}).blocks
        = [.rawResult "whois" whoisResponse]
    ∧ (handleScanResult "security_headers" (.obj [("result", .obj [])]) "0.10").thrown = none
    ∧ 0 < ((handleScanResult "security_headers" (.obj [("result", .obj [])]) "0.10").run
        {}).blocks.length :=
  ⟨by decide,
    ((c3_dispatch_shows_output "whois" whoisResponse "0.10" {}).2.1 (by decide)).2,
    rfl,
    (c3_dispatch_shows_output "security_headers" (.obj [("result", .obj [])]) "0.10" {}).1 rfl⟩

/-! ## C4 -/

/-- C4: the code breaks it.  Dispatching throws a `TypeError`, and appends
nothing, for a security-headers result whose `results` array holds `null`, for
a DMARC result with no `status`, for an email-security row whose `status` is a
number, for a `null` response to the security-headers check, and for a
frontend-libraries `results` array holding `null`. -/
theorem c4_renderers_throw_on_malformed_payloads :
    (handleScanResult "security_headers"
        (.obj [("result", .obj [("results", .arr [.null])])]) "0.10").thrown
      = some (.typeError "status")
    ∧ (handleScanResult "dmarc"
        (.obj [("result", .obj [("details", .str "No DMARC record found.")])]) "0.10").thrown
      = some (.typeError "toUpperCase")
    ∧ (handleScanResult "email_security"
        (.obj [("result", .obj [("results",
          .arr [.obj [("check", .str "SPF"), ("status", .num 1)]])])]) "0.10").thrown
      = some (.typeError "toUpperCase")
    ∧ (handleScanResult "security_headers" .null "0.10").thrown = some (.typeError "result")
    ∧ (handleScanResult "frontend_libraries"
        (.obj [("results", .arr [.null])]) "0.10").thrown
      = some (.typeError "name")
    ∧ ((handleScanResult "security_headers"
        (.obj [("result", .obj [("results", .arr [.null])])]) "0.10").run {}).blocks.length = 0 := by
  decide

/-! ## C5 - C7: the SSL renderer -/

theorem JsVal.truthy_or_null (v : JsVal) : (v.or .null).truthy = v.truthy := by
  unfold JsVal.or
  cases h : v.truthy
  · simp only [Bool.false_eq_true, if_false]; rfl
  · simp only [if_true]; exact h

theorem JsVal.or_of_truthy (v w : JsVal) (h : v.truthy = true) : v.or w = v := by
  simp [JsVal.or, h]

theorem filter_truthy_or_null : ∀ vs : List JsVal,
    (vs.map (fun v => v.or .null)).filter JsVal.truthy = vs.filter JsVal.truthy := by
  intro vs
  induction vs with
  | nil => rfl
  | cons v rest ih =>
    simp only [List.map_cons, List.filter_cons, JsVal.truthy_or_null, ih]
    cases h : v.truthy
    · simp
    · simp [JsVal.or_of_truthy v .null h]

theorem sslChecks_eq_present (sslInfo : JsVal) : sslChecks sslInfo = presentSubchecks sslInfo := by
  have h := filter_truthy_or_null
    [sslInfo.prop "validity", sslInfo.prop "protocols", sslInfo.prop "hsts"]
  simpa [sslChecks, presentSubchecks] using h

theorem mem_presentSubchecks_truthy (sslInfo c : JsVal) (h : c ∈ presentSubchecks sslInfo) :
    c.truthy = true := by
  unfold presentSubchecks at h
  exact (List.mem_filter.mp h).2

theorem JsVal.not_nullish_of_truthy (v : JsVal) (h : v.truthy = true) : v.nullish = false := by
  cases v <;> simp_all [JsVal.truthy, JsVal.nullish]

/-- The filter callback on a subcheck that is present. -/
theorem sslPassed_of_truthy (c : JsVal) (h : c.truthy = true) :
    sslPassed c
      = if statusLowers c then .ok (statusIsPass c) else .error (.typeError "toLowerCase") := by
  unfold sslPassed JsVal.get statusLowers statusIsPass
  rw [JsVal.not_nullish_of_truthy c h]
  cases hs : c.prop "status" with
  | str s =>
    by_cases he : s = ""
    · subst he
      simp [JsVal.or, JsVal.truthy, JsVal.toLowerCase, strLower, bind, Except.bind, pure,
        Except.pure]
    · simp [JsVal.or, JsVal.truthy, he, JsVal.toLowerCase, bind, Except.bind, pure, Except.pure]
  | undefined =>
    simp [JsVal.or, JsVal.truthy, JsVal.toLowerCase, strLower, bind, Except.bind, pure,
      Except.pure]
  | null =>
    simp [JsVal.or, JsVal.truthy, JsVal.toLowerCase, strLower, bind, Except.bind, pure,
      Except.pure]
  | bool b =>
    cases b <;>
      simp [JsVal.or, JsVal.truthy, JsVal.toLowerCase, strLower, bind, Except.bind, pure,
        Except.pure]
  | num n =>
    cases hn : n.truthy <;>
      simp [JsVal.or, JsVal.truthy, hn, JsVal.toLowerCase, strLower, bind, Except.bind, pure,
        Except.pure]
  | arr xs =>
    simp [JsVal.or, JsVal.truthy, JsVal.toLowerCase, bind, Except.bind, pure, Except.pure]
  | obj fs =>
    simp [JsVal.or, JsVal.truthy, JsVal.toLowerCase, bind, Except.bind, pure, Except.pure]

/-- The count of passed subchecks, over subchecks that are present. -/
theorem countPassed_of_truthy : ∀ cs : List JsVal, (∀ c ∈ cs, c.truthy = true) →
    countPassed cs
      = if cs.all statusLowers then .ok (cs.filter statusIsPass).length
        else .error (.typeError "toLowerCase") := by
  intro cs
  induction cs with
  | nil => intro _; rfl
  | cons c rest ih =>
    intro h
    have hc := sslPassed_of_truthy c (h c (by simp))
    have hrest := ih (fun x hx => h x (by simp [hx]))
    unfold countPassed
    rw [hc, hrest, List.all_cons]
    cases h1 : statusLowers c
    · simp [bind, Except.bind]
    · cases h2 : rest.all statusLowers
      · simp [bind, Except.bind]
      · cases h3 : statusIsPass c <;>
          simp [bind, Except.bind, pure, Except.pure, h3, List.filter_cons]

theorem jsRound_zero : jsRound 0 = 0 := by
  simp only [jsRound]
  norm_num [Int.floor_eq_iff]

/-- The exact rounding of a percentage, by integer division. -/
theorem jsRound_percent (c t : Nat) (ht : 0 < t) :
    jsRound (100 * (c : ℚ) / (t : ℚ)) = (((200 * c + t) / (2 * t) : ℕ) : ℤ) := by
  have ht' : (t : ℚ) ≠ 0 := by exact_mod_cast (Nat.pos_iff_ne_zero.mp ht)
  have hq : 100 * (c : ℚ) / (t : ℚ) + 1 / 2 = ((200 * c + t : ℕ) : ℚ) / ((2 * t : ℕ) : ℚ) := by
    push_cast
    field_simp
    ring
  unfold jsRound
  rw [hq]
  have h1 := Rat.floor_intCast_div_natCast ((200 * c + t : ℕ) : ℤ) (2 * t)
  rw [Int.cast_natCast] at h1
  rw [h1]
  exact (Int.natCast_div _ _).symm

/-- With a total of at most 3 the two roundings to a double do not show: the
percentage is the exact quotient, rounded. -/
theorem percentage_upto_three :
    ∀ t, t < 4 → ∀ c, c < t + 1 → percentage c t = (200 * c + t) / (2 * t) := by
  decide

theorem presentSubchecks_length_le (sslInfo : JsVal) : (presentSubchecks sslInfo).length ≤ 3 := by
  unfold presentSubchecks
  exact (List.length_filter_le _ _).trans (by simp)

/-- The score of `calculateSSLScore` over at most three subchecks that are
present. -/
theorem calculateSSLScore_of_truthy (cs : List JsVal) (h : ∀ c ∈ cs, c.truthy = true)
    (hlen : cs.length < 4) :
    calculateSSLScore cs
      = if cs.all statusLowers then
          .ok (jsRound (100 * ((cs.filter statusIsPass).length : ℚ) / (cs.length : ℚ)))
        else .error (.typeError "toLowerCase") := by
  cases cs with
  | nil => simp [calculateSSLScore, jsRound_zero]
  | cons c rest =>
    unfold calculateSSLScore
    simp only []
    rw [countPassed_of_truthy _ h]
    cases h1 : (c :: rest).all statusLowers
    · simp [bind, Except.bind]
    · simp only [bind, Except.bind, pure, Except.pure, if_true]
      have hle := List.length_filter_le statusIsPass (c :: rest)
      rw [jsRound_percent _ _ (by simp),
        percentage_upto_three (c :: rest).length hlen _ (by omega)]

/-- What `renderSSLResults` computes for an SSL info object: it throws when a
present subcheck has a truthy status that is not a string, and otherwise
builds the section of the specified score. -/
theorem sslSection_eq (sslInfo : JsVal) (timeTaken : String) :
    sslSection sslInfo timeTaken
      = if (presentSubchecks sslInfo).all statusLowers then
          .ok (sslSectionOf timeTaken (specSslScore sslInfo)
            ((presentSubchecks sslInfo).filter statusIsPass).length
            (presentSubchecks sslInfo).length)
        else .error (.typeError "toLowerCase") := by
  unfold sslSection
  simp only [sslChecks_eq_present]
  rw [calculateSSLScore_of_truthy _ (mem_presentSubchecks_truthy sslInfo)
      (Nat.lt_succ_of_le (presentSubchecks_length_le sslInfo)),
    countPassed_of_truthy _ (mem_presentSubchecks_truthy sslInfo)]
  cases h : (presentSubchecks sslInfo).all statusLowers
  · simp [bind, Except.bind]
  · simp [bind, Except.bind, pure, Except.pure, sslSectionOf, specSslScore]

theorem specSslScore_example : specSslScore sslExample = 50 := by
  have h1 : ((presentSubchecks sslExample).filter statusIsPass).length = 1 := by decide
  have h2 : (presentSubchecks sslExample).length = 2 := by decide
  unfold specSslScore
  rw [h1, h2]
  simp only [jsRound]
  norm_num [Int.floor_eq_iff]

theorem sslSection_example (timeTaken : String) :
    sslSection sslExample timeTaken = .ok (sslSectionOf timeTaken 50 1 2) := by
  rw [sslSection_eq]
  have h0 : (presentSubchecks sslExample).all statusLowers = true := by decide
  have h1 : ((presentSubchecks sslExample).filter statusIsPass).length = 1 := by decide
  have h2 : (presentSubchecks sslExample).length = 2 := by decide
  rw [h0, h1, h2, specSslScore_example]
  rfl

/-- C5: for every SSL info object, `renderSSLResults` computes a score exactly
when every present subcheck has a status it can lower (a string, or a falsy
value), and the score is then `round(100 * passed / total)`, where total
counts the subchecks present (truthy) among validity, protocols, hsts and
passed counts those whose status is `pass` or `success` in any letter case;
absent subchecks are not in the denominator.  (With no subcheck present the
code returns 0, the value of the formula under `x / 0 = 0`.)  For the worked
case, validity passing and hsts failing, the score is 50 and the risk level
"Medium", also in the section that `renderSSLResults` appends. -/
theorem c5_ssl_score_formula (sslInfo : JsVal) (timeTaken : String) :
    (sslSection sslInfo timeTaken).map (fun s => s.score)
      = (if (presentSubchecks sslInfo).all statusLowers then
          .ok (jsRound (100 * (((presentSubchecks sslInfo).filter statusIsPass).length : ℚ)
            / ((presentSubchecks sslInfo).length : ℚ)))
        else .error (.typeError "toLowerCase"))
    ∧ (sslSection sslExample timeTaken).map (fun s => (s.score, s.riskLevel))
        = .ok (50, "Medium")
    ∧ sslScores ((renderSSLResults sslExample timeTaken).run {}).blocks = [(50, "Medium")] := by
  refine ⟨?_, ?_, ?_⟩
  · rw [sslSection_eq]
    cases h : (presentSubchecks sslInfo).all statusLowers
    · rfl
    · simp [Except.map, sslSectionOf, specSslScore]
  · rw [sslSection_example]
    rfl
  · have hres : resolveSslInfo sslExample = sslExample := by rfl
    unfold renderSSLResults
    simp only [hres, sslSection_example]
    rfl

/-- C6: the risk level that `renderSSLResults` renders follows from the score
it renders: "Low" when the score is at least 80, "Medium" when it is at least
50 and below 80, "High" otherwise; and the banding `sslRisk` does so for every
integer score. -/
theorem c6_ssl_risk_bands (sslInfo : JsVal) (timeTaken : String) (sec : SslSection)
    (h : sslSection sslInfo timeTaken = .ok sec) :
    (80 ≤ sec.score → sec.riskLevel = "Low")
    ∧ (50 ≤ sec.score ∧ sec.score < 80 → sec.riskLevel = "Medium")
    ∧ (sec.score < 50 → sec.riskLevel = "High")
    ∧ (∀ s : ℤ, (sslRisk s).1
        = if 80 ≤ s then "Low" else if 50 ≤ s then "Medium" else "High") := by
  have hband : ∀ s : ℤ, (sslRisk s).1
      = if 80 ≤ s then "Low" else if 50 ≤ s then "Medium" else "High" := by
    intro s
    unfold sslRisk
    by_cases h1 : 80 ≤ s
    · simp [h1]
    · by_cases h2 : 50 ≤ s
      · simp [h1, h2]
      · simp [h1, h2]
  have hsec : sec.riskLevel = (sslRisk sec.score).1 := by
    rw [sslSection_eq] at h
    split at h
    · simp only [Except.ok.injEq] at h
      rw [← h]
      rfl
    · cases h
  rw [hsec, hband]
  refine ⟨?_, ?_, ?_, hband⟩
  · intro h1; simp [h1]
  · intro h2
    have : ¬ 80 ≤ sec.score := by omega
    simp [this, h2.1]
  · intro h3
    have h80 : ¬ 80 ≤ sec.score := by omega
    have h50 : ¬ 50 ≤ sec.score := by omega
    simp [h80, h50]

/-- C6 at the worked example: the score 50 is rendered with "Medium". -/
theorem c6_ssl_risk_bands_witness :
    sslSection sslExample "1.00" = .ok (sslSectionOf "1.00" 50 1 2)
    ∧ (sslSectionOf "1.00" 50 1 2).riskLevel = "Medium" :=
  ⟨sslSection_example "1.00",
    (c6_ssl_risk_bands sslExample "1.00" (sslSectionOf "1.00" 50 1 2)
      (sslSection_example "1.00")).2.1 ⟨by decide, by decide⟩⟩

/-- C7, as stated, fails: `ssl_info` holding `false` is defined, yet the code
tests the locations for truthiness, skips it and resolves to
`response.result`. -/
theorem c7_defined_falsy_location_is_skipped :
    (falsySslInfoResponse.getOpt "ssl_info").isDefined = true
    ∧ firstDefinedSslInfo falsySslInfoResponse = .bool false
    ∧ resolveSslInfo falsySslInfoResponse = .obj [("validity", .obj [("status", .str "pass")])]
    ∧ resolveSslInfo falsySslInfoResponse ≠ firstDefinedSslInfo falsySslInfoResponse := by
  refine ⟨rfl, rfl, rfl, ?_⟩
  have h1 : resolveSslInfo falsySslInfoResponse
      = .obj [("validity", .obj [("status", .str "pass")])] := rfl
  have h2 : firstDefinedSslInfo falsySslInfoResponse = .bool false := rfl
  rw [h1, h2]
  intro h
  cases h

/-- C7 (amended): for every response, `renderSSLResults` resolves the SSL info
by trying `response.ssl_info`, then `response.result.result`, then
`response.result`, in that fixed order, and uses the first of these whose
value is truthy (a truthy location is used even when a later one is truthy
too; a location holding a falsy value is skipped); when none is truthy it
uses the response itself. -/
theorem c7_first_truthy_location (response : JsVal) :
    resolveSslInfo response
      = (firstTruthy [response.getOpt "ssl_info",
                      (response.getOpt "result").getOpt "result",
                      response.getOpt "result"]).getD response := by
  unfold resolveSslInfo firstTruthy firstTruthy firstTruthy firstTruthy
  cases (response.getOpt "ssl_info").truthy
  · cases ((response.getOpt "result").getOpt "result").truthy
    · cases (response.getOpt "result").truthy <;> simp
    · simp
  · simp

/-! ## C8 - C10: the frontend libraries renderer -/

theorem JsVal.or_or_null_eq_firstTruthy (a b c : JsVal) :
    ((a.or b).or c).or .null = (firstTruthy [a, b, c]).getD .null := by
  unfold firstTruthy firstTruthy firstTruthy firstTruthy JsVal.or
  cases ha : a.truthy
  · cases hb : b.truthy
    · cases hc : c.truthy <;> simp [ha, hb, hc]
    · simp [ha, hb]
  · simp [ha]

theorem firstTruthy_truthy : ∀ (vs : List JsVal) (v : JsVal),
    firstTruthy vs = some v → v.truthy = true := by
  intro vs
  induction vs with
  | nil => intro v h; cases h
  | cons x rest ih =>
    intro v h
    unfold firstTruthy at h
    by_cases hx : x.truthy = true
    · simp only [hx, if_true, Option.some.injEq] at h
      rw [← h]; exact hx
    · simp only [hx] at h
      exact ih v h

theorem normalizeLibEntry_detected (raw : JsVal) (e : LibEntry)
    (h : normalizeLibEntry raw = .ok e) :
    e.detected_version = (firstTruthy (versionCandidates raw)).getD .null := by
  unfold normalizeLibEntry at h
  simp only [bind, Except.bind] at h
  split at h
  · cases h
  · split at h
    · cases h
    · split at h
      · cases h
      · simp only [pure, Except.pure, Except.ok.injEq] at h
        rw [← h]
        exact JsVal.or_or_null_eq_firstTruthy _ _ _

theorem JsVal.or_str_not_nullish (a : JsVal) (s : String) : (a.or (.str s)).nullish = false := by
  unfold JsVal.or
  cases h : a.truthy
  · rfl
  · simp only [if_true]
    exact JsVal.not_nullish_of_truthy a h

/-- `normalizeLibEntry` returns for exactly the entries that are neither
`null` nor `undefined` and whose `overview` expression does not throw. -/
theorem normalizeLibEntry_returns_iff (raw : JsVal) :
    (∃ e, normalizeLibEntry raw = .ok e)
      ↔ raw.nullish = false ∧ ∃ o, normOverview raw = .ok o := by
  unfold normalizeLibEntry JsVal.get JsVal.toStringCall
  simp only [JsVal.or_str_not_nullish, bind, Except.bind, pure, Except.pure]
  cases hn : raw.nullish
  · cases ho : normOverview raw with
    | error err => simp
    | ok o => simp
  · simp

theorem displayDetected_eq (raw : JsVal) (e : LibEntry) (h : normalizeLibEntry raw = .ok e) :
    displayDetected e = ((firstTruthy (versionCandidates raw)).map JsVal.toStr).getD "-" := by
  unfold displayDetected
  rw [normalizeLibEntry_detected raw e h]
  cases hf : firstTruthy (versionCandidates raw) with
  | none => rfl
  | some v =>
    simp only [Option.getD_some, Option.map_some']
    rw [JsVal.or_of_truthy v _ (firstTruthy_truthy _ _ hf)]

theorem libViews_detected (raw : JsVal) (e : LibEntry) (h : normalizeLibEntry raw = .ok e)
    (card : LibCard) (row : LibRow) (hv : libViews raw = .ok (card, row)) :
    card.detected = displayDetected e ∧ row.detected = displayDetected e := by
  unfold libViews at hv
  simp only [h, bind, Except.bind, pure, Except.pure] at hv
  split at hv
  · cases hv
  · simp only [Except.ok.injEq, Prod.mk.injEq] at hv
    obtain ⟨hc, hr⟩ := hv
    rw [← hc, ← hr]
    exact ⟨rfl, rfl⟩

/-- C8: for every frontend-library entry on which `normalizeLibEntry` returns
(it returns unless the entry is `null`/`undefined` or its `overview`
expression throws), the detected version it yields is the first present
(truthy) of `detected_version`, `version_detected`, `version`, in that order,
and `null` when none is; the text rendered as detected version, in the card
and in the row, is that value, or the placeholder "-" when none is present. -/
theorem c8_detected_version_priority (raw : JsVal) (e : LibEntry)
    (h : normalizeLibEntry raw = .ok e) :
    e.detected_version = (firstTruthy (versionCandidates raw)).getD .null
    ∧ displayDetected e = ((firstTruthy (versionCandidates raw)).map JsVal.toStr).getD "-"
    ∧ (firstTruthy (versionCandidates raw) = none → displayDetected e = "-")
    ∧ (∀ (card : LibCard) (row : LibRow), libViews raw = .ok (card, row) →
        card.detected = displayDetected e ∧ row.detected = displayDetected e)
    ∧ ((∃ e', normalizeLibEntry raw = .ok e')
        ↔ raw.nullish = false ∧ ∃ o, normOverview raw = .ok o) := by
  refine ⟨normalizeLibEntry_detected raw e h, displayDetected_eq raw e h, ?_,
    libViews_detected raw e h, normalizeLibEntry_returns_iff raw⟩
  intro hnone
  rw [displayDetected_eq raw e h, hnone]
  rfl

/-- C8 at the worked example: an entry with only `version_detected` set to
"2.1.0" is normalized to the detected version "2.1.0", shown as "2.1.0". -/
theorem c8_detected_version_priority_witness :
    normalizeLibEntry libExample = .ok libExampleEntry
    ∧ libExampleEntry.detected_version = .str "2.1.0"
    ∧ displayDetected libExampleEntry = "2.1.0" :=
  ⟨rfl, (c8_detected_version_priority libExample libExampleEntry rfl).1,
    (c8_detected_version_priority libExample libExampleEntry rfl).2.1⟩

/-- C9, as stated, fails: the match is by equality with fixed literals, so the
separator matters. "No-Version" gets the warning class and "no_version" the
default `text-muted`; "up-to-date" gets the success class and "up to date"
the default. -/
theorem c9_separator_changes_class :
    statusClassOf "No-Version" = "text-warning text-dark fw-semibold"
    ∧ statusClassOf "no_version" = "text-muted"
    ∧ statusClassOf "up-to-date" = "text-success fw-semibold"
    ∧ statusClassOf "up to date" = "text-muted"
    ∧ statusClassOf "No-Version" ≠ statusClassOf "no_version" := by
  decide

/-- C9 (amended): for every frontend-library status string, the status is
lowered, so the match ignores letter case, and compared for equality with
fixed literals, first match in this order: `up-to-date`, `up_to_date` or
`up_to-date` give the success class, `outdated` the danger class,
`no-version` the warning class, `unknown` the secondary class, and every
other string the default class `text-muted`; the badge of the card is
accordingly success, danger, warning, and secondary for both `unknown` and the
default.  Two status strings that are equal once lowered receive the same
class. -/
theorem c9_status_class_by_literal (status other : String) :
    statusClassOf status
      = (if strLower status = "up-to-date" ∨ strLower status = "up_to_date"
            ∨ strLower status = "up_to-date" then "text-success fw-semibold"
         else if strLower status = "outdated" then "text-danger fw-semibold"
         else if strLower status = "no-version" then "text-warning text-dark fw-semibold"
         else if strLower status = "unknown" then "text-secondary"
         else "text-muted")
    ∧ libStatusBadge (statusClassOf status)
      = (if strLower status = "up-to-date" ∨ strLower status = "up_to_date"
            ∨ strLower status = "up_to-date" then "bg-success"
         else if strLower status = "outdated" then "bg-danger"
         else if strLower status = "no-version" then "bg-warning text-dark"
         else "bg-secondary")
    ∧ (strLower other = strLower status → statusClassOf other = statusClassOf status) := by
  have hclass : statusClassOf status
      = (if strLower status = "up-to-date" ∨ strLower status = "up_to_date"
            ∨ strLower status = "up_to-date" then "text-success fw-semibold"
         else if strLower status = "outdated" then "text-danger fw-semibold"
         else if strLower status = "no-version" then "text-warning text-dark fw-semibold"
         else if strLower status = "unknown" then "text-secondary"
         else "text-muted") := by
    unfold statusClassOf libStatusClass
    by_cases h1 : strLower status = "up-to-date"
    · simp [h1]
    · by_cases h2 : strLower status = "up_to_date"
      · simp [h2]
      · by_cases h3 : strLower status = "up_to-date"
        · simp [h3]
        · simp [h1, h2, h3]
  refine ⟨hclass, ?_, ?_⟩
  · rw [hclass]
    by_cases h0 : strLower status = "up-to-date" ∨ strLower status = "up_to_date"
        ∨ strLower status = "up_to-date"
    · simp only [h0, if_true]; decide
    · simp only [h0, if_false]
      by_cases h4 : strLower status = "outdated"
      · simp only [h4, if_true]; decide
      · simp only [h4, if_false]
        by_cases h5 : strLower status = "no-version"
        · simp only [h5, if_true]; decide
        · simp only [h5, if_false]
          by_cases h6 : strLower status = "unknown"
          · simp only [h6, if_true]; decide
          · simp only [h6, if_false]; decide
  · intro h
    unfold statusClassOf
    rw [h]

/-- C9 (amended) at two spellings that differ in letter case only. -/
theorem c9_status_class_by_literal_witness :
    strLower "NO-VERSION" = strLower "No-Version"
    ∧ statusClassOf "NO-VERSION" = statusClassOf "No-Version" :=
  ⟨by decide, (c9_status_class_by_literal "No-Version" "NO-VERSION").2.2 (by decide)⟩

theorem firstFrontend_append (bs cs : List Block) :
    firstFrontend (bs ++ cs) = (firstFrontend bs).orElse (fun _ => firstFrontend cs) := by
  induction bs with
  | nil => simp [firstFrontend]
  | cons b rest ih =>
    cases b <;> simp [firstFrontend, ih]

theorem firstFrontend_mapFirstFrontend (f : FrontendSection → FrontendSection) :
    ∀ bs : List Block, firstFrontend (mapFirstFrontend f bs) = (firstFrontend bs).map f := by
  intro bs
  induction bs with
  | nil => rfl
  | cons b rest ih =>
    cases b <;> simp [firstFrontend, mapFirstFrontend, ih]

theorem firstFrontend_isSome_append_frontend (bs : List Block) (s : FrontendSection) :
    ∃ s0, firstFrontend (bs ++ [.frontend s]) = some s0 := by
  induction bs with
  | nil => exact ⟨s, rfl⟩
  | cons b rest ih =>
    cases b <;> simp [firstFrontend] <;> exact ih

theorem mapFirstFrontend_append_of_none (f : FrontendSection → FrontendSection)
    (s : FrontendSection) :
    ∀ bs : List Block, bs.all (fun b => !b.isFrontend) = true →
      mapFirstFrontend f (bs ++ [.frontend s]) = bs ++ [.frontend (f s)] := by
  intro bs
  induction bs with
  | nil => intro _; rfl
  | cons b rest ih =>
    intro h
    simp only [List.all_cons, Bool.and_eq_true] at h
    cases b <;> simp_all [mapFirstFrontend, Block.isFrontend]

/-- What `renderFrontendLibraries` writes for an object payload without
entries. -/
theorem renderFrontendLibraries_no_entries (response : JsVal) (timeTaken : String)
    (hobj : (frontendPayload response).truthy = true
      ∧ (frontendPayload response).typeofObject = true)
    (hres : frontendEntries (frontendPayload response) = []) :
    (renderFrontendLibraries response timeTaken).thrown = none
    ∧ ∀ p : Page, ((renderFrontendLibraries response timeTaken).run p).blocks
        = mapFirstFrontend withNoLibraries
            (p.blocks ++ [.frontend (frontendSection (frontendPayload response) timeTaken)])
          ++ [.rule] := by
  unfold frontendEntries at hres
  unfold renderFrontendLibraries
  simp only [hobj.1, hobj.2, Bool.not_true, Bool.or_self, Bool.false_eq_true, if_false, hres]
  exact ⟨rfl, fun p => rfl⟩

/-- C10: for every response whose frontend-libraries payload is an object and
whose `results` is absent, not an array, or an empty array, on every page,
`renderFrontendLibraries` returns and the card container and the table body
that the id selectors return hold exactly the "No libraries detected in this
scan." notice, so no library card and no row; on a page with no earlier
frontend libraries section these are the containers of the section just
appended, which is followed by the separator. -/
theorem c10_no_libraries_notice (response : JsVal) (timeTaken : String) (p : Page)
    (hobj : (frontendPayload response).truthy = true
      ∧ (frontendPayload response).typeofObject = true)
    (hres : ((frontendPayload response).prop "results").isArray = false
      ∨ (frontendPayload response).prop "results" = .arr []) :
    (renderFrontendLibraries response timeTaken).thrown = none
    ∧ (∃ s, firstFrontend ((renderFrontendLibraries response timeTaken).run p).blocks = some s
        ∧ s.cards = [.noLibraries] ∧ s.rows = [.noLibraries])
    ∧ (p.blocks.all (fun b => !b.isFrontend) = true →
        ((renderFrontendLibraries response timeTaken).run p).blocks
          = p.blocks ++
              [.frontend (withNoLibraries (frontendSection (frontendPayload response) timeTaken)),
               .rule]) := by
  have hentries : frontendEntries (frontendPayload response) = [] := by
    unfold frontendEntries
    rcases hres with h | h
    · cases hr : (frontendPayload response).prop "results" with
      | arr xs => rw [hr] at h; cases h
      | undefined => rfl
      | null => rfl
      | bool b => rfl
      | num n => rfl
      | str s => rfl
      | obj fs => rfl
    · rw [h]
  obtain ⟨hthrown, hrun⟩ := renderFrontendLibraries_no_entries response timeTaken hobj hentries
  refine ⟨hthrown, ?_, ?_⟩
  · obtain ⟨s0, hs0⟩ := firstFrontend_isSome_append_frontend p.blocks
      (frontendSection (frontendPayload response) timeTaken)
    refine ⟨withNoLibraries s0, ?_, rfl, rfl⟩
    rw [hrun p, firstFrontend_append, firstFrontend_mapFirstFrontend, hs0]
    rfl
  · intro hfresh
    rw [hrun p, mapFirstFrontend_append_of_none _ _ _ hfresh]
    simp

/-- C10 at a response with an empty `results` array, on an empty page. -/
theorem c10_no_libraries_notice_witness :
    ((frontendPayload emptyLibrariesResponse).truthy = true
      ∧ (frontendPayload emptyLibrariesResponse).typeofObject = true)
    ∧ (frontendPayload emptyLibrariesResponse).prop "results" = .arr []
    ∧ (renderFrontendLibraries emptyLibrariesResponse "0.42").thrown = none
    ∧ (∃ s, firstFrontend ((renderFrontendLibraries emptyLibrariesResponse "0.42").run {}).blocks
          = some s
        ∧ s.cards = [.noLibraries] ∧ s.rows = [.noLibraries]) :=
  ⟨⟨rfl, rfl⟩, rfl,
    (c10_no_libraries_notice emptyLibrariesResponse "0.42" {} ⟨rfl, rfl⟩ (Or.inr rfl)).1,
    (c10_no_libraries_notice emptyLibrariesResponse "0.42" {} ⟨rfl, rfl⟩ (Or.inr rfl)).2.1⟩

/-! ## C11 - C13: summary, score and risk badge -/

/-- The section of `renderSecurityHeaders` and `renderEmailSecurity`, field by
field: only the table rows can throw. -/
theorem summarySection_eq (title : String) (payload : JsVal) (timeTaken : String) :
    summarySection title payload timeTaken
      = (summaryRows payload).map (fun rows =>
          { title := title
            strokeDash := (((summaryOf payload).prop "score").or (.num 0)).toStr ++ ", 100"
            scoreText := (((summaryOf payload).prop "score").or (.num 0)).toStr ++ "%"
            passedText := ((summaryOf payload).prop "passed").toStr
            totalText := ((summaryOf payload).prop "total_checks").toStr
            badgeClass := riskBadgeClass ((summaryOf payload).prop "risk_level")
            riskText := "Risk: " ++ ((summaryOf payload).prop "risk_level").toStr
            recommendation :=
              ((payload.prop "general_recommendation").or
                (.str "No recommendation available.")).toStr
            scanTime := timeOrNA timeTaken
            rows := rows }) := by
  unfold summarySection summaryRows summaryOf
  simp only [bind, Except.bind, pure, Except.pure]
  cases h : (match payload.prop "results" with
    | .arr (r :: rest) => (resultRows (r :: rest)).map some
    | _ => .ok none) with
  | error e => rfl
  | ok rows => rfl

/-- Both renderers append the section of their payload, and nothing else. -/
theorem summary_rendered (title : String) (payload : JsVal) (timeTaken : String)
    (sec : SummarySection) (h : summarySection title payload timeTaken = .ok sec) :
    (title = "Security Headers" → payload.truthy = true → payload.typeofObject = true →
      ∀ p : Page, ((renderSecurityHeaders payload timeTaken).run p).blocks
        = p.blocks ++ [.summary sec])
    ∧ (title = "Email Security" → payload.truthy = true →
      ∀ response : JsVal, response.truthy = true → response.prop "result" = payload →
        ∀ p : Page, ((renderEmailSecurity response timeTaken).run p).blocks
          = p.blocks ++ [.summary sec]) := by
  constructor
  · intro ht h1 h2 p
    subst ht
    unfold renderSecurityHeaders
    simp only [h1, h2, Bool.not_true, Bool.or_self, Bool.false_eq_true, if_false, h]
    rfl
  · intro ht h1 response hr hres p
    subst ht
    unfold renderEmailSecurity
    simp only [hr, hres, h1, Bool.not_true, Bool.or_self, Bool.false_eq_true, if_false, h]
    rfl

theorem summaryOf_of_score (payload : JsVal) (s : JsNum)
    (hs : (payload.prop "summary").prop "score" = .num s) :
    summaryOf payload = payload.prop "summary" := by
  unfold summaryOf
  apply JsVal.or_of_truthy
  cases hsum : payload.prop "summary" with
  | obj fs => rfl
  | arr xs => rfl
  | undefined => rw [hsum] at hs; cases hs
  | null => rw [hsum] at hs; cases hs
  | bool b => rw [hsum] at hs; cases hs
  | num n => rw [hsum] at hs; cases hs
  | str t =>
    rw [hsum] at hs
    have hne : ("score" == "length") = false := by decide
    simp only [JsVal.prop, hne, Bool.false_eq_true, if_false] at hs
    cases hs

/-- A number that is at least a natural-number literal is truthy. -/
theorem JsNum.truthy_of_geNat (s : JsNum) (b : Nat) (hb : 0 < b) (h : s.geNat b = true) :
    s.truthy = true := by
  cases s with
  | nan => cases h
  | infinite neg => rfl
  | finite neg d e =>
    by_cases hd : d = 0
    · subst hd
      exfalso
      cases e with
      | ofNat k =>
        simp [JsNum.geNat, JsNum.ltNat, JsNum.scaledLt, hb] at h
      | negSucc k =>
        have hpos : 0 < b * 10 ^ (k + 1) := Nat.mul_pos hb (Nat.pow_pos (by decide))
        simp [JsNum.geNat, JsNum.ltNat, JsNum.scaledLt, hpos] at h
    · simp [JsNum.truthy, hd]

theorem JsVal.eq_str_of_strictEqStr (v : JsVal) (lit : String)
    (h : v.strictEqStr lit = true) : v = .str lit := by
  cases v with
  | str t =>
    have ht : t = lit := by simpa [JsVal.strictEqStr] using h
    rw [ht]
  | undefined => cases h
  | null => cases h
  | bool b => cases h
  | num n => cases h
  | arr xs => cases h
  | obj fs => cases h

/-- The "Medium" class is chosen for the risk level "Medium" and for no
other value. -/
theorem riskBadgeClass_eq_medium_iff (v : JsVal) :
    riskBadgeClass v = "bg-warning text-dark" ↔ v = .str "Medium" := by
  constructor
  · intro hc
    unfold riskBadgeClass at hc
    split at hc
    · exact absurd hc (by decide)
    · split at hc
      · exact JsVal.eq_str_of_strictEqStr v "Medium" (by assumption)
      · split at hc
        · exact absurd hc (by decide)
        · exact absurd hc (by decide)
  · intro hm
    rw [hm]
    rfl

/-- C11, as stated, fails: the badge class comes from `summary.risk_level`, not
from the score.  For `summary = {score: 73}` both renderers show "73%" with
the badge class `bg-secondary` and the text "Risk: undefined", not the
"Medium" variant. -/
theorem c11_badge_ignores_score :
    (summarySection "Security Headers" scoreOnlyPayload "0.10").map
        (fun s => (s.scoreText, s.badgeClass, s.riskText))
      = .ok ("73%", "bg-secondary", "Risk: undefined")
    ∧ (summaryViews ((renderSecurityHeaders scoreOnlyPayload "0.10").run {}).blocks).map
        (fun s => (s.scoreText, s.badgeClass)) = [("73%", "bg-secondary")]
    ∧ (summaryViews ((renderEmailSecurity (.obj [("result", scoreOnlyPayload)]) "0.10").run
        {}).blocks).map (fun s => (s.scoreText, s.badgeClass)) = [("73%", "bg-secondary")] := by
  decide

/-- C11 (amended): for every payload whose summary has a number s as score,
with 50 <= s < 80, whenever the renderer builds its section (it does unless a
results row throws), the displayed percentage text is the score, as
`String(s)` prints it, followed by "%", and the risk badge has the class of
`summary.risk_level`, whatever the score: the "Medium" variant
`bg-warning text-dark` for the risk level "Medium", and for no other risk
level.  The section is what `renderSecurityHeaders` and `renderEmailSecurity`
append. -/
theorem c11_percentage_and_badge (title : String) (payload : JsVal) (timeTaken : String)
    (sec : SummarySection) (s : JsNum)
    (h : summarySection title payload timeTaken = .ok sec)
    (hs : (payload.prop "summary").prop "score" = .num s)
    (hlo : s.geNat 50 = true) (_hhi : s.ltNat 80 = true) :
    sec.scoreText = s.toStr ++ "%"
    ∧ sec.badgeClass = riskBadgeClass ((payload.prop "summary").prop "risk_level")
    ∧ (sec.badgeClass = "bg-warning text-dark"
        ↔ (payload.prop "summary").prop "risk_level" = .str "Medium")
    ∧ (title = "Security Headers" → payload.truthy = true → payload.typeofObject = true →
        ∀ p : Page, ((renderSecurityHeaders payload timeTaken).run p).blocks
          = p.blocks ++ [.summary sec])
    ∧ (title = "Email Security" → payload.truthy = true →
        ∀ response : JsVal, response.truthy = true → response.prop "result" = payload →
          ∀ p : Page, ((renderEmailSecurity response timeTaken).run p).blocks
            = p.blocks ++ [.summary sec]) := by
  have hsum := summaryOf_of_score payload s hs
  have hsec := h
  rw [summarySection_eq] at hsec
  cases hrows : summaryRows payload with
  | error e => rw [hrows] at hsec; cases hsec
  | ok rows =>
    rw [hrows] at hsec
    simp only [Except.map, Except.ok.injEq] at hsec
    have hbadge : sec.badgeClass
        = riskBadgeClass ((payload.prop "summary").prop "risk_level") := by
      rw [← hsec, hsum]
    refine ⟨?_, hbadge, ?_, (summary_rendered title payload timeTaken sec h).1,
      (summary_rendered title payload timeTaken sec h).2⟩
    · rw [← hsec]
      simp only [hsum, hs]
      have : (JsVal.num s).or (.num 0) = .num s := by
        apply JsVal.or_of_truthy
        exact JsNum.truthy_of_geNat s 50 (by decide) hlo
      rw [this]
      rfl
    · rw [hbadge]
      exact riskBadgeClass_eq_medium_iff _

/-- C11 (amended) at `summary = {score: 73, risk_level: "Medium"}`: "73%" and
the "Medium" variant; and at the score 72.5: "72.5%". -/
theorem c11_percentage_and_badge_witness :
    (∃ sec, summarySection "Security Headers" mediumPayload "0.10" = .ok sec
      ∧ sec.scoreText = "73%" ∧ sec.badgeClass = "bg-warning text-dark")
    ∧ (∃ sec, summarySection "Email Security" fractionalScorePayload "0.10" = .ok sec
      ∧ sec.scoreText = "72.5%" ∧ sec.badgeClass = "bg-warning text-dark") :=
  ⟨⟨_, rfl,
    (c11_percentage_and_badge "Security Headers" mediumPayload "0.10" _ 73 rfl rfl
      (by decide) (by decide)).1,
    (c11_percentage_and_badge "Security Headers" mediumPayload "0.10" _ 73 rfl rfl
      (by decide) (by decide)).2.2.1.mpr rfl⟩,
   ⟨_, rfl,
    (c11_percentage_and_badge "Email Security" fractionalScorePayload "0.10" _
      (.finite false 725 (-1)) rfl rfl (by decide) (by decide)).1,
    (c11_percentage_and_badge "Email Security" fractionalScorePayload "0.10" _
      (.finite false 725 (-1)) rfl rfl (by decide) (by decide)).2.2.1.mpr rfl⟩⟩

theorem summaryOf_of_missing (payload : JsVal) (h : (payload.prop "summary").truthy = false) :
    summaryOf payload = defaultSummary := by
  unfold summaryOf JsVal.or
  simp [h]

/-- C12: for every payload whose `summary` is missing (absent, or any falsy
value), whenever the security-headers or email-security renderer builds its
section (it does unless a results row throws), it uses the default summary:
the section shows "0%", passed 0 of 0, the risk "Unknown" and the class
`bg-secondary`; this is the section the two renderers append. -/
theorem c12_missing_summary_defaults (title : String) (payload : JsVal) (timeTaken : String)
    (sec : SummarySection)
    (h : summarySection title payload timeTaken = .ok sec)
    (hmissing : (payload.prop "summary").truthy = false) :
    sec.scoreText = "0%"
    ∧ sec.passedText = "0"
    ∧ sec.totalText = "0"
    ∧ sec.riskText = "Risk: Unknown"
    ∧ sec.badgeClass = "bg-secondary"
    ∧ sec.strokeDash = "0, 100"
    ∧ (title = "Security Headers" → payload.truthy = true → payload.typeofObject = true →
        ∀ p : Page, ((renderSecurityHeaders payload timeTaken).run p).blocks
          = p.blocks ++ [.summary sec])
    ∧ (title = "Email Security" → payload.truthy = true →
        ∀ response : JsVal, response.truthy = true → response.prop "result" = payload →
          ∀ p : Page, ((renderEmailSecurity response timeTaken).run p).blocks
            = p.blocks ++ [.summary sec]) := by
  have hsum := summaryOf_of_missing payload hmissing
  have hsec := h
  rw [summarySection_eq] at hsec
  cases hrows : summaryRows payload with
  | error e => rw [hrows] at hsec; cases hsec
  | ok rows =>
    rw [hrows] at hsec
    simp only [Except.map, Except.ok.injEq, hsum] at hsec
    refine ⟨?_, ?_, ?_, ?_, ?_, ?_, (summary_rendered title payload timeTaken sec h).1,
      (summary_rendered title payload timeTaken sec h).2⟩ <;>
    · rw [← hsec]; rfl

/-- C12 at a security-headers payload with neither summary nor results, and at
the email-security response carrying it. -/
theorem c12_missing_summary_defaults_witness :
    summarySection "Security Headers" (.obj [("general_recommendation", .str "Add HSTS.")])
        "0.10"
      = .ok { defaultSection "Security Headers" "0.10" with recommendation := "Add HSTS." }
    ∧ (JsVal.obj [("general_recommendation", .str "Add HSTS.")]).prop "summary" = .undefined
    ∧ ({ defaultSection "Security Headers" "0.10" with
          recommendation := "Add HSTS." } : SummarySection).scoreText = "0%"
    ∧ ({ defaultSection "Security Headers" "0.10" with
          recommendation := "Add HSTS." } : SummarySection).riskText = "Risk: Unknown" :=
  ⟨rfl, rfl,
    (c12_missing_summary_defaults "Security Headers"
      (.obj [("general_recommendation", .str "Add HSTS.")]) "0.10" _ rfl rfl).1,
    (c12_missing_summary_defaults "Security Headers"
      (.obj [("general_recommendation", .str "Add HSTS.")]) "0.10" _ rfl rfl).2.2.2.1⟩

theorem riskBadgeClass_mem (risk : JsVal) :
    riskBadgeClass risk ∈ ["bg-success", "bg-warning text-dark", "bg-danger", "bg-secondary"] := by
  unfold riskBadgeClass
  split
  · simp
  · split
    · simp
    · split <;> simp

theorem getRiskBadge_eq (risk : JsVal) :
    getRiskBadge risk
      = "<span class=\"badge " ++ riskBadgeClass risk ++ "\">" ++ risk.toStr ++ "</span>" := by
  unfold getRiskBadge riskBadgeClassOf riskBadgeClass
  split
  · rfl
  · split
    · rfl
    · split <;> rfl

theorem libViews_riskBadge (raw : JsVal) (e : LibEntry) (card : LibCard) (row : LibRow)
    (he : normalizeLibEntry raw = .ok e) (hv : libViews raw = .ok (card, row)) :
    card.riskBadge = getRiskBadge (e.risk.or (.str "Unknown"))
    ∧ row.riskBadge = getRiskBadge (e.risk.or (.str "Unknown")) := by
  unfold libViews at hv
  simp only [he, bind, Except.bind, pure, Except.pure] at hv
  cases hsrc : sourcesView e.src_urls with
  | error err => rw [hsrc] at hv; cases hv
  | ok sources =>
    rw [hsrc] at hv
    simp only [Except.ok.injEq, Prod.mk.injEq] at hv
    obtain ⟨hc, hr⟩ := hv
    rw [← hc, ← hr]
    exact ⟨rfl, rfl⟩

/-- C13: for every risk level value, `riskBadgeClass` (security headers and
email security, same text in both files) and `getRiskBadge` (frontend
libraries) choose the same one of four classes: "Low" gives `bg-success`,
"Medium" `bg-warning text-dark`, "High" `bg-danger`, and every other value,
"Unknown" and a missing value among them, `bg-secondary`.  The markup that
`getRiskBadge` returns is a `span` whose class is `badge` followed by that
class (the two templates write `badge` themselves) and whose text is the
value.  The section of the first two renderers carries the class of
`summary.risk_level`; the frontend section carries the badge of its summary
risk level, defaulting to "Unknown", and the card and the row of a library
the badge of its `risk`. -/
theorem c13_risk_classes_agree (risk : JsVal) :
    getRiskBadge risk
      = "<span class=\"badge " ++ riskBadgeClass risk ++ "\">" ++ risk.toStr ++ "</span>"
    ∧ riskBadgeClass risk
        ∈ ["bg-success", "bg-warning text-dark", "bg-danger", "bg-secondary"]
    ∧ riskBadgeClass (.str "Low") = "bg-success"
    ∧ riskBadgeClass (.str "Medium") = "bg-warning text-dark"
    ∧ riskBadgeClass (.str "High") = "bg-danger"
    ∧ riskBadgeClass (.str "Unknown") = "bg-secondary"
    ∧ riskBadgeClass .undefined = "bg-secondary"
    ∧ getRiskBadge (.str "Low") = "<span class=\"badge bg-success\">Low</span>"
    ∧ getRiskBadge (.str "Medium") = "<span class=\"badge bg-warning text-dark\">Medium</span>"
    ∧ getRiskBadge (.str "High") = "<span class=\"badge bg-danger\">High</span>"
    ∧ getRiskBadge (.str "Unknown") = "<span class=\"badge bg-secondary\">Unknown</span>"
    ∧ (risk.strictEqStr "Low" = false → risk.strictEqStr "Medium" = false →
        risk.strictEqStr "High" = false →
          riskBadgeClass risk = "bg-secondary"
          ∧ getRiskBadge risk
              = "<span class=\"badge bg-secondary\">" ++ risk.toStr ++ "</span>")
    ∧ (∀ (title : String) (payload : JsVal) (timeTaken : String) (sec : SummarySection),
        summarySection title payload timeTaken = .ok sec →
          sec.badgeClass = riskBadgeClass ((summaryOf payload).prop "risk_level"))
    ∧ (∀ (payload : JsVal) (timeTaken : String),
        (frontendSection payload timeTaken).riskBadge
          = getRiskBadge (coalesceAll
              [((payload.prop "summary").or (.obj [])).prop "risk_level",
               ((payload.prop "summary").or (.obj [])).prop "riskLevel"] (.str "Unknown")))
    ∧ (∀ (raw : JsVal) (e : LibEntry) (card : LibCard) (row : LibRow),
        normalizeLibEntry raw = .ok e → libViews raw = .ok (card, row) →
          card.riskBadge = getRiskBadge (e.risk.or (.str "Unknown"))
          ∧ row.riskBadge = getRiskBadge (e.risk.or (.str "Unknown"))) := by
  have hother : risk.strictEqStr "Low" = false → risk.strictEqStr "Medium" = false →
      risk.strictEqStr "High" = false → riskBadgeClass risk = "bg-secondary" := by
    intro h1 h2 h3
    unfold riskBadgeClass
    simp [h1, h2, h3]
  refine ⟨getRiskBadge_eq risk, riskBadgeClass_mem risk, rfl, rfl, rfl, rfl, rfl,
    by decide, by decide, by decide, by decide, ?_, ?_, ?_, ?_⟩
  · intro h1 h2 h3
    refine ⟨hother h1 h2 h3, ?_⟩
    rw [getRiskBadge_eq, hother h1 h2 h3]
    rfl
  · intro title payload timeTaken sec h
    rw [summarySection_eq] at h
    cases hrows : summaryRows payload with
    | error e => rw [hrows] at h; cases h
    | ok rows =>
      rw [hrows] at h
      simp only [Except.map, Except.ok.injEq] at h
      rw [← h]
  · intro payload timeTaken
    rfl
  · intro raw e card row he hv
    exact libViews_riskBadge raw e card row he hv

/-- C13 at a risk level outside the three named ones. -/
theorem c13_risk_classes_agree_witness :
    (JsVal.str "Critical").strictEqStr "Low" = false
    ∧ riskBadgeClass (.str "Critical") = "bg-secondary"
    ∧ getRiskBadge (.str "Critical") = "<span class=\"badge bg-secondary\">Critical</span>" :=
  ⟨by decide,
    ((c13_risk_classes_agree (.str "Critical")).2.2.2.2.2.2.2.2.2.2.2.1 (by decide) (by decide)
      (by decide)).1,
    ((c13_risk_classes_agree (.str "Critical")).2.2.2.2.2.2.2.2.2.2.2.1 (by decide) (by decide)
      (by decide)).2⟩

/-! ## C14 and C18: starting a scan -/

/-- The page after the submit handler, whatever was there before. -/
theorem submitScan_page (url : String) (w : World) : (submitScan url w).page = freshScanPage :=
  rfl

/-- C14, as stated, fails: the submit handler has no test of the URL.  With the
empty URL it writes the panel and issues the first request, with `url` empty,
like for any other URL. -/
theorem c14_empty_url_starts_a_scan :
    (submitScan "" {}).trace
      = [.issued 0 { url := "", action := "security_headers", lastAction := false }]
    ∧ (submitScan "" {}).page.panel.isSome = true
    ∧ (submitScan "" {}).inflight.length = 1 := by
  decide

/-- C14 (amended): the submit handler does not look at the URL.  For every
URL, the empty one included, and every earlier state: `currentScanUrl`
becomes the URL; `initializeProgressInterface` writes a panel reading
"0 of N completed" with every check Pending and nothing else in the result
area; then `runNextAction(0)` issues the request for index 0, carrying the
URL, and marks check 0 Running. -/
theorem c14_start_for_every_url (url : String) (w : World) :
    (submitScan url w).currentScanUrl = url
    ∧ (∀ actions : List Action,
        (initializeProgressInterface actions w.page).badges
            = List.replicate actions.length .pending
          ∧ (initializeProgressInterface actions w.page).progress
            = some ("0 of " ++ toString actions.length ++ " completed", "0%")
          ∧ (initializeProgressInterface actions w.page).blocks = [])
    ∧ (submitScan url w).trace
        = w.trace ++ [.issued 0 { url := url, action := "security_headers", lastAction := false }]
    ∧ (submitScan url w).inflight.length = w.inflight.length + 1
    ∧ (submitScan url w).page.badges = [.running, .pending, .pending]
    ∧ (submitScan url w).page.progress = some ("0 of 3 completed", "0%") := by
  refine ⟨rfl, ?_, rfl, ?_, rfl, rfl⟩
  · intro actions
    refine ⟨?_, rfl, rfl⟩
    simp only [initializeProgressInterface, Page.badges, List.map_map]
    induction actions with
    | nil => rfl
    | cons a rest ih =>
      simp only [List.map_cons, List.length_cons, List.replicate_succ, ih]
      rfl
  · simp [submitScan, startScan, runNextAction, scanActions]

/-- C18, as stated, fails: a request of the first session that is still in
flight at the second start is not cancelled.  When it fails afterwards, its
`error` callback writes into the new page: the first card of the new panel
turns Failed, the inline error appears below the panel, and the first session
goes on to request its second check. -/
theorem c18_late_settlement_is_visible :
    overlappingSessions.page.badges = [.failed, .running, .pending]
    ∧ overlappingSessions.page.blocks.any Block.isErrorAlert = true
    ∧ overlappingSessions.trace.getLast?
        = some (.issued 1
            { url := "https://first.example", action := "email_security", lastAction := false })
    ∧ overlappingSessions.inflight.length = 2 := by
  decide

/-- C18 (amended): starting a scan a second time replaces the content of the
result area.  Whatever the first session has written and whatever state it is
in, right after the second start the result area holds only the fresh panel,
"0 of 3 completed" and an empty bar, with check 0 Running and the other
checks Pending, and no appended block; the requests of the first session that
are in flight stay in flight beside the new one. -/
theorem c18_second_start_replaces_page (url₁ url₂ : String) (w : World) :
    (submitScan url₂ (submitScan url₁ w)).page = freshScanPage
    ∧ (∀ w' : World, (submitScan url₂ w').page.blocks = []
        ∧ (submitScan url₂ w').page.badges = [.running, .pending, .pending]
        ∧ (submitScan url₂ w').page.progress = some ("0 of 3 completed", "0%")
        ∧ (submitScan url₂ w').currentScanUrl = url₂
        ∧ ∃ p, (submitScan url₂ w').inflight = w'.inflight ++ [p] ∧ p.url = url₂ ∧ p.index = 0) := by
  refine ⟨rfl, ?_⟩
  intro w'
  refine ⟨rfl, rfl, rfl, rfl, ?_⟩
  exact ⟨_, rfl, rfl, rfl⟩

/-! ## C15: the report download -/

/-- C15: the code breaks it.  `addDownloadReportButton` is called only in the
`success` callback of the last check.  With the three checks of the source,
when the last request fails, or when every request fails, the run still ends
in `completeScan` with the "Scan Complete!" alert, and no download link has
been added; when every request succeeds the link is there. -/
theorem c15_no_download_when_last_check_fails :
    (runSession "https://example.org" scanActions lastFailsOutcome {}).trace.getLast?
      = some .completeScan
    ∧ (runSession "https://example.org" scanActions lastFailsOutcome {}).page.blocks.any
        Block.isCompletionBanner = true
    ∧ (runSession "https://example.org" scanActions lastFailsOutcome {}).page.blocks.any
        Block.isDownloadLink = false
    ∧ (runSession "https://example.org" scanActions allFailOutcome {}).trace.getLast?
      = some .completeScan
    ∧ (runSession "https://example.org" scanActions allFailOutcome {}).page.blocks.any
        Block.isDownloadLink = false
    ∧ (runSession "https://example.org" scanActions allSucceedOutcome {}).page.blocks.any
        Block.isDownloadLink = true := by
  decide

/-! ## C19: appending to the result container -/

/-- C19: the code breaks it for an earlier frontend libraries section.
`populateLibrariesData` selects `#mobile-cards-container` and `#table-body` in
the whole document, so on a page that already shows a section with one
library, rendering a response without libraries replaces the card and the row
of the earlier section by the notice and leaves the containers of the new
section empty. -/
theorem c19_earlier_libraries_section_overwritten :
    (frontendViews ((renderFrontendLibraries oneLibraryResponse "0.30").run {}).blocks).map
        (fun s => (s.cards.length, s.rows.length, s.cards.contains .noLibraries))
      = [(1, 1, false)]
    ∧ (frontendViews
        ((renderFrontendLibraries emptyLibrariesResponse "0.42").run
          ((renderFrontendLibraries oneLibraryResponse "0.30").run {})).blocks).map
        (fun s => (s.cards, s.rows))
      = [([.noLibraries], [.noLibraries]), ([], [])] := by
  decide

/-! ## C16: the overall progress indicator -/

theorem progress_updateScanProgress (actionId : String) (status : CardStatus)
    (timeTaken : Option String) (p : Page) :
    (updateScanProgress actionId status timeTaken p).progress = p.progress := by
  unfold updateScanProgress Page.progress
  cases p.panel <;> rfl

theorem progress_completeScan (p : Page) : (completeScan p).progress = p.progress := by
  unfold completeScan Page.progress
  cases p.panel <;> rfl

theorem progress_addDownloadReportButton (url : String) (p : Page) :
    (addDownloadReportButton url p).progress = p.progress := rfl

theorem progress_run_of_keepsPanel {a : Act} (h : a.KeepsPanel) (p : Page) :
    (a.run p).progress = p.progress := by
  unfold Page.progress
  rw [h p]

theorem progress_runNextAction (url : String) (actions : List Action) (index : Nat) (w : World) :
    (runNextAction url actions index w).page.progress = w.page.progress := by
  unfold runNextAction
  split
  · exact progress_updateScanProgress _ _ _ _
  · exact progress_completeScan _

theorem progress_updateOverallProgress (completed total : Nat) (p : Page)
    (h : p.panel.isSome = true) :
    (updateOverallProgress completed total p).progress
      = some (toString completed ++ " of " ++ toString total ++ " completed",
          percentageText completed total ++ "%") := by
  unfold updateOverallProgress Page.progress
  cases hp : p.panel with
  | none => rw [hp] at h; cases h
  | some panel => rfl

theorem scaleBy_neg52 (a b : Nat) : scaleBy a b (-52) = (a * 2 ^ 52, b) := rfl

/-- The quotient of a number by itself is the double 1. -/
theorem toBinary64_self (n : Nat) (h : 0 < n) :
    toBinary64 n n = { mant := 2 ^ 52, exp := -52 } := by
  have he : ((bitLength n n : Int) - (bitLength n n : Int) - 52) = -52 := by omega
  have hq : n * 2 ^ 52 / n = 2 ^ 52 := Nat.mul_div_cancel_left _ h
  have hr : n * 2 ^ 52 % n = 0 := Nat.mul_mod_right _ _
  have hlt : ¬ (n * 2 ^ 52 < 2 ^ 52 * n) := by rw [Nat.mul_comm]; exact Nat.lt_irrefl _
  unfold toBinary64
  simp only [he, scaleBy_neg52, hlt, if_false, roundHalfEven, hq, hr, Nat.mul_zero, h, if_true]
  rfl

/-- The rounding against doubles known by their bits: 1/3 is
`0x1.5555555555555p-2`, 1/10 is `0x1.999999999999ap-4`, 23/40 is
`0x1.2666666666666p-1`, and 100 times that double is `0x1.cbfffffffffffp+5`,
the double 57.49999999999999. -/
theorem toBinary64_known_doubles :
    toBinary64 1 3 = { mant := 0x15555555555555, exp := -54 }
    ∧ toBinary64 1 10 = { mant := 0x1999999999999a, exp := -56 }
    ∧ toBinary64 23 40 = { mant := 0x12666666666666, exp := -53 }
    ∧ (toBinary64 23 40).mulNat 100 = { mant := 0x1cbfffffffffff, exp := -47 }
    ∧ ((toBinary64 23 40).mulNat 100).round = 57 := by
  decide

/-- All of a positive total is 100 percent. -/
theorem percentage_self (n : Nat) (h : 0 < n) : percentage n n = 100 := by
  unfold percentage
  rw [if_neg (by omega), toBinary64_self n h]
  decide

set_option maxRecDepth 1000000 in
/-- Below a total of 40 the two roundings to a double do not show: the
percentage is the exact quotient, rounded. -/
theorem percentage_below_forty :
    ∀ t, t < 40 → ∀ c, c < t + 1 → percentage c t = (200 * c + t) / (2 * t) := by
  decide

/-- C16, as stated, fails, in two ways.  The indicator is set after
`handleScanResult` has returned: when the first request succeeds with a
result whose `results` array holds `null`, the renderer throws, and the
indicator stays at "0 of 3 completed" with an empty bar although the
`success` callback has fired and the card shows Completed.  And the bar width
is computed in doubles as `(completed / total) * 100`: for 23 of 40 the
quotient 0.575 and its product with 100 are both rounded, to
57.49999999999999, and the bar shows 57%, where round(100 * 23 / 40) is 58. -/
theorem c16_progress_not_as_stated :
    Event.succeeded 0 ∈ (runSession "https://example.org" scanActions nullRowOutcome {}).trace
    ∧ (runSession "https://example.org" scanActions nullRowOutcome {}).page.badges
        = [.completed, .pending, .pending]
    ∧ (runSession "https://example.org" scanActions nullRowOutcome {}).page.progress
        = some ("0 of 3 completed", "0%")
    ∧ (updateOverallProgress 23 40 freshScanPage).progress
        = some ("23 of 40 completed", "57%")
    ∧ jsRound (100 * ((23 : ℕ) : ℚ) / ((40 : ℕ) : ℚ)) = 58 := by
  refine ⟨by decide, by decide, by decide, by decide, ?_⟩
  rw [jsRound_percent 23 40 (by decide)]
  decide

/-- C16 (amended): for every check list of length N, every index i < N and
every page with the panel on it, when check i succeeds and its result handler
returns (the renderer does not throw), the `success` callback leaves the
overall progress indicator at (i+1)/N: the text reads "i+1 of N completed"
and the bar width is `Math.round(((i+1) / N) * 100)` percent as double
arithmetic gives it, which is round(100 * (i+1) / N) for every list of fewer
than 40 checks and is 100 when i = N-1. -/
theorem c16_progress_after_success (p : Pending) (response : JsVal) (timeTaken : String)
    (w : World) (hpanel : w.page.panel.isSome = true) (hidx : p.index < p.actions.length)
    (hret : (handleScanResult p.action.id response timeTaken).thrown = none) :
    (onSuccess p response timeTaken w).page.progress
      = some (toString (p.index + 1) ++ " of " ++ toString p.actions.length ++ " completed",
          toString (percentage (p.index + 1) p.actions.length) ++ "%")
    ∧ (p.actions.length < 40 →
        ((percentage (p.index + 1) p.actions.length : ℕ) : ℤ)
          = jsRound (100 * ((p.index + 1 : ℕ) : ℚ) / (p.actions.length : ℚ)))
    ∧ (p.index + 1 = p.actions.length →
        (onSuccess p response timeTaken w).page.progress
          = some (toString p.actions.length ++ " of " ++ toString p.actions.length
              ++ " completed", "100%")) := by
  have hN : p.actions.length ≠ 0 := by omega
  have hprog : (onSuccess p response timeTaken w).page.progress
      = some (toString (p.index + 1) ++ " of " ++ toString p.actions.length ++ " completed",
          percentageText (p.index + 1) p.actions.length ++ "%") := by
    unfold onSuccess
    simp only [hret]
    rw [progress_runNextAction]
    have hpanel' : ((handleScanResult p.action.id response timeTaken).run
        (updateScanProgress p.action.id .completed (some timeTaken) w.page)).panel.isSome
        = true := by
      rw [keepsPanel_handleScanResult]
      unfold updateScanProgress
      cases hp : w.page.panel with
      | none => rw [hp] at hpanel; cases hpanel
      | some panel => rfl
    split
    · rw [progress_addDownloadReportButton]
      exact progress_updateOverallProgress _ _ _ hpanel'
    · exact progress_updateOverallProgress _ _ _ hpanel'
  have hpct : percentageText (p.index + 1) p.actions.length
      = toString (percentage (p.index + 1) p.actions.length) := by
    unfold percentageText
    simp only [hN, if_false]
  refine ⟨by rw [hprog, hpct], ?_, ?_⟩
  · intro hlt
    rw [jsRound_percent _ _ (by omega),
      percentage_below_forty p.actions.length hlt (p.index + 1) (by omega)]
  · intro hlast
    rw [hprog, hpct, hlast, percentage_self _ (by omega)]
    rfl

/-- C16 (amended) at the last of the three checks of the source, and at the
first: "100%" and "33%". -/
theorem c16_progress_after_success_witness :
    (onSuccess { url := "https://example.org", actions := scanActions, index := 2,
                 action := { id := "frontend_libraries", name := "Frontend Libraries",
                             icon := "code-square" } }
        (.obj []) "0.10" { page := freshScanPage }).page.progress
      = some ("3 of 3 completed", "100%")
    ∧ (onSuccess { url := "https://example.org", actions := scanActions, index := 0,
                   action := { id := "security_headers", name := "Security Headers",
                               icon := "shield-check" } }
        (.obj [("result", .obj [])]) "0.10" { page := freshScanPage }).page.progress
      = some ("1 of 3 completed", "33%") :=
  ⟨(c16_progress_after_success
    { url := "https://example.org", actions := scanActions, index := 2,
      action := { id := "frontend_libraries", name := "Frontend Libraries",
                  icon := "code-square" } }
    (.obj []) "0.10" { page := freshScanPage } rfl (by decide) rfl).2.2 rfl,
   (c16_progress_after_success
    { url := "https://example.org", actions := scanActions, index := 0,
      action := { id := "security_headers", name := "Security Headers",
                  icon := "shield-check" } }
    (.obj [("result", .obj [])]) "0.10" { page := freshScanPage } rfl (by decide) rfl).1⟩

/-! ## C20: the dispatcher and the SSL renderer -/

theorem sslScores_append_of_not_ssl (bs : List Block) (b : Block) (h : b.isSsl = false) :
    sslScores (bs ++ [b]) = sslScores bs := by
  unfold sslScores
  rw [List.filterMap_append]
  cases b <;> simp_all [Block.isSsl]

theorem sslScores_mapFirstFrontend (f : FrontendSection → FrontendSection) :
    ∀ bs : List Block, sslScores (mapFirstFrontend f bs) = sslScores bs := by
  intro bs
  induction bs with
  | nil => rfl
  | cons b rest ih =>
    cases b <;> simp_all [mapFirstFrontend, sslScores]

theorem Act.addsNoSsl_skip : Act.skip.AddsNoSsl := fun _ => rfl

theorem Act.addsNoSsl_throw (e : JsError) : (Act.throw e).AddsNoSsl := fun _ => rfl

theorem Act.addsNoSsl_append (b : Block) (h : b.isSsl = false) : (Act.append b).AddsNoSsl :=
  fun p => sslScores_append_of_not_ssl p.blocks b h

theorem Act.addsNoSsl_appendBuilt (built : Except JsError Block)
    (h : ∀ b, built = .ok b → b.isSsl = false) : (Act.appendBuilt built).AddsNoSsl := by
  cases built with
  | error e => exact Act.addsNoSsl_throw e
  | ok b => exact Act.addsNoSsl_append b (h b rfl)

theorem Act.addsNoSsl_andThen {a b : Act} (ha : a.AddsNoSsl) (hb : b.AddsNoSsl) :
    (a.andThen b).AddsNoSsl := by
  intro p
  unfold Act.andThen
  cases a.thrown with
  | some e => exact ha p
  | none => simp only []; rw [hb, ha]

theorem addsNoSsl_onLibContainers (f : FrontendSection → FrontendSection) :
    (onLibContainers f).AddsNoSsl := fun p => sslScores_mapFirstFrontend f p.blocks

theorem addsNoSsl_populateEach : ∀ entries : List JsVal, (populateEach entries).AddsNoSsl := by
  intro entries
  induction entries with
  | nil => exact Act.addsNoSsl_skip
  | cons raw rest ih =>
    unfold populateEach
    cases libViews raw with
    | error e => exact Act.addsNoSsl_throw e
    | ok v =>
      obtain ⟨card, row⟩ := v
      exact Act.addsNoSsl_andThen (addsNoSsl_onLibContainers _) ih

theorem addsNoSsl_populateLibrariesData (entries : List JsVal) :
    (populateLibrariesData entries).AddsNoSsl := by
  cases entries with
  | nil => exact addsNoSsl_onLibContainers _
  | cons raw rest =>
    exact Act.addsNoSsl_andThen (addsNoSsl_onLibContainers _) (addsNoSsl_populateEach _)

theorem isSsl_of_map_summary (x : Except JsError SummarySection) :
    ∀ b, x.map Block.summary = .ok b → b.isSsl = false := by
  intro b h
  cases x with
  | error e => cases h
  | ok s => simp only [Except.map, Except.ok.injEq] at h; rw [← h]; rfl

theorem isSsl_of_map_record (x : Except JsError RecordSection)
    (g : RecordSection → RecordSection) :
    ∀ b, x.map (fun r => Block.record (g r)) = .ok b → b.isSsl = false := by
  intro b h
  cases x with
  | error e => cases h
  | ok s => simp only [Except.map, Except.ok.injEq] at h; rw [← h]; rfl

theorem addsNoSsl_renderSecurityHeaders (response : JsVal) (timeTaken : String) :
    (renderSecurityHeaders response timeTaken).AddsNoSsl := by
  unfold renderSecurityHeaders
  split
  · exact Act.addsNoSsl_append _ rfl
  · exact Act.addsNoSsl_appendBuilt _ (isSsl_of_map_summary _)

theorem addsNoSsl_renderEmailSecurity (response : JsVal) (timeTaken : String) :
    (renderEmailSecurity response timeTaken).AddsNoSsl := by
  unfold renderEmailSecurity
  split
  · exact Act.addsNoSsl_append _ rfl
  · exact Act.addsNoSsl_appendBuilt _ (isSsl_of_map_summary _)

theorem addsNoSsl_renderDMARC (response : JsVal) (timeTaken : String) :
    (renderDMARC response timeTaken).AddsNoSsl := by
  unfold renderDMARC
  split
  · exact Act.addsNoSsl_append _ rfl
  · exact Act.addsNoSsl_appendBuilt _ (isSsl_of_map_record _ _)

theorem addsNoSsl_renderSPF (response : JsVal) (timeTaken : String) :
    (renderSPF response timeTaken).AddsNoSsl := by
  unfold renderSPF
  split
  · exact Act.addsNoSsl_append _ rfl
  · exact Act.addsNoSsl_appendBuilt _ (isSsl_of_map_record _ _)

theorem addsNoSsl_renderDKIM (response : JsVal) (timeTaken : String) :
    (renderDKIM response timeTaken).AddsNoSsl := by
  unfold renderDKIM
  split
  · exact Act.addsNoSsl_append _ rfl
  · apply Act.addsNoSsl_appendBuilt
    intro b h
    simp only [bind, Except.bind, pure, Except.pure] at h
    split at h
    · cases h
    · split at h
      · cases h
      · simp only [Except.ok.injEq] at h; rw [← h]; rfl

theorem addsNoSsl_renderFrontendLibraries (response : JsVal) (timeTaken : String) :
    (renderFrontendLibraries response timeTaken).AddsNoSsl := by
  unfold renderFrontendLibraries
  simp only []
  split
  · exact Act.addsNoSsl_append _ rfl
  · exact Act.addsNoSsl_andThen
      (Act.addsNoSsl_andThen (Act.addsNoSsl_append _ rfl) (addsNoSsl_populateLibrariesData _))
      (Act.addsNoSsl_append _ rfl)

/-- Whatever the check id, the dispatcher adds no SSL/TLS section. -/
theorem addsNoSsl_handleScanResult (action : String) (response : JsVal) (timeTaken : String) :
    (handleScanResult action response timeTaken).AddsNoSsl := by
  unfold handleScanResult
  split
  · cases response.get "result" with
    | error e => exact Act.addsNoSsl_throw e
    | ok result => exact addsNoSsl_renderSecurityHeaders _ _
  · split
    · exact addsNoSsl_renderEmailSecurity _ _
    · split
      · exact addsNoSsl_renderFrontendLibraries _ _
      · split
        · exact addsNoSsl_renderDMARC _ _
        · split
          · exact addsNoSsl_renderSPF _ _
          · split
            · exact addsNoSsl_renderDKIM _ _
            · split
              · exact Act.addsNoSsl_throw _
              · exact Act.addsNoSsl_append _ rfl

/-- Called directly on the worked example, `renderSSLResults` does add an
SSL/TLS section. -/
theorem renderSSLResults_example_scores (timeTaken : String) :
    sslScores ((renderSSLResults sslExample timeTaken).run {}).blocks = [(50, "Medium")] := by
  have hres : resolveSslInfo sslExample = sslExample := by rfl
  unfold renderSSLResults
  simp only [hres, sslSection_example]
  rfl

/-- C20, as stated, fails: no check id is routed to `renderSSLResults`.
`scanner.js` does not import it and `handleScanResult` has no case calling
it; on the worked SSL example the dispatcher adds no SSL section for any id,
while `renderSSLResults` adds one. -/
theorem c20_no_id_routes_to_ssl :
    ¬ ∃ action : String, ∀ (response : JsVal) (timeTaken : String),
        handleScanResult action response timeTaken = renderSSLResults response timeTaken := by
  rintro ⟨action, h⟩
  have h1 := addsNoSsl_handleScanResult action sslExample "1.00" {}
  rw [h sslExample "1.00", renderSSLResults_example_scores] at h1
  cases h1

/-- C20 (amended): the Result Dispatcher does not have the SSL/TLS renderer
among its variants.  For every check id, payload and page `handleScanResult`
adds no SSL/TLS section; an id without a case of its own, such as an SSL id,
gets the unknown-id fallback, the raw payload as a generic block;
`renderSSLResults` renders only when it is called directly. -/
theorem c20_dispatcher_has_no_ssl_variant (action : String) (response : JsVal)
    (timeTaken : String) (p : Page) :
    sslScores ((handleScanResult action response timeTaken).run p).blocks = sslScores p.blocks
    ∧ (action ∉ dispatchedIds →
        (handleScanResult action response timeTaken).thrown = none
        ∧ ((handleScanResult action response timeTaken).run p).blocks
            = p.blocks ++ [.rawResult action response])
    ∧ sslScores ((renderSSLResults sslExample timeTaken).run {}).blocks = [(50, "Medium")] := by
  refine ⟨addsNoSsl_handleScanResult action response timeTaken p, ?_,
    renderSSLResults_example_scores timeTaken⟩
  intro hnot
  simp only [dispatchedIds, List.mem_cons, List.mem_singleton, List.not_mem_nil, or_false,
    not_or] at hnot
  obtain ⟨h1, h2, h3, h4, h5, h6, h7⟩ := hnot
  unfold handleScanResult
  simp only [h1, h2, h3, h4, h5, h6, h7, if_false]
  exact ⟨rfl, rfl⟩

/-- C20 (amended) at the id `ssl`: the SSL payload is shown as a raw block. -/
theorem c20_dispatcher_has_no_ssl_variant_witness :
    "ssl" ∉ dispatchedIds
    ∧ ((handleScanResult "ssl" sslExample "1.00").run {}).blocks
        = [.rawResult "ssl" sslExample] :=
  ⟨by decide,
    ((c20_dispatcher_has_no_ssl_variant "ssl" sslExample "1.00" {}).2.1 (by decide)).2⟩

/-! ## C17: the displayed outcome of a check -/

theorem badges_eq (p : Page) :
    p.badges = (p.cards.getD []).map (fun c => c.badge) := by
  unfold Page.badges Page.cards
  cases p.panel <;> rfl

theorem applyStatus_badge (status : CardStatus) (timeTaken : Option String) (c : StatusCard)
    (h : status ≠ .pending) : (applyStatus status timeTaken c).badge = status := by
  unfold applyStatus
  cases status with
  | pending => exact absurd rfl h
  | running => rfl
  | failed => rfl
  | completed =>
    cases timeTaken with
    | none => rfl
    | some t =>
      simp only []
      split <;> rfl

/-- With distinct ids, the id selector for the id of card `k` changes card `k`
and no other. -/
theorem updateFirstCard_at (status : CardStatus) (timeTaken : Option String)
    (hst : status ≠ .pending) :
    ∀ (cards : List StatusCard) (k : Nat) (x : String),
      (cards.map (fun c => c.id))[k]? = some x →
      (cards.map (fun c => c.id)).Nodup →
      (updateFirstCard x (applyStatus status timeTaken) cards).map (fun c => c.badge)
          = (cards.map (fun c => c.badge)).set k status
        ∧ (updateFirstCard x (applyStatus status timeTaken) cards).map (fun c => c.id)
          = cards.map (fun c => c.id) := by
  intro cards
  induction cards with
  | nil => intro k x hx _; simp at hx
  | cons c rest ih =>
    intro k x hx hnd
    simp only [List.map_cons, List.nodup_cons] at hnd
    cases k with
    | zero =>
      simp only [List.map_cons, List.getElem?_cons_zero, Option.some.injEq] at hx
      simp [updateFirstCard, hx, applyStatus_badge _ _ _ hst, applyStatus_id]
    | succ k =>
      simp only [List.map_cons, List.getElem?_cons_succ] at hx
      have hmem : x ∈ rest.map (fun c => c.id) := List.getElem?_mem hx
      have hne : c.id ≠ x := fun h => hnd.1 (h ▸ hmem)
      obtain ⟨h1, h2⟩ := ih k x hx hnd.2
      simp only [updateFirstCard, hne, if_false, List.map_cons, List.set_cons_succ, h1, h2,
        and_self]

theorem CardsOk.badges {ids : List String} {p : Page} {B : List CardStatus}
    (h : CardsOk ids p B) : p.badges = B := by
  obtain ⟨cards, hc, _, hb⟩ := h
  rw [badges_eq, hc]
  exact hb

theorem CardsOk.length {ids : List String} {p : Page} {B : List CardStatus}
    (h : CardsOk ids p B) : B.length = ids.length := by
  obtain ⟨cards, _, hi, hb⟩ := h
  rw [← hb, ← hi]
  simp

theorem CardsOk.of_cards_eq {ids : List String} {p q : Page} {B : List CardStatus}
    (h : CardsOk ids p B) (hq : q.cards = p.cards) : CardsOk ids q B := by
  obtain ⟨cards, hc, hi, hb⟩ := h
  exact ⟨cards, hq.trans hc, hi, hb⟩

theorem CardsOk.update {ids : List String} {p : Page} {B : List CardStatus}
    (h : CardsOk ids p B) (hnd : ids.Nodup) (k : Nat) (x : String) (hx : ids[k]? = some x)
    (status : CardStatus) (timeTaken : Option String) (hst : status ≠ .pending) :
    CardsOk ids (updateScanProgress x status timeTaken p) (B.set k status) := by
  obtain ⟨cards, hc, hi, hb⟩ := h
  have hx' : (cards.map (fun c => c.id))[k]? = some x := by rw [hi]; exact hx
  have hnd' : (cards.map (fun c => c.id)).Nodup := by rw [hi]; exact hnd
  obtain ⟨h1, h2⟩ := updateFirstCard_at status timeTaken hst cards k x hx' hnd'
  refine ⟨updateFirstCard x (applyStatus status timeTaken) cards, ?_, h2.trans hi, ?_⟩
  · rw [cards_updateScanProgress, hc]; rfl
  · rw [h1, hb]

theorem mayBecome_self (a : CardStatus) : a.mayBecome a = true := by
  cases a <;> rfl

theorem badgesStep_refl (B : List CardStatus) : BadgesStep B B := by
  refine ⟨rfl, ?_⟩
  intro k a b ha hb
  rw [ha] at hb
  cases hb
  exact mayBecome_self a

theorem badgesStep_set (B : List CardStatus) (i : Nat) (a x : CardStatus)
    (hi : B[i]? = some a) (hax : a.mayBecome x = true) : BadgesStep B (B.set i x) := by
  refine ⟨by simp, ?_⟩
  intro k c d hc hd
  rw [List.getElem?_set] at hd
  by_cases hik : i = k
  · subst hik
    rw [hi] at hc
    cases hc
    simp only [if_true] at hd
    split at hd
    · cases hd; exact hax
    · cases hd
  · simp only [hik, if_false] at hd
    rw [hc] at hd
    cases hd
    exact mayBecome_self c

theorem badgesStep_set_set (B : List CardStatus) (i j : Nat) (a x b y : CardStatus)
    (hi : B[i]? = some a) (hax : a.mayBecome x = true)
    (hj : B[j]? = some b) (hby : b.mayBecome y = true) :
    BadgesStep B ((B.set i x).set j y) := by
  refine ⟨by simp, ?_⟩
  intro k c d hc hd
  rw [List.getElem?_set] at hd
  by_cases hjk : j = k
  · subst hjk
    rw [hj] at hc
    cases hc
    simp only [if_true] at hd
    split at hd
    · cases hd; exact hby
    · cases hd
  · simp only [hjk, if_false] at hd
    exact (badgesStep_set B i a x hi hax).2 k c d hc hd

/-- `runNextAction(index)` on a page whose cards from `index` on show Pending:
either the request for `index` is put in flight and its card turns Running,
or the list is exhausted and the cards stay as they are. -/
theorem runNextAction_cards (url : String) (actions : List Action) (index : Nat) (w : World)
    (B : List CardStatus) (hnd : (actions.map (fun a => a.id)).Nodup)
    (hok : CardsOk (actions.map (fun a => a.id)) w.page B) (hin : w.inflight = [])
    (hpend : ∀ j, index ≤ j → j < actions.length → B[j]? = some .pending) :
    (index < actions.length →
        CardsOk (actions.map (fun a => a.id)) (runNextAction url actions index w).page
            (B.set index .running)
          ∧ InFlightAt url actions index (runNextAction url actions index w))
    ∧ (¬ index < actions.length →
        CardsOk (actions.map (fun a => a.id)) (runNextAction url actions index w).page B
          ∧ (runNextAction url actions index w).inflight = []) := by
  constructor
  · intro hlt
    have hx : (actions.map (fun a => a.id))[index]? = some actions[index].id := by
      simp [hlt]
    have hok' : CardsOk (actions.map (fun a => a.id))
        (runNextAction url actions index w).page (B.set index .running) := by
      unfold runNextAction
      simp only [dif_pos hlt]
      exact hok.update hnd index _ hx .running none (by decide)
    refine ⟨hok', hlt, ?_, B.set index .running, hok', ?_, ?_⟩
    · unfold runNextAction
      simp only [dif_pos hlt, hin, List.nil_append]
    · rw [List.getElem?_set]
      have hlen : index < B.length := by rw [hok.length]; simpa using hlt
      simp [hlen]
    · intro j hij hj
      rw [List.getElem?_set_ne (by omega)]
      exact hpend j (by omega) hj
  · intro hge
    unfold runNextAction
    simp only [dif_neg hge]
    exact ⟨hok.of_cards_eq (cards_completeScan _), hin⟩

/-- What the callbacks do after the card of check `index` has been given its
final badge `x`: the next check is started or the scan is completed, and the
badges have moved as allowed. -/
theorem after_settlement (url : String) (actions : List Action) (index : Nat) (w₀ w : World)
    (B : List CardStatus) (x : CardStatus) (hx : x = .completed ∨ x = .failed)
    (hnd : (actions.map (fun a => a.id)).Nodup)
    (h₀ : CardsOk (actions.map (fun a => a.id)) w₀.page B)
    (hrun : B[index]? = some .running)
    (hpend : ∀ j, index < j → j < actions.length → B[j]? = some .pending)
    (hok : CardsOk (actions.map (fun a => a.id)) w.page (B.set index x))
    (hin : w.inflight = []) :
    BadgesStep w₀.page.badges (runNextAction url actions (index + 1) w).page.badges
    ∧ ((runNextAction url actions (index + 1) w).inflight = []
        ∨ InFlightAt url actions (index + 1) (runNextAction url actions (index + 1) w)) := by
  have hlegal : CardStatus.running.mayBecome x = true := by
    rcases hx with rfl | rfl <;> rfl
  have hpend' : ∀ j, index + 1 ≤ j → j < actions.length →
      (B.set index x)[j]? = some .pending := by
    intro j hj hlt
    rw [List.getElem?_set_ne (by omega)]
    exact hpend j (by omega) hlt
  obtain ⟨hlt, hge⟩ := runNextAction_cards url actions (index + 1) w (B.set index x) hnd hok hin
    hpend'
  rw [h₀.badges]
  by_cases hnext : index + 1 < actions.length
  · obtain ⟨hcards, hfl⟩ := hlt hnext
    rw [hcards.badges]
    exact ⟨badgesStep_set_set B index (index + 1) .running x .pending .running hrun hlegal
      (hpend (index + 1) (by omega) hnext) rfl, Or.inr hfl⟩
  · obtain ⟨hcards, hnone⟩ := hge hnext
    rw [hcards.badges]
    exact ⟨badgesStep_set B index .running x hrun hlegal, Or.inl hnone⟩

/-- One settlement: the badges move as allowed, and the run either has
nothing in flight any more or has the next request in flight. -/
theorem settle_step (url : String) (actions : List Action) (outcome : Nat → Settlement)
    (index : Nat) (w : World) (hnd : (actions.map (fun a => a.id)).Nodup)
    (hg : InFlightAt url actions index w) :
    BadgesStep w.page.badges (settle 0 (outcome index) w).page.badges
    ∧ ((settle 0 (outcome index) w).inflight = []
        ∨ InFlightAt url actions (index + 1) (settle 0 (outcome index) w)) := by
  obtain ⟨hlt, hin, B, hok, hrun, hpend⟩ := hg
  have hid : (actions.map (fun a => a.id))[index]? = some actions[index].id := by
    simp [hlt]
  unfold settle
  simp only [hin, List.getElem?_cons_zero, List.eraseIdx_cons_zero]
  cases outcome index with
  | error responseText =>
    simp only [onError]
    exact after_settlement url actions index w _ B .failed (Or.inr rfl) hnd hok hrun hpend
      ((hok.update hnd index _ hid .failed none (by decide)).of_cards_eq (cards_append _ _)) rfl
  | success response timeTaken =>
    simp only [onSuccess]
    have hdone : CardsOk (actions.map (fun a => a.id))
        ((handleScanResult actions[index].id response timeTaken).run
          (updateScanProgress actions[index].id .completed (some timeTaken) w.page))
        (B.set index .completed) :=
      (hok.update hnd index _ hid .completed (some timeTaken) (by decide)).of_cards_eq
        (cards_run_of_keepsPanel (keepsPanel_handleScanResult _ _ _) _)
    cases hthrown : (handleScanResult actions[index].id response timeTaken).thrown with
    | some e =>
      simp only []
      rw [hok.badges, hdone.badges]
      exact ⟨badgesStep_set B index .running .completed hrun rfl, Or.inl trivial⟩
    | none =>
      simp only []
      refine after_settlement url actions index w _ B .completed (Or.inl rfl) hnd hok hrun hpend
        ?_ rfl
      have hprog := hdone.of_cards_eq (cards_updateOverallProgress (index + 1) actions.length _)
      split
      · exact hprog.of_cards_eq (cards_addDownloadReportButton _ _)
      · exact hprog

theorem driveTrail_head (outcome : Nat → Settlement) (fuel : Nat) (w : World) :
    (driveTrail outcome fuel w).head? = some w := by
  cases fuel with
  | zero => rfl
  | succ n =>
    unfold driveTrail
    cases w.inflight <;> rfl

theorem driveTrail_of_not_inflight (outcome : Nat → Settlement) (fuel : Nat) (w : World)
    (h : w.inflight = []) : driveTrail outcome fuel w = [w] := by
  cases fuel with
  | zero => rfl
  | succ n => simp [driveTrail, h]

/-- The trail ends in the world that `drive` returns. -/
theorem driveTrail_getLast (outcome : Nat → Settlement) :
    ∀ (fuel : Nat) (w : World),
      (driveTrail outcome fuel w).getLast? = some (drive outcome fuel w) := by
  intro fuel
  induction fuel with
  | zero => intro w; rfl
  | succ n ih =>
    intro w
    unfold driveTrail drive
    cases hw : w.inflight with
    | nil => rfl
    | cons p rest =>
      simp only []
      have := ih (settle 0 (outcome p.index) w)
      rw [List.getLast?_cons, this]
      rfl

/-- Along the trail of a run, the badges move as allowed from each world to
the next. -/
theorem driveTrail_chain (url : String) (actions : List Action) (outcome : Nat → Settlement)
    (hnd : (actions.map (fun a => a.id)).Nodup) :
    ∀ (fuel index : Nat) (w : World), InFlightAt url actions index w →
      List.Chain' (fun a b : World => BadgesStep a.page.badges b.page.badges)
        (driveTrail outcome fuel w) := by
  intro fuel
  induction fuel with
  | zero => intro index w _; simp [driveTrail]
  | succ n ih =>
    intro index w hg
    have hstep := settle_step url actions outcome index w hnd hg
    obtain ⟨hlt, hin, _⟩ := hg
    unfold driveTrail
    simp only [hin]
    rw [List.chain'_cons']
    constructor
    · intro y hy
      rw [driveTrail_head] at hy
      simp only [Option.mem_def, Option.some.injEq] at hy
      rw [← hy]
      exact hstep.1
    · rcases hstep.2 with hnone | hnext
      · rw [driveTrail_of_not_inflight _ _ _ hnone]
        simp
      · exact ih (index + 1) _ hnext

theorem mayBecome_cases (a b : CardStatus) (h : a.mayBecome b = true) (hne : a ≠ b) :
    (a = .pending ∧ b = .running) ∨ (a = .running ∧ (b = .completed ∨ b = .failed)) := by
  cases a <;> cases b <;> simp_all [CardStatus.mayBecome]

theorem mayBecome_settled (st b : CardStatus) (hst : st = .completed ∨ st = .failed)
    (h : st.mayBecome b = true) : b = st := by
  rcases hst with rfl | rfl <;> cases b <;> simp_all [CardStatus.mayBecome]

theorem BadgesStep.keepsSettled {P Q : Page} (h : BadgesStep P.badges Q.badges) :
    KeepsSettled P Q := by
  intro k st hst hp
  have hk : k < Q.badges.length := by
    rw [← h.1]
    exact (List.getElem?_eq_some.mp hp).1
  have hq : Q.badges[k]? = some Q.badges[k] := List.getElem?_eq_getElem hk
  rw [hq, mayBecome_settled st _ hst (h.2 k st _ hp hq)]

theorem KeepsSettled.trans {P Q R : Page} (h₁ : KeepsSettled P Q) (h₂ : KeepsSettled Q R) :
    KeepsSettled P R :=
  fun k st hst hp => h₂ k st hst (h₁ k st hst hp)

/-- The pages of one session, from the panel as initialised on, each following
the one before as the badges allow. -/
theorem sessionPages_chain (url : String) (actions : List Action) (outcome : Nat → Settlement)
    (page : Page) (hnd : (actions.map (fun a => a.id)).Nodup) :
    List.Chain' (fun P Q : Page => BadgesStep P.badges Q.badges)
      (sessionPages url actions outcome page) := by
  have hinit : CardsOk (actions.map (fun a => a.id)) (initializeProgressInterface actions page)
      (List.replicate actions.length .pending) := by
    refine ⟨actions.map createStatusCard, rfl, ?_, ?_⟩
    · simp [createStatusCard]
    · simp only [List.map_map]
      induction actions with
      | nil => rfl
      | cons a rest ih =>
        simp only [List.map_cons, List.length_cons, List.replicate_succ]
        rw [ih (List.nodup_cons.mp hnd).2]
        rfl
  have hpend : ∀ j, 0 ≤ j → j < actions.length →
      (List.replicate actions.length CardStatus.pending)[j]? = some .pending := by
    intro j _ hj
    simp [hj]
  obtain ⟨hlt, hge⟩ := runNextAction_cards url actions 0
    { page := initializeProgressInterface actions page, currentScanUrl := url }
    (List.replicate actions.length .pending) hnd hinit rfl hpend
  have hstart : startScan url actions { page := page }
      = runNextAction url actions 0
          { page := initializeProgressInterface actions page, currentScanUrl := url } := rfl
  unfold sessionPages
  rw [hstart, List.chain'_cons']
  constructor
  · intro Q hQ
    rw [List.head?_map, driveTrail_head] at hQ
    simp only [Option.map_some', Option.mem_def, Option.some.injEq] at hQ
    rw [← hQ, hinit.badges]
    by_cases h0 : 0 < actions.length
    · rw [(hlt h0).1.badges]
      exact badgesStep_set _ 0 .pending .running (hpend 0 (le_refl _) h0) rfl
    · rw [(hge h0).1.badges]
      exact badgesStep_refl _
  · rw [List.chain'_map]
    by_cases h0 : 0 < actions.length
    · exact driveTrail_chain url actions outcome hnd _ 0 _ (hlt h0).2
    · rw [driveTrail_of_not_inflight _ _ _ (hge h0).2]
      simp

/-- C17: within one session over a check list with distinct ids, whatever the
outcomes (a throwing renderer included), the pages shown, from the panel as
initialised up to the last page of the run, follow each other so that every
badge stays or moves from Pending to Running or from Running to Completed or
Failed; the panel starts with every check Pending; and a badge that shows
Completed or Failed on one page shows the same on every later page. -/
theorem c17_outcomes_move_forward (url : String) (actions : List Action)
    (outcome : Nat → Settlement) (page : Page)
    (hids : (actions.map (fun a => a.id)).Nodup) :
    List.Chain' (fun P Q : Page => BadgesStep P.badges Q.badges)
      (sessionPages url actions outcome page)
    ∧ List.Pairwise KeepsSettled (sessionPages url actions outcome page)
    ∧ (sessionPages url actions outcome page).head?.map Page.badges
        = some (List.replicate actions.length .pending)
    ∧ (sessionPages url actions outcome page).getLast?
        = some (runSession url actions outcome page).page
    ∧ (∀ a b : CardStatus, a.mayBecome b = true → a ≠ b →
        (a = .pending ∧ b = .running) ∨ (a = .running ∧ (b = .completed ∨ b = .failed))) := by
  have hchain := sessionPages_chain url actions outcome page hids
  refine ⟨hchain, ?_, ?_, ?_, mayBecome_cases⟩
  · haveI : IsTrans Page KeepsSettled := ⟨fun _ _ _ h₁ h₂ => h₁.trans h₂⟩
    rw [← List.chain'_iff_pairwise]
    exact hchain.imp (fun _ _ h => h.keepsSettled)
  · simp only [sessionPages, List.head?_cons, Option.map_some', Option.some.injEq]
    simp only [initializeProgressInterface, Page.badges, List.map_map]
    clear hchain hids
    induction actions with
    | nil => rfl
    | cons a rest ih =>
      simp only [List.map_cons, List.length_cons, List.replicate_succ, ih]
      rfl
  · unfold sessionPages runSession
    rw [List.getLast?_cons, List.getLast?_map, driveTrail_getLast]
    rfl

/-- C17 at the three checks of the source with the second request failing. -/
theorem c17_outcomes_move_forward_witness :
    (scanActions.map (fun a => a.id)).Nodup
    ∧ List.Chain' (fun P Q : Page => BadgesStep P.badges Q.badges)
        (sessionPages "https://example.org" scanActions sampleOutcome {})
    ∧ (sessionPages "https://example.org" scanActions sampleOutcome {}).map Page.badges
        = [[.pending, .pending, .pending], [.running, .pending, .pending],
           [.completed, .running, .pending], [.completed, .failed, .running],
           [.completed, .failed, .completed]] :=
  ⟨by decide,
    (c17_outcomes_move_forward "https://example.org" scanActions sampleOutcome {}
      (by decide)).1,
    by decide⟩

/-! ## C21: the counts of the SSL section -/

theorem length_filter_add_length_filter_not (cs : List JsVal) (f : JsVal → Bool) :
    (cs.filter f).length + (cs.filter (fun c => !f c)).length = cs.length := by
  induction cs with
  | nil => rfl
  | cons c rest ih =>
    simp only [List.filter_cons, List.length_cons]
    cases f c <;> simp <;> omega

theorem sslRisk_ne_unknown (score : ℤ) :
    (sslRisk score).1 ∈ ["Low", "Medium", "High"] ∧ (sslRisk score).1 ≠ "Unknown" := by
  unfold sslRisk
  split
  · exact ⟨by simp, by decide⟩
  · split
    · exact ⟨by simp, by decide⟩
    · exact ⟨by simp, by decide⟩

theorem specSslScore_of_none (sslInfo : JsVal) (h : presentSubchecks sslInfo = []) :
    specSslScore sslInfo = 0 := by
  unfold specSslScore
  rw [h]
  simp [jsRound_zero]

/-- C21: for every SSL info object for which `renderSSLResults` builds its
section (it does unless a present subcheck has a truthy status that is not a
string), the passed and failed counts sum to the number of present subchecks,
which is at most 3; passed counts the present subchecks whose status is `pass`
or `success` in any letter case and failed counts all the others, whatever
their status (warning, unknown, missing); the risk level is one of "Low",
"Medium", "High", never the initial "Unknown"; and when no subcheck is
present the section is built, with score 0, counts 0 and the risk level
"High". -/
theorem c21_ssl_counts (sslInfo : JsVal) (timeTaken : String) (sec : SslSection)
    (h : sslSection sslInfo timeTaken = .ok sec) :
    sec.passed + sec.failed = (presentSubchecks sslInfo).length
    ∧ (presentSubchecks sslInfo).length ≤ 3
    ∧ sec.passed = ((presentSubchecks sslInfo).filter statusIsPass).length
    ∧ sec.failed = ((presentSubchecks sslInfo).filter (fun c => !statusIsPass c)).length
    ∧ sec.riskLevel ∈ ["Low", "Medium", "High"]
    ∧ sec.riskLevel ≠ "Unknown"
    ∧ (presentSubchecks sslInfo = [] →
        sec.score = 0 ∧ sec.passed = 0 ∧ sec.failed = 0 ∧ sec.riskLevel = "High")
    ∧ (presentSubchecks sslInfo = [] →
        sslSection sslInfo timeTaken = .ok (sslSectionOf timeTaken 0 0 0)) := by
  have hsplit := length_filter_add_length_filter_not (presentSubchecks sslInfo) statusIsPass
  have hnone : presentSubchecks sslInfo = [] →
      sslSection sslInfo timeTaken = .ok (sslSectionOf timeTaken 0 0 0) := by
    intro hempty
    rw [sslSection_eq, specSslScore_of_none sslInfo hempty, hempty]
    rfl
  rw [sslSection_eq] at h
  split at h
  · simp only [Except.ok.injEq] at h
    subst h
    refine ⟨?_, presentSubchecks_length_le sslInfo, rfl, ?_, (sslRisk_ne_unknown _).1,
      (sslRisk_ne_unknown _).2, ?_, hnone⟩
    · simp only [sslSectionOf]
      have := List.length_filter_le statusIsPass (presentSubchecks sslInfo)
      omega
    · simp only [sslSectionOf]
      omega
    · intro hempty
      simp only [sslSectionOf, specSslScore_of_none sslInfo hempty, hempty]
      refine ⟨?_, ?_, ?_, ?_⟩ <;> trivial
  · cases h

/-- C21 at an SSL info object with a warning, a missing status and a pass: one
passed, two failed. -/
theorem c21_ssl_counts_witness :
    (∃ sec, sslSection mixedSslInfo "1.00" = .ok sec ∧ sec.passed = 1 ∧ sec.failed = 2
      ∧ sec.passed + sec.failed = (presentSubchecks mixedSslInfo).length) := by
  have hall : (presentSubchecks mixedSslInfo).all statusLowers = true := by decide
  have hsec : sslSection mixedSslInfo "1.00"
      = .ok (sslSectionOf "1.00" (specSslScore mixedSslInfo)
          ((presentSubchecks mixedSslInfo).filter statusIsPass).length
          (presentSubchecks mixedSslInfo).length) := by
    rw [sslSection_eq, hall]
    rfl
  have hthm := c21_ssl_counts mixedSslInfo "1.00" _ hsec
  exact ⟨_, hsec, by decide, by decide, hthm.1⟩

/-! ## C22: the progress text at completion -/

theorem progressText_eq (p : Page) : p.progressText = p.progress.map (fun x => x.1) := by
  unfold Page.progressText Page.progress
  cases p.panel <;> rfl

theorem progressText_updateOverallProgress (completed total : Nat) (p : Page)
    (h : p.panel.isSome = true) :
    (updateOverallProgress completed total p).progressText
      = some (toString completed ++ " of " ++ toString total ++ " completed") := by
  rw [progressText_eq, progress_updateOverallProgress completed total p h]
  rfl

theorem panel_isSome_updateScanProgress (actionId : String) (status : CardStatus)
    (timeTaken : Option String) (p : Page) :
    (updateScanProgress actionId status timeTaken p).panel.isSome = p.panel.isSome := by
  unfold updateScanProgress
  cases p.panel <;> rfl

theorem panel_isSome_updateOverallProgress (completed total : Nat) (p : Page) :
    (updateOverallProgress completed total p).panel.isSome = p.panel.isSome := by
  unfold updateOverallProgress
  cases p.panel <;> rfl

theorem ReturnFrom.cons {outcome : Nat → Settlement} {action : Action} {rest : List Action}
    {index : Nat}
    (hhead : ∀ (response : JsVal) (timeTaken : String),
      outcome index = .success response timeTaken →
        (handleScanResult action.id response timeTaken).thrown = none)
    (htail : ReturnFrom outcome rest (index + 1)) :
    ReturnFrom outcome (action :: rest) index := by
  intro j hj response timeTaken ho
  cases j with
  | zero => exact hhead response timeTaken (by simpa using ho)
  | succ j =>
    have := htail j (by simpa using hj) response timeTaken (by rw [← ho]; congr 1; omega)
    simpa using this

/-- A run that reaches `completeScan` is a run in which every `success`
callback has returned. -/
theorem loopFrom_returns_of_complete (url : String) (actions : List Action)
    (outcome : Nat → Settlement) :
    ∀ (rest : List Action) (index : Nat) (w : World), Event.completeScan ∉ w.trace →
      Event.completeScan ∈ (loopFrom url actions outcome rest index w).trace →
      ReturnFrom outcome rest index := by
  intro rest
  induction rest with
  | nil => intro index w _ _ j hj; simp at hj
  | cons action rest ih =>
    intro index w hfresh hdone
    simp only [loopFrom] at hdone
    cases ho : outcome index with
    | error responseText =>
      rw [ho] at hdone
      simp only [] at hdone
      refine ReturnFrom.cons ?_ (ih (index + 1) _ ?_ hdone)
      · intro response timeTaken h; rw [ho] at h; cases h
      · simp [hfresh]
    | success response timeTaken =>
      rw [ho] at hdone
      simp only [] at hdone
      cases ht : (handleScanResult action.id response timeTaken).thrown with
      | some e =>
        rw [ht] at hdone
        simp [hfresh] at hdone
      | none =>
        rw [ht] at hdone
        simp only [] at hdone
        refine ReturnFrom.cons ?_ (ih (index + 1) _ ?_ hdone)
        · intro response' timeTaken' h
          rw [ho] at h
          simp only [Settlement.success.injEq] at h
          rw [← h.1, ← h.2]
          exact ht
        · simp [hfresh]

/-- The progress text at the end of the loop, when every callback returns: it
names the last check that succeeded. -/
theorem loopFrom_progressText (url : String) (actions : List Action)
    (outcome : Nat → Settlement) :
    ∀ (rest : List Action) (index : Nat) (w : World), ReturnFrom outcome rest index →
      w.page.panel.isSome = true →
      w.page.progressText
        = some (toString (lastSuccess outcome index) ++ " of " ++ toString actions.length
            ++ " completed") →
      (loopFrom url actions outcome rest index w).page.progressText
        = some (toString (lastSuccess outcome (index + rest.length)) ++ " of "
            ++ toString actions.length ++ " completed") := by
  intro rest
  induction rest with
  | nil =>
    intro index w _ _ htext
    simp only [loopFrom, List.length_nil, Nat.add_zero]
    rw [progressText_eq, progress_completeScan, ← progressText_eq]
    exact htext
  | cons action rest ih =>
    intro index w hret hpanel htext
    have hlen : index + (action :: rest).length = index + 1 + rest.length := by
      simp only [List.length_cons]; omega
    rw [hlen]
    simp only [loopFrom]
    cases ho : outcome index with
    | error responseText =>
      simp only []
      apply ih (index + 1) _ hret.tail
      · show ((updateScanProgress action.id .failed none
            (updateScanProgress action.id .running none w.page)).append _).panel.isSome = true
        simp only [Page.append, panel_isSome_updateScanProgress, hpanel]
      · show ((updateScanProgress action.id .failed none
            (updateScanProgress action.id .running none w.page)).append _).progressText = _
        rw [progressText_eq]
        simp only [Page.append]
        have h1 := progress_updateScanProgress action.id .failed none
          (updateScanProgress action.id .running none w.page)
        have h2 := progress_updateScanProgress action.id .running none w.page
        have h3 : ({ (updateScanProgress action.id .failed none
              (updateScanProgress action.id .running none w.page)) with
            blocks := (updateScanProgress action.id .failed none
              (updateScanProgress action.id .running none w.page)).blocks
                ++ [Block.errorAlert action.name responseText] } : Page).progress
            = (updateScanProgress action.id .failed none
              (updateScanProgress action.id .running none w.page)).progress := rfl
        rw [h3, h1, h2, ← progressText_eq, htext]
        simp [lastSuccess, ho, Settlement.isSuccess]
    | success response timeTaken =>
      simp only [hret.head response timeTaken ho]
      have hpanel' : ((handleScanResult action.id response timeTaken).run
          (updateScanProgress action.id .completed (some timeTaken)
            (updateScanProgress action.id .running none w.page))).panel.isSome = true := by
        rw [keepsPanel_handleScanResult, panel_isSome_updateScanProgress,
          panel_isSome_updateScanProgress, hpanel]
      apply ih (index + 1) _ hret.tail
      · show (if _ then _ else _ : Page).panel.isSome = true
        split
        · show (updateOverallProgress _ _ _).panel.isSome = true
          rw [panel_isSome_updateOverallProgress]; exact hpanel'
        · rw [panel_isSome_updateOverallProgress]; exact hpanel'
      · show (if _ then _ else _ : Page).progressText = _
        have hk : lastSuccess outcome (index + 1) = index + 1 := by
          simp [lastSuccess, ho, Settlement.isSuccess]
        rw [hk]
        split
        · show (updateOverallProgress _ _ _).progressText = _
          exact progressText_updateOverallProgress _ _ _ hpanel'
        · exact progressText_updateOverallProgress _ _ _ hpanel'

theorem lastSuccess_le (outcome : Nat → Settlement) : ∀ n, lastSuccess outcome n ≤ n := by
  intro n
  induction n with
  | zero => exact le_refl _
  | succ n ih =>
    unfold lastSuccess
    split
    · exact le_refl _
    · omega

/-- What `lastSuccess` is: 0 when no check succeeds, and otherwise one more
than the index of a check that succeeds and after which none does. -/
theorem lastSuccess_spec (outcome : Nat → Settlement) : ∀ n,
    (lastSuccess outcome n = 0 ∧ ∀ j, j < n → (outcome j).isSuccess = false)
    ∨ (∃ j, j < n ∧ lastSuccess outcome n = j + 1 ∧ (outcome j).isSuccess = true
        ∧ ∀ j', j < j' → j' < n → (outcome j').isSuccess = false) := by
  intro n
  induction n with
  | zero => exact Or.inl ⟨rfl, fun j hj => absurd hj (Nat.not_lt_zero j)⟩
  | succ n ih =>
    unfold lastSuccess
    cases hs : (outcome n).isSuccess
    · simp only [Bool.false_eq_true, if_false]
      rcases ih with ⟨h0, hall⟩ | ⟨j, hj, hk, hsj, hafter⟩
      · left
        refine ⟨h0, fun j hj => ?_⟩
        rcases Nat.lt_succ_iff_lt_or_eq.mp hj with h | h
        · exact hall j h
        · rw [h]; exact hs
      · right
        refine ⟨j, by omega, hk, hsj, fun j' h1 h2 => ?_⟩
        rcases Nat.lt_succ_iff_lt_or_eq.mp h2 with h | h
        · exact hafter j' h1 h
        · rw [h]; exact hs
    · simp only [if_true]
      right
      exact ⟨n, by omega, rfl, hs, fun j' h1 h2 => by omega⟩

theorem lastSuccess_eq_iff (outcome : Nat → Settlement) (n : Nat) (hn : 0 < n) :
    lastSuccess outcome n = n ↔ (outcome (n - 1)).isSuccess = true := by
  obtain ⟨m, rfl⟩ : ∃ m, n = m + 1 := ⟨n - 1, by omega⟩
  simp only [Nat.add_sub_cancel]
  unfold lastSuccess
  cases hs : (outcome m).isSuccess
  · simp only [Bool.false_eq_true, if_false, iff_false]
    have := lastSuccess_le outcome m
    omega
  · simp

theorem progress_onError (p : Pending) (responseText : String) (w : World) :
    (onError p responseText w).page.progress = w.page.progress := by
  unfold onError
  rw [progress_runNextAction]
  show ((updateScanProgress p.action.id .failed none w.page).append _).progress = _
  exact progress_updateScanProgress _ _ _ _

/-- C22: the `error` callback leaves the overall progress indicator as it is;
and for every run over N checks that reaches `completeScan`, the progress text
then reads "k of N completed", where k is one more than the index of the last
check that succeeded and 0 if none succeeded; for N > 0 it reads "N of N"
exactly when the last check succeeded, however many earlier checks failed. -/
theorem c22_progress_names_last_success (url : String) (actions : List Action)
    (outcome : Nat → Settlement) (page : Page)
    (hdone : Event.completeScan ∈ (runSession url actions outcome page).trace) :
    (runSession url actions outcome page).page.progressText
      = some (toString (lastSuccess outcome actions.length) ++ " of "
          ++ toString actions.length ++ " completed")
    ∧ ((lastSuccess outcome actions.length = 0
          ∧ ∀ j, j < actions.length → (outcome j).isSuccess = false)
        ∨ (∃ j, j < actions.length ∧ lastSuccess outcome actions.length = j + 1
            ∧ (outcome j).isSuccess = true
            ∧ ∀ j', j < j' → j' < actions.length → (outcome j').isSuccess = false))
    ∧ (0 < actions.length →
        (lastSuccess outcome actions.length = actions.length
          ↔ (outcome (actions.length - 1)).isSuccess = true))
    ∧ (∀ (p : Pending) (responseText : String) (w : World),
        (onError p responseText w).page.progress = w.page.progress) := by
  refine ⟨?_, lastSuccess_spec outcome actions.length,
    lastSuccess_eq_iff outcome actions.length, progress_onError⟩
  rw [runSession_eq_loop] at hdone ⊢
  have hret := loopFrom_returns_of_complete url actions outcome actions 0 _
    (by simp) hdone
  have hzero : toString (lastSuccess outcome 0) ++ " of " = "0 of " := by
    have h0 : lastSuccess outcome 0 = 0 := rfl
    rw [h0]
    decide
  have := loopFrom_progressText url actions outcome actions 0
    { page := initializeProgressInterface actions page, currentScanUrl := url } hret rfl
    (by rw [hzero]; rfl)
  simpa using this

/-- C22 at the three checks of the source: with the second request failing the
text ends at "3 of 3 completed", with the last request failing at
"2 of 3 completed". -/
theorem c22_progress_names_last_success_witness :
    Event.completeScan ∈ (runSession "https://example.org" scanActions lastFailsOutcome {}).trace
    ∧ (runSession "https://example.org" scanActions lastFailsOutcome {}).page.progressText
        = some "2 of 3 completed"
    ∧ (runSession "https://example.org" scanActions sampleOutcome {}).page.progressText
        = some "3 of 3 completed" :=
  ⟨by decide,
    (c22_progress_names_last_success "https://example.org" scanActions lastFailsOutcome {}
      (by decide)).1,
    (c22_progress_names_last_success "https://example.org" scanActions sampleOutcome {}
      (by decide)).1⟩

/-! ## C23: the source URLs of a library -/

theorem JsNum.gtNat_ofNat (n b : Nat) : (JsNum.ofNat n).gtNat b = decide (b < n) := by
  show (!false && decide (b < n * 10 ^ 0)) = decide (b < n)
  simp

theorem sourceText_str (s : String) (limit : Nat) :
    sourceText (.str s) limit = .ok (truncated limit s) := by
  unfold sourceText truncated JsVal.get
  simp only [JsVal.nullish, JsVal.prop, JsVal.gtNum, JsVal.toNumber, JsVal.toStr, bind,
    Except.bind, pure, Except.pure, Bool.false_eq_true, if_false, beq_self_eq_true, if_true,
    JsNum.gtNat_ofNat, decide_eq_true_eq]
  by_cases h : (utf16 s).length ≤ limit
  · have h' : ¬ (limit < (utf16 s).length) := by omega
    simp [h, h']
  · have h' : limit < (utf16 s).length := by omega
    simp [h, h']

theorem sourceLink_str (s : String) (limit : Nat) :
    sourceLink (.str s) limit = .ok (shownLink limit s) := by
  unfold sourceLink
  rw [sourceText_str]
  rfl

theorem sourceLinks_str : ∀ urls : List String,
    sourceLinks (urls.map JsVal.str) = .ok (urls.map (shownLink 100)) := by
  intro urls
  induction urls with
  | nil => rfl
  | cons u rest ih =>
    simp only [List.map_cons, sourceLinks, sourceLink_str, ih]
    rfl

theorem sourcesView_str (u : String) (rest : List String) :
    sourcesView ((u :: rest).map JsVal.str) = .ok (some (shownSources u rest)) := by
  cases rest with
  | nil =>
    simp only [List.map_cons, List.map_nil, sourcesView, sourceLink_str]
    rfl
  | cons v vs =>
    have h := sourceLinks_str (v :: vs)
    simp only [List.map_cons] at h
    simp only [List.map_cons, sourcesView, sourceLink_str, bind, Except.bind, h]
    simp [shownSources, pure, Except.pure]

theorem truncated_length_le (limit : Nat) (u : String) (h : 3 ≤ limit) :
    (truncated limit u).length ≤ limit := by
  unfold truncated
  split
  · assumption
  · rw [List.length_append]
    have h3 : (utf16 "...").length = 3 := by decide
    have ht : ((utf16 u).take (limit - 3)).length ≤ limit - 3 := List.length_take_le _ _
    omega

/-- The code units of characters of the Basic Multilingual Plane are the
characters, one for one. -/
theorem utf16Chars_of_bmp : ∀ cs : List Char,
    cs.all (fun c => decide (c.toNat < 0x10000)) = true →
      utf16Chars cs = cs.map Char.toNat := by
  intro cs
  induction cs with
  | nil => intro _; rfl
  | cons c rest ih =>
    intro h
    simp only [List.all_cons, Bool.and_eq_true, decide_eq_true_eq] at h
    simp only [utf16Chars, utf16Char, h.1, if_true, ih h.2, List.map_cons, List.singleton_append]

theorem utf16Chars_append (a b : List Char) :
    utf16Chars (a ++ b) = utf16Chars a ++ utf16Chars b := by
  induction a with
  | nil => rfl
  | cons c rest ih =>
    show utf16Char c ++ utf16Chars (rest ++ b) = utf16Char c ++ utf16Chars rest ++ utf16Chars b
    rw [ih, List.append_assoc]

theorem utf16_append (a b : String) : utf16 (a ++ b) = utf16 a ++ utf16 b := by
  unfold utf16
  rw [String.data_append, utf16Chars_append]

/-- On a string of the Basic Multilingual Plane, length and truncation count
characters. -/
theorem truncated_of_bmp (limit : Nat) (u : String) (h : isBmp u = true) :
    (utf16 u).length = u.length
    ∧ truncated limit u
        = utf16 (if u.length ≤ limit then u else String.mk (u.data.take (limit - 3)) ++ "...") := by
  have hu : utf16 u = u.data.map Char.toNat := utf16Chars_of_bmp u.data h
  have hlen : (utf16 u).length = u.length := by
    rw [hu, List.length_map]
    rfl
  refine ⟨hlen, ?_⟩
  unfold truncated
  rw [hlen]
  split
  · rfl
  · rw [utf16_append]
    congr 1
    have htake : (u.data.take (limit - 3)).all (fun c => decide (c.toNat < 0x10000)) = true := by
      rw [List.all_eq_true]
      intro c hc
      exact (List.all_eq_true.mp h) c (List.mem_of_mem_take hc)
    show (utf16 u).take (limit - 3) = utf16Chars (u.data.take (limit - 3))
    rw [hu, utf16Chars_of_bmp _ htake, List.map_take]

theorem libViews_sources (raw : JsVal) (e : LibEntry) (h : normalizeLibEntry raw = .ok e)
    (u : String) (rest : List String) (hsrc : e.src_urls = (u :: rest).map JsVal.str) :
    ∃ (card : LibCard) (row : LibRow), libViews raw = .ok (card, row)
      ∧ card.sources = some (shownSources u rest)
      ∧ row.sources = some (shownSources u rest) := by
  unfold libViews
  simp only [h, bind, Except.bind, pure, Except.pure, hsrc, sourcesView_str]
  exact ⟨_, _, rfl, rfl, rfl⟩

/-- C23: for every library entry that `normalizeLibEntry` accepts and whose
source URLs are the strings `u` and then `rest`, the card and the row are
built and show the same sources: the first URL with the URL itself as text
when its length is at most 60, and otherwise its first 57 characters followed
by "...", so never more than 60 characters; each further URL in full when
its length is at most 100 and otherwise as its first 97 characters followed
by "...", so never more than 100; and, when there are further URLs, a
"+ k more" count equal to the number of URLs minus one.  Length and
characters are those of JavaScript, UTF-16 code units; for a URL of the Basic
Multilingual Plane they are its length and its characters. -/
theorem c23_source_urls_shown (raw : JsVal) (e : LibEntry) (u : String) (rest : List String)
    (h : normalizeLibEntry raw = .ok e)
    (hsrc : e.src_urls = (u :: rest).map JsVal.str) :
    (∃ (card : LibCard) (row : LibRow), libViews raw = .ok (card, row)
      ∧ card.sources = some (shownSources u rest)
      ∧ row.sources = some (shownSources u rest))
    ∧ (shownSources u rest).first.title = u
    ∧ ((utf16 u).length ≤ 60 → (shownSources u rest).first.text = utf16 u)
    ∧ (60 < (utf16 u).length →
        (shownSources u rest).first.text = (utf16 u).take 57 ++ utf16 "...")
    ∧ (shownSources u rest).first.text.length ≤ 60
    ∧ (isBmp u = true →
        (utf16 u).length = u.length
        ∧ (shownSources u rest).first.text
            = utf16 (if u.length ≤ 60 then u else String.mk (u.data.take 57) ++ "..."))
    ∧ (rest = [] → (shownSources u rest).more = none)
    ∧ (rest ≠ [] →
        (shownSources u rest).more
          = some ((u :: rest).length - 1, rest.map (shownLink 100)))
    ∧ (∀ v ∈ rest, (shownLink 100 v).title = v
        ∧ ((utf16 v).length ≤ 100 → (shownLink 100 v).text = utf16 v)
        ∧ (100 < (utf16 v).length →
            (shownLink 100 v).text = (utf16 v).take 97 ++ utf16 "...")
        ∧ (shownLink 100 v).text.length ≤ 100
        ∧ (isBmp v = true →
            (utf16 v).length = v.length
            ∧ (shownLink 100 v).text
                = utf16 (if v.length ≤ 100 then v
                    else String.mk (v.data.take 97) ++ "..."))) := by
  have htrunc : ∀ (limit : Nat) (s : String),
      ((utf16 s).length ≤ limit → truncated limit s = utf16 s)
      ∧ (limit < (utf16 s).length →
          truncated limit s = (utf16 s).take (limit - 3) ++ utf16 "...") := by
    intro limit s
    unfold truncated
    constructor
    · intro hle; simp [hle]
    · intro hlt
      have : ¬ (utf16 s).length ≤ limit := by omega
      simp [this]
  refine ⟨libViews_sources raw e h u rest hsrc, rfl, (htrunc 60 u).1, (htrunc 60 u).2,
    truncated_length_le 60 u (by decide), fun hb => truncated_of_bmp 60 u hb, ?_, ?_, ?_⟩
  · intro hnil
    rw [hnil]
    rfl
  · intro hne
    cases rest with
    | nil => exact absurd rfl hne
    | cons v vs => rfl
  · intro v _
    exact ⟨rfl, (htrunc 100 v).1, (htrunc 100 v).2, truncated_length_le 100 v (by decide),
      fun hb => truncated_of_bmp 100 v hb⟩

/-- C23 at an entry with a first URL of 80 characters and one further URL,
and at a URL of 60 characters that takes 61 code units: it is cut after 57
code units, the last of them the first half of a surrogate pair. -/
theorem c23_source_urls_shown_witness :
    (∃ e, normalizeLibEntry twoSourcesEntry = .ok e
      ∧ e.src_urls
          = ["https://cdn.example.org/libraries/jquery/3.6.0/dist/jquery.min.js?v=20240101",
             "https://example.org/static/jquery.js"].map JsVal.str)
    ∧ (shownSources
        "https://cdn.example.org/libraries/jquery/3.6.0/dist/jquery.min.js?v=20240101"
        ["https://example.org/static/jquery.js"]).first.text
        = utf16 "https://cdn.example.org/libraries/jquery/3.6.0/dist/jquer..."
    ∧ (shownSources
        "https://cdn.example.org/libraries/jquery/3.6.0/dist/jquery.min.js?v=20240101"
        ["https://example.org/static/jquery.js"]).more
        = some (1, [{ title := "https://example.org/static/jquery.js",
                      text := utf16 "https://example.org/static/jquery.js" }])
    ∧ (∃ (card : LibCard) (row : LibRow), libViews twoSourcesEntry = .ok (card, row)
        ∧ card.sources = some (shownSources
            "https://cdn.example.org/libraries/jquery/3.6.0/dist/jquery.min.js?v=20240101"
            ["https://example.org/static/jquery.js"])
        ∧ row.sources = some (shownSources
            "https://cdn.example.org/libraries/jquery/3.6.0/dist/jquery.min.js?v=20240101"
            ["https://example.org/static/jquery.js"]))
    ∧ astralUrl.length = 60
    ∧ (utf16 astralUrl).length = 61
    ∧ (shownSources astralUrl []).first.text
        = utf16 "https://cdn.example.org/static/vendor/emoji/dist/sprite-" ++ [0xD83D]
            ++ utf16 "..." :=
  ⟨⟨_, rfl, rfl⟩, by decide, by decide,
    (c23_source_urls_shown twoSourcesEntry _
      "https://cdn.example.org/libraries/jquery/3.6.0/dist/jquery.min.js?v=20240101"
      ["https://example.org/static/jquery.js"] rfl rfl).1,
    by decide, by decide,
    ((c23_source_urls_shown astralSourceEntry _ astralUrl [] rfl rfl).2.2.2.1
      (by decide)).trans (by decide)⟩

end Scanner
